import Mathlib

/-! Hotel booking system with loyalty program: a shallow embedding of `src/main.cpp`.

The development follows the classes of the program.

* `CInt` is the C++ `int` (32 bits, two's complement); arithmetic wraps.
* `Str` is `std::string`, a list of characters.
* `Map` is `std::unordered_map`: an association list without duplicate keys
  that keeps its entries in the order of insertion.  The order in which the
  room map is iterated is that of the libstdc++ hash table, `iterationOrder`.
* `Room`, `Customer`, `Hotel` are the classes of the same names.  A
  `shared_ptr<Customer>` held by a session is represented by the key under
  which the directory `customers` stores the object it points to (every
  directory entry owns its own object, so pointer equality is key equality);
  a key absent from the directory stands for an object the directory does
  not own.
* Console output is represented by the `Message` an operation ends with;
  interactive input is a parameter of the operation.
-/

namespace HotelBooking

/-! ## Machine integers and strings -/

/-- The C++ type `int`: the integers from -2^31 to 2^31 - 1. -/
def CInt : Type := { z : Int // -2147483648 ≤ z ∧ z ≤ 2147483647 }

instance : DecidableEq CInt := inferInstanceAs (DecidableEq { z : Int // -2147483648 ≤ z ∧ z ≤ 2147483647 })

namespace CInt

/-- The mathematical value of an `int`. -/
def toInt (a : CInt) : Int := a.val

/-- Reduction of an integer into the range of `int` (two's complement). -/
def wrap (z : Int) : CInt :=
  ⟨(z + 2147483648) % 4294967296 - 2147483648, by omega⟩

/-- Addition of two `int`s, `a + b`. -/
def add (a b : CInt) : CInt := wrap (a.toInt + b.toInt)

/-- Unary minus on `int`, `-a`. -/
def neg (a : CInt) : CInt := wrap (- a.toInt)

/-- The `int` literal of a natural number. -/
def lit (n : Nat) : CInt := wrap n

end CInt

/-- The type `std::string`. -/
abbrev Str : Type := List Char

/-! ## `std::unordered_map` -/

/-- First value stored under key `k` in an association list. -/
def assocFind {K V : Type} [DecidableEq K] (k : K) : List (K × V) → Option V
  | [] => none
  | e :: t => if e.1 = k then some e.2 else assocFind k t

/-- Assignment `m[k] = v` on an association list: overwrite the entry of `k`
where it stands, or add a new entry. -/
def assocSet {K V : Type} [DecidableEq K] (k : K) (v : V) : List (K × V) → List (K × V)
  | [] => [(k, v)]
  | e :: t => if e.1 = k then (k, v) :: t else e :: assocSet k v t

/-- Removal of key `k` from an association list. -/
def assocErase {K V : Type} [DecidableEq K] (k : K) : List (K × V) → List (K × V)
  | [] => []
  | e :: t => if e.1 = k then assocErase k t else e :: assocErase k t

/-- In-place update of the value stored under `k` (a write through
`it->second`), leaving the list as it is when `k` is absent. -/
def assocModify {K V : Type} [DecidableEq K] (k : K) (f : V → V) : List (K × V) → List (K × V)
  | [] => []
  | e :: t => if e.1 = k then (e.1, f e.2) :: t else e :: assocModify k f t

theorem assocSet_keys {K V : Type} [DecidableEq K] (k : K) (v : V) (l : List (K × V)) :
    (assocSet k v l).map Prod.fst = if k ∈ l.map Prod.fst then l.map Prod.fst
      else l.map Prod.fst ++ [k] := by
  induction l with
  | nil => simp [assocSet]
  | cons e t ih =>
    by_cases h : e.1 = k
    · simp [assocSet, h]
    · have h' : ¬ k = e.1 := fun x => h x.symm
      simp only [assocSet, h, if_false, List.map_cons, ih, List.mem_cons, h', false_or]
      split <;> simp

theorem assocSet_nodup {K V : Type} [DecidableEq K] (k : K) (v : V) (l : List (K × V))
    (h : (l.map Prod.fst).Nodup) : ((assocSet k v l).map Prod.fst).Nodup := by
  rw [assocSet_keys]
  split
  · exact h
  · rename_i hk
    rw [List.nodup_append]
    refine ⟨h, List.nodup_singleton k, ?_⟩
    intro a ha hb
    simp only [List.mem_singleton] at hb
    exact hk (hb ▸ ha)

theorem assocErase_keys {K V : Type} [DecidableEq K] (k : K) (l : List (K × V)) :
    (assocErase k l).map Prod.fst = (l.map Prod.fst).filter (fun a => decide (a ≠ k)) := by
  induction l with
  | nil => simp [assocErase]
  | cons e t ih =>
    by_cases h : e.1 = k
    · simp [assocErase, h, ih]
    · simp [assocErase, h, ih]

theorem assocErase_nodup {K V : Type} [DecidableEq K] (k : K) (l : List (K × V))
    (h : (l.map Prod.fst).Nodup) : ((assocErase k l).map Prod.fst).Nodup := by
  rw [assocErase_keys]
  exact h.filter _

theorem assocModify_keys {K V : Type} [DecidableEq K] (k : K) (f : V → V) (l : List (K × V)) :
    (assocModify k f l).map Prod.fst = l.map Prod.fst := by
  induction l with
  | nil => simp [assocModify]
  | cons e t ih =>
    by_cases h : e.1 = k
    · simp [assocModify, h]
    · simp [assocModify, h, ih]

/-- The container `std::unordered_map<K, V>`: its entries, no key twice, kept
in the order in which their keys were inserted.  This is not the order in
which the container is iterated; `iterationOrder` gives that order for a map
with `int` keys. -/
def Map (K V : Type) : Type := { l : List (K × V) // (l.map Prod.fst).Nodup }

instance {K V : Type} [DecidableEq K] [DecidableEq V] : DecidableEq (Map K V) :=
  inferInstanceAs (DecidableEq { l : List (K × V) // (l.map Prod.fst).Nodup })

namespace Map

variable {K V : Type} [DecidableEq K]

/-- The entries, in the order in which their keys were inserted. -/
def entries (m : Map K V) : List (K × V) := m.val

/-- The empty container. -/
def empty : Map K V := ⟨[], List.nodup_nil⟩

/-- Lookup `m.find(k)`: the mapped value, or `none` for `m.end()`. -/
def find? (m : Map K V) (k : K) : Option V := assocFind k m.val

/-- Assignment `m[k] = v`. -/
def insert (m : Map K V) (k : K) (v : V) : Map K V :=
  ⟨assocSet k v m.val, assocSet_nodup k v m.val m.property⟩

/-- Call `m.erase(it)` for the iterator of key `k`. -/
def erase (m : Map K V) (k : K) : Map K V :=
  ⟨assocErase k m.val, assocErase_nodup k m.val m.property⟩

/-- Write through a pointer stored under `k`. -/
def modify (m : Map K V) (k : K) (f : V → V) : Map K V :=
  ⟨assocModify k f m.val, by rw [assocModify_keys]; exact m.property⟩

/-- Read access `m[k]`, which value-initialises a missing entry to `dflt`. -/
def subscript (m : Map K V) (k : K) (dflt : V) : V × Map K V :=
  match m.find? k with
  | some v => (v, m)
  | none => (dflt, m.insert k dflt)

/-- Number of entries, `m.size()`. -/
def size (m : Map K V) : Nat := m.val.length

end Map

/-! ### Iteration order of `std::unordered_map<int, V>`

The hash table of libstdc++ (GCC 12, 64-bit `size_t`) keeps all nodes in one
singly linked list, the nodes of a bucket standing together; a range-for
visits the nodes in the order of this list. -/

/-- The value of `std::hash<int>`: the key converted to `size_t`. -/
def hashInt (k : CInt) : Nat := (k.toInt % 18446744073709551616).toNat

/-- The table `__fast_bkt` of `_Prime_rehash_policy::_M_next_bkt`. -/
def fastBkt : List Nat := [2, 2, 2, 3, 5, 5, 7, 7, 11, 11, 11, 11, 13, 13]

/-- The table `__prime_list` from its entry 17 on, in which `_M_next_bkt`
searches for an argument of 14 or more. -/
def primeList : List Nat :=
  [17, 19, 23, 29, 31, 37, 41, 43, 47, 53, 59, 61, 67, 71, 73, 79, 83, 89, 97, 103, 109, 113,
   127, 137, 139, 149, 157, 167, 179, 193, 199, 211, 227, 241, 257, 277, 293, 313, 337, 359, 383,
   409, 439, 467, 503, 541, 577, 619, 661, 709, 761, 823, 887, 953, 1031, 1109, 1193, 1289, 1381,
   1493, 1613, 1741, 1879, 2029, 2179, 2357, 2549, 2753, 2971, 3209, 3469, 3739, 4027, 4349,
   4703, 5087, 5503, 5953, 6427, 6949, 7517, 8123, 8783, 9497, 10273, 11113, 12011, 12983, 14033,
   15173, 16411, 17749, 19183, 20753, 22447, 24281, 26267, 28411, 30727, 33223, 35933, 38873,
   42043, 45481, 49201, 53201, 57557, 62233, 67307, 72817, 78779, 85229, 92203, 99733, 107897,
   116731, 126271, 136607, 147793, 159871, 172933, 187091, 202409, 218971, 236897, 256279,
   277261, 299951, 324503, 351061, 379787, 410857, 444487, 480881, 520241, 562841, 608903,
   658753, 712697, 771049, 834181, 902483, 976369, 1056323, 1142821, 1236397, 1337629, 1447153,
   1565659, 1693859, 1832561, 1982627, 2144977, 2320627, 2510653, 2716249, 2938679, 3179303,
   3439651, 3721303, 4026031, 4355707, 4712381, 5098259, 5515729, 5967347, 6456007, 6984629,
   7556579, 8175383, 8844859, 9569143, 10352717, 11200489, 12117689, 13109983, 14183539,
   15345007, 16601593, 17961079, 19431899, 21023161, 22744717, 24607243, 26622317, 28802401,
   31160981, 33712729, 36473443, 39460231, 42691603, 46187573, 49969847, 54061849, 58488943,
   63278561, 68460391, 74066549, 80131819, 86693767, 93793069, 101473717, 109783337, 118773397,
   128499677, 139022417, 150406843, 162723577, 176048909, 190465427, 206062531, 222936881,
   241193053, 260944219, 282312799, 305431229, 330442829, 357502601, 386778277, 418451333,
   452718089, 489790921, 529899637, 573292817, 620239453, 671030513, 725980837, 785430967,
   849749479, 919334987, 994618837, 1076067617, 1164186217, 1259520799, 1362662261, 1474249943,
   1594975441, 1725587117, 1866894511, 2019773507, 2185171673, 2364114217, 2557710269,
   2767159799, 2993761039, 3238918481, 3504151727, 3791104843, 4101556399, 4294967291,
   6442450933, 8589934583, 12884901857, 17179869143, 25769803693, 34359738337, 51539607367,
   68719476731, 103079215087, 137438953447, 206158430123, 274877906899, 412316860387,
   549755813881, 824633720731, 1099511627689, 1649267441579, 2199023255531, 3298534883309,
   4398046511093, 6597069766607, 8796093022151, 13194139533241, 17592186044399, 26388279066581,
   35184372088777, 52776558133177, 70368744177643, 105553116266399, 140737488355213,
   211106232532861, 281474976710597, 562949953421231, 1125899906842597, 2251799813685119,
   4503599627370449, 9007199254740881, 18014398509481951, 36028797018963913, 72057594037927931,
   144115188075855859, 288230376151711717, 576460752303423433, 1152921504606846883,
   2305843009213693951, 4611686018427387847, 9223372036854775783, 18446744073709551557]

/-- The function `_Prime_rehash_policy::_M_next_bkt`: the bucket count chosen
for a request of `n` buckets. -/
def nextBkt (n : Nat) : Nat :=
  if n = 0 then 1
  else if n < 14 then fastBkt.getD n 13
  else (primeList.find? (fun p => decide (n ≤ p))).getD 18446744073709551557

/-- The bucket of key `k` in a table of `n` buckets. -/
def bucketIndex (n : Nat) (k : CInt) : Nat := hashInt k % n

/-- The case of `_M_insert_bucket_begin` in which the bucket of the new node
has a node already: the new node is linked in front of the first node of the
bucket.  The result is `none` when the bucket is empty. -/
def insertInBucket {V : Type} (n : Nat) (e : CInt × V) :
    List (CInt × V) → Option (List (CInt × V))
  | [] => none
  | x :: rest =>
    if bucketIndex n x.1 = bucketIndex n e.1 then some (e :: x :: rest)
    else
      match insertInBucket n e rest with
      | some l => some (x :: l)
      | none => none

/-- The function `_M_insert_bucket_begin` on the list of nodes: the new node
becomes the first of its bucket, or, when the bucket is empty, the first of
the whole list. -/
def insertBucketBegin {V : Type} (n : Nat) (e : CInt × V) (l : List (CInt × V)) :
    List (CInt × V) :=
  match insertInBucket n e l with
  | some l1 => l1
  | none => e :: l

/-- The function `_M_rehash_aux` for unique keys: the nodes are taken in
their present order and linked into the table of `n` buckets one by one. -/
def rehashNodes {V : Type} (n : Nat) (l : List (CInt × V)) : List (CInt × V) :=
  l.foldl (fun acc x => insertBucketBegin n x acc) []

/-- The hash table: `_M_bucket_count`, `_M_rehash_policy._M_next_resize`, and
the nodes in the order of the list that starts at `_M_before_begin`. -/
structure Hashtable (V : Type) where
  bucketCount : Nat
  nextResize : Nat
  nodes : List (CInt × V)

/-- The table of a default-constructed map: one bucket, nothing allocated. -/
def Hashtable.empty {V : Type} : Hashtable V := ⟨1, 0, []⟩

/-- The function `_M_insert_unique_node` for a key that the table does not
hold, with the maximal load factor 1: `_M_need_rehash` asks for a larger table
when the new size exceeds `_M_next_resize`, the nodes are then rehashed, and
the new node is linked at the begin of its bucket. -/
def Hashtable.insertNew {V : Type} (t : Hashtable V) (e : CInt × V) : Hashtable V :=
  if t.nodes.length + 1 > t.nextResize then
    let minBkts := max (t.nodes.length + 1) (if t.nextResize = 0 then 11 else 0)
    if minBkts ≥ t.bucketCount then
      let n := nextBkt (max (minBkts + 1) (t.bucketCount * 2))
      ⟨n, n, insertBucketBegin n e (rehashNodes n t.nodes)⟩
    else ⟨t.bucketCount, t.bucketCount, insertBucketBegin t.bucketCount e t.nodes⟩
  else ⟨t.bucketCount, t.nextResize, insertBucketBegin t.bucketCount e t.nodes⟩

/-- The order in which a range-for visits a map with `int` keys, no key ever
erased, whose keys were inserted in the order of `entries`. -/
def iterationOrder {V : Type} (entries : List (CInt × V)) : List (CInt × V) :=
  (entries.foldl Hashtable.insertNew Hashtable.empty).nodes

/-! ## Rooms -/

/-- The three concrete room classes. -/
inductive RoomType where
  | Standard
  | Deluxe
  | Suite
  deriving DecidableEq, Repr

/-- An object of class `Room`.  The price is fixed by the constructor of the
concrete class, so it is a function of `kind`. -/
structure Room where
  roomNumber : CInt
  kind : RoomType
  isBooked : Bool
  deriving DecidableEq

namespace Room

/-- Constructors `StandardRoom(number)`, `DeluxeRoom(number)`,
`SuiteRoom(number)`: the flag starts at `false`. -/
def mk0 (kind : RoomType) (number : CInt) : Room := ⟨number, kind, false⟩

/-- The member `price`, a `double` holding 3000.0, 5000.0 or 8000.0. -/
def getPrice (r : Room) : Nat :=
  match r.kind with
  | .Standard => 3000
  | .Deluxe => 5000
  | .Suite => 8000

/-- The method `getRoomType`. -/
def getRoomType (r : Room) : Str :=
  match r.kind with
  | .Standard => "Standard".toList
  | .Deluxe => "Deluxe".toList
  | .Suite => "Suite".toList

/-- The method `setBooked`. -/
def setBooked (status : Bool) (r : Room) : Room := { r with isBooked := status }

end Room

/-- Number of binary digits of `n`, computed with at most `fuel` halvings. -/
def bitLength : Nat → Nat → Nat
  | 0, _ => 0
  | fuel + 1, n => if n = 0 then 0 else bitLength fuel (n / 2) + 1

/-- The expression `static_cast<int>(price * 0.1)` for a `double` price that
holds the natural number `p > 0`: the literal `0.1` is the binary64 number
`3602879701896397 / 2^55`; the exact product is rounded to a 53-bit
significand (ties to even) and the result is truncated to an integer. -/
def tenthOfPrice (p : Nat) : Nat :=
  let n := p * 3602879701896397
  let bits := bitLength n n
  if bits ≤ 53 then n / 2 ^ 55
  else
    let s := bits - 53
    let q := n / 2 ^ s
    let r := n % 2 ^ s
    let half := 2 ^ (s - 1)
    let m := if half < r ∨ (r = half ∧ q % 2 = 1) then q + 1 else q
    (m * 2 ^ s) / 2 ^ 55

/-! ## Customers -/

/-- The enumeration `Customer::LoyaltyTier`. -/
inductive LoyaltyTier where
  | REGULAR
  | SILVER
  | GOLD
  | PLATINUM
  deriving DecidableEq, Repr

/-- An object of class `Customer`. -/
structure Customer where
  name : Str
  email : Str
  phone : Str
  adhaar : Str
  password : Str
  loyaltyPoints : CInt
  tier : LoyaltyTier
  deriving DecidableEq

namespace Customer

/-- The constructor: zero points, tier `REGULAR`. -/
def new (name email phone adhaar pwd : Str) : Customer :=
  ⟨name, email, phone, adhaar, pwd, CInt.lit 0, .REGULAR⟩

/-- The private method `updateTier`. -/
def updateTier (c : Customer) : Customer :=
  if 1000 ≤ c.loyaltyPoints.toInt then { c with tier := .PLATINUM }
  else if 500 ≤ c.loyaltyPoints.toInt then { c with tier := .GOLD }
  else if 200 ≤ c.loyaltyPoints.toInt then { c with tier := .SILVER }
  else { c with tier := .REGULAR }

/-- The method `addLoyaltyPoints`. -/
def addLoyaltyPoints (points : CInt) (c : Customer) : Customer :=
  if 0 < points.toInt then
    updateTier { c with loyaltyPoints := c.loyaltyPoints.add points }
  else if points.toInt < 0 then
    let c1 := { c with loyaltyPoints := c.loyaltyPoints.add points }
    let c2 := if c1.loyaltyPoints.toInt < 0 then { c1 with loyaltyPoints := CInt.lit 0 } else c1
    updateTier c2
  else c

end Customer

/-! ## The hotel -/

/-- The data members of class `Hotel`. -/
structure Hotel where
  customers : Map Str Customer
  rooms : Map CInt Room
  bookings : Map CInt Str
  deriving DecidableEq

/-- The last line an operation prints. -/
inductive Message where
  | bookedSuccessfully (pointsEarned : CInt)
  | alreadyBookedBy (username : Str)
  | invalidRoomNumber
  | noBookingsToCancel
  | bookingCanceled (pointsDeducted : CInt)
  | noBookingForRoom
  | checkedOutBy (username : Str)
  | bookedButNoRecord
  | alreadyAvailable
  deriving DecidableEq

/-- What ends a run of the program abnormally. -/
inductive Fault where
  | invalid_argument
  | out_of_range
  | nullDereference
  deriving DecidableEq, Repr

deriving instance DecidableEq for Except

namespace Hotel

/-- A hotel whose three containers are empty. -/
def empty : Hotel := ⟨Map.empty, Map.empty, Map.empty⟩

/-- The method `getUsernameByCustomer`: the key of the directory entry that
holds the object `customer` points to, or the empty string. -/
def getUsernameByCustomer (h : Hotel) (customer : Str) : Str :=
  match h.customers.entries.find? (fun e => decide (e.1 = customer)) with
  | some e => e.1
  | none => []

/-- The method `bookRoom`, for the room number that `getValidatedRoomNumber`
returned. -/
def bookRoom (h : Hotel) (customer : Str) (roomNumber : CInt) : Message × Hotel :=
  match h.rooms.find? roomNumber with
  | some room =>
    if !room.isBooked then
      let rooms1 := h.rooms.modify roomNumber (Room.setBooked true)
      let bookings1 := h.bookings.insert roomNumber (h.getUsernameByCustomer customer)
      let pointsEarned := CInt.lit (tenthOfPrice room.getPrice)
      let customers1 := h.customers.modify customer (Customer.addLoyaltyPoints pointsEarned)
      (.bookedSuccessfully pointsEarned, ⟨customers1, rooms1, bookings1⟩)
    else
      let r := h.bookings.subscript roomNumber []
      (.alreadyBookedBy r.1, { h with bookings := r.2 })
  | none => (.invalidRoomNumber, h)

/-- The room numbers that `cancelBooking` collects in `userRooms`. -/
def userRooms (h : Hotel) (customer : Str) : List CInt :=
  (h.bookings.entries.filter (fun e => decide (e.2 = h.getUsernameByCustomer customer))).map Prod.fst

/-- The method `cancelBooking`, for the room number read from the console.
The listing of the customer's rooms and the update of the room go through
`rooms[roomNumber]->`, which dereferences a null pointer when the room is
missing from the catalog. -/
def cancelBooking (h : Hotel) (customer : Str) (roomNumber : CInt) : Except Fault (Message × Hotel) :=
  if h.userRooms customer = [] then .ok (.noBookingsToCancel, h)
  else if (h.userRooms customer).all (fun n => (h.rooms.find? n).isSome) then
    match h.bookings.find? roomNumber with
    | some username =>
      if username = h.getUsernameByCustomer customer then
        let bookings1 := h.bookings.erase roomNumber
        match h.rooms.find? roomNumber with
        | some room =>
          let rooms1 := h.rooms.modify roomNumber (Room.setBooked false)
          let pointsDeducted := CInt.lit (tenthOfPrice room.getPrice)
          let customers1 := h.customers.modify customer (Customer.addLoyaltyPoints pointsDeducted.neg)
          .ok (.bookingCanceled pointsDeducted, ⟨customers1, rooms1, bookings1⟩)
        | none => .error .nullDereference
      else .ok (.noBookingForRoom, h)
    | none => .ok (.noBookingForRoom, h)
  else .error .nullDereference

/-- The method `checkoutRoom`, for the room number read from the console. -/
def checkoutRoom (h : Hotel) (roomNumber : CInt) : Message × Hotel :=
  match h.rooms.find? roomNumber with
  | some room =>
    if room.isBooked then
      let out : Message × Map CInt Str :=
        match h.bookings.find? roomNumber with
        | some username => (.checkedOutBy username, h.bookings.erase roomNumber)
        | none => (.bookedButNoRecord, h.bookings)
      (out.1, { h with bookings := out.2, rooms := h.rooms.modify roomNumber (Room.setBooked false) })
    else (.alreadyAvailable, h)
  | none => (.invalidRoomNumber, h)

end Hotel

/-! ## Text files: lines, fields, numbers -/

/-- The lines that successive calls `getline(file, line)` return for a file
with the given content: the pieces between newline characters, without a
final empty piece. -/
def fileLines : Str → List Str
  | [] => []
  | c :: cs =>
    if c = '\n' then [] :: fileLines cs
    else match fileLines cs with
      | [] => [[c]]
      | l :: ls => (c :: l) :: ls

/-- The characters up to the first delimiter `d`, and what follows it. -/
def takeField (d : Char) : Str → Str × Str
  | [] => ([], [])
  | c :: cs => if c = d then ([], cs) else ((takeField d cs).1.cons c, (takeField d cs).2)

/-- The call `getline(ss, field, d)` on a string stream whose unread part is
`s`: it fails when nothing is left to read, otherwise it yields the field and
the new unread part. -/
def getline (d : Char) (s : Str) : Option (Str × Str) :=
  if s = [] then none else some (takeField d s)

/-- The predicate `isspace` of the C locale. -/
def isSpaceC (c : Char) : Bool :=
  c = ' ' || c = '\t' || c = '\n' || c = Char.ofNat 11 || c = Char.ofNat 12 || c = '\r'

/-- The value of a string of decimal digits. -/
def digitsValue (ds : List Char) : Nat :=
  ds.foldl (fun acc c => 10 * acc + (c.toNat - 48)) 0

/-- The conversion at the end of `std::stoi`, from the sign and the digits
found: `invalid_argument` without a digit, `out_of_range` when the number is
no `int`. -/
def stoiOfDigits (negative : Bool) (ds : List Char) : Except Fault CInt :=
  if ds = [] then .error .invalid_argument
  else
    let v : Int := if negative then - (digitsValue ds : Int) else (digitsValue ds : Int)
    if hv : -2147483648 ≤ v ∧ v ≤ 2147483647 then .ok ⟨v, hv⟩ else .error .out_of_range

/-- The function `std::stoi`: leading white space, an optional sign, then the
longest run of decimal digits. -/
def stoi (s : Str) : Except Fault CInt :=
  let s1 := s.dropWhile isSpaceC
  let negative := decide (s1.head? = some '-')
  let s2 := if s1.head? = some '-' ∨ s1.head? = some '+' then s1.tail else s1
  stoiOfDigits negative (s2.takeWhile Char.isDigit)

/-- The decimal digit `d` as a character. -/
def digitChar (d : Nat) : Char := Char.ofNat (48 + d)

/-- The decimal digits of `n`, most significant first (`fuel` bounds the
number of digits). -/
def natDigits : Nat → Nat → List Char
  | 0, _ => []
  | fuel + 1, n =>
    if n < 10 then [digitChar n] else natDigits fuel (n / 10) ++ [digitChar (n % 10)]

/-- What `file << n` writes for a non-negative number. -/
def showNat (n : Nat) : Str := natDigits (n + 1) n

/-- What `file << z` writes for an `int`. -/
def showInt (z : CInt) : Str :=
  if z.toInt < 0 then '-' :: showNat z.toInt.natAbs else showNat z.toInt.toNat

/-! ## Persistence -/

/-- The content of the three files, `none` for a file that cannot be opened. -/
structure Files where
  customers : Option Str
  rooms : Option Str
  bookings : Option Str

/-- The loop `while (getline(file, line)) { ... }`: the body runs on each
line in turn, and an exception that leaves the body ends the loop. -/
def forEachLine (body : Hotel → Str → Except Fault Hotel) : List Str → Hotel → Except Fault Hotel
  | [], h => .ok h
  | line :: rest, h =>
    match body h line with
    | .ok h1 => forEachLine body rest h1
    | .error e => .error e

namespace Hotel

/-- The record `saveCustomersToFile` writes for one directory entry. -/
def customerRecord (e : Str × Customer) : Str :=
  e.1 ++ ',' :: (e.2.name ++ ',' :: (e.2.email ++ ',' :: (e.2.phone ++ ',' ::
    (e.2.adhaar ++ ',' :: (e.2.password ++ ',' :: showInt e.2.loyaltyPoints)))))

/-- The record `saveRoomsToFile` writes for one catalog entry. -/
def roomRecord (e : CInt × Room) : Str :=
  showInt e.1 ++ ',' :: ((if e.2.isBooked then ['1'] else ['0']) ++ ',' :: e.2.getRoomType)

/-- The record `saveBookingsToFile` writes for one ledger entry. -/
def bookingRecord (e : CInt × Str) : Str :=
  showInt e.1 ++ ',' :: e.2

/-- A file made of the given records, each followed by a newline.  The save
methods below write the records of a container in the order of its
`entries`. -/
def writeRecords (records : List Str) : Str :=
  records.foldr (fun r acc => r ++ '\n' :: acc) []

/-- The method `saveCustomersToFile`: the content written to the file. -/
def saveCustomersToFile (h : Hotel) : Str :=
  writeRecords (h.customers.entries.map customerRecord)

/-- The method `saveRoomsToFile`: the content written to the file. -/
def saveRoomsToFile (h : Hotel) : Str :=
  writeRecords (h.rooms.entries.map roomRecord)

/-- The method `saveBookingsToFile`: the content written to the file. -/
def saveBookingsToFile (h : Hotel) : Str :=
  writeRecords (h.bookings.entries.map bookingRecord)

/-- The body of the loop of `loadCustomersFromFile`.  The call of `stoi` is
not inside a `try` block, so its exceptions leave the method. -/
def loadCustomerLine (h : Hotel) (line : Str) : Except Fault Hotel :=
  match getline ',' line with
  | none => .ok h
  | some (username, r1) =>
  match getline ',' r1 with
  | none => .ok h
  | some (name, r2) =>
  match getline ',' r2 with
  | none => .ok h
  | some (email, r3) =>
  match getline ',' r3 with
  | none => .ok h
  | some (phone, r4) =>
  match getline ',' r4 with
  | none => .ok h
  | some (adhaar, r5) =>
  match getline ',' r5 with
  | none => .ok h
  | some (password, r6) =>
  match getline '\n' r6 with
  | none => .ok h
  | some (pointsStr, _) =>
    match stoi pointsStr with
    | .error e => .error e
    | .ok points =>
      let customer := (Customer.new name email phone adhaar password).addLoyaltyPoints points
      .ok { h with customers := h.customers.insert username customer }

/-- The method `loadCustomersFromFile`. -/
def loadCustomersFromFile (file : Option Str) (h : Hotel) : Except Fault Hotel :=
  match file with
  | none => .ok h
  | some content => forEachLine loadCustomerLine (fileLines content) h

/-- The body of the loop of `loadRoomsFromFile`.  Only `invalid_argument` is
caught around `stoi`. -/
def loadRoomLine (h : Hotel) (line : Str) : Except Fault Hotel :=
  match getline ',' line with
  | none => .ok h
  | some (numStr, r1) =>
  match getline ',' r1 with
  | none => .ok h
  | some (bookedStr, r2) =>
  match getline '\n' r2 with
  | none => .ok h
  | some (roomType, _) =>
    match stoi numStr with
    | .error e => if e = .invalid_argument then .ok h else .error e
    | .ok number =>
      let booked := decide (bookedStr = ['1'])
      if roomType = "Standard".toList then
        .ok { h with rooms := h.rooms.insert number ((Room.mk0 .Standard number).setBooked booked) }
      else if roomType = "Deluxe".toList then
        .ok { h with rooms := h.rooms.insert number ((Room.mk0 .Deluxe number).setBooked booked) }
      else if roomType = "Suite".toList then
        .ok { h with rooms := h.rooms.insert number ((Room.mk0 .Suite number).setBooked booked) }
      else .ok h

/-- The method `loadRoomsFromFile`. -/
def loadRoomsFromFile (file : Option Str) (h : Hotel) : Except Fault Hotel :=
  match file with
  | none => .ok h
  | some content => forEachLine loadRoomLine (fileLines content) h

/-- The body of the loop of `loadBookingsFromFile`.  Both exceptions of
`stoi` are caught. -/
def loadBookingLine (h : Hotel) (line : Str) : Except Fault Hotel :=
  if line = [] then .ok h
  else
    match getline ',' line with
    | none => .ok h
    | some (roomStr, r1) =>
    match getline '\n' r1 with
    | none => .ok h
    | some (username, _) =>
      match stoi roomStr with
      | .error _ => .ok h
      | .ok roomNumber =>
        match h.rooms.find? roomNumber with
        | some _ =>
          .ok { h with
            bookings := h.bookings.insert roomNumber username,
            rooms := h.rooms.modify roomNumber (Room.setBooked true) }
        | none => .ok h

/-- The method `loadBookingsFromFile`. -/
def loadBookingsFromFile (file : Option Str) (h : Hotel) : Except Fault Hotel :=
  match file with
  | none => .ok h
  | some content => forEachLine loadBookingLine (fileLines content) h

/-- The method `initializeRooms`: floors 1 to 5, three rooms each. -/
def initializeRooms (h : Hotel) : Hotel :=
  [1, 2, 3, 4, 5].foldl (fun (h : Hotel) (floor : Nat) =>
    let base := floor * 100
    let rooms1 := h.rooms.insert (CInt.lit (base + 1)) (Room.mk0 .Standard (CInt.lit (base + 1)))
    let rooms2 := rooms1.insert (CInt.lit (base + 2)) (Room.mk0 .Deluxe (CInt.lit (base + 2)))
    let rooms3 := rooms2.insert (CInt.lit (base + 3)) (Room.mk0 .Suite (CInt.lit (base + 3)))
    { h with rooms := rooms3 }) h

/-- The three loads, in the order of the constructor, applied to `h`. -/
def loadAll (fs : Files) (h : Hotel) : Except Fault Hotel :=
  match loadCustomersFromFile fs.customers h with
  | .error e => .error e
  | .ok h1 =>
    match loadRoomsFromFile fs.rooms h1 with
    | .error e => .error e
    | .ok h2 => loadBookingsFromFile fs.bookings h2

/-- The constructor `Hotel()`: the three loads on empty containers, then
`initializeRooms` when no room was loaded. -/
def construct (fs : Files) : Except Fault Hotel :=
  match loadAll fs Hotel.empty with
  | .error e => .error e
  | .ok h3 => if h3.rooms.size = 0 then .ok h3.initializeRooms else .ok h3

/-- The destructor `~Hotel()`: the three files as they are written. -/
def saveAll (h : Hotel) : Files :=
  ⟨some h.saveCustomersToFile, some h.saveRoomsToFile, some h.saveBookingsToFile⟩

end Hotel

/-- A request of a session: a customer books or cancels, the administrator
checks a room out. -/
inductive Action where
  | book (customer : Str) (roomNumber : CInt)
  | cancel (customer : Str) (roomNumber : CInt)
  | checkout (roomNumber : CInt)

/-- The state after one request. -/
def Hotel.step (h : Hotel) : Action → Except Fault Hotel
  | .book customer roomNumber => .ok (h.bookRoom customer roomNumber).2
  | .cancel customer roomNumber =>
    match h.cancelBooking customer roomNumber with
    | .ok out => .ok out.2
    | .error e => .error e
  | .checkout roomNumber => .ok (h.checkoutRoom roomNumber).2

/-- The state after a sequence of requests. -/
def Hotel.run : Hotel → List Action → Except Fault Hotel
  | h, [] => .ok h
  | h, a :: rest =>
    match h.step a with
    | .ok h1 => h1.run rest
    | .error e => .error e

/-! ## Registration -/

/-- The characters of the class `[a-zA-Z0-9._%+-]`. -/
def isEmailLocalChar (c : Char) : Bool :=
  c.isAlphanum || c = '.' || c = '_' || c = '%' || c = '+' || c = '-'

/-- The characters of the class `[a-zA-Z0-9.-]`. -/
def isEmailDomainChar (c : Char) : Bool :=
  c.isAlphanum || c = '.' || c = '-'

namespace Validator

/-- The method `isValidEmail`, a `regex_match` of the whole string against
`[a-zA-Z0-9._%+-]+@[a-zA-Z0-9.-]+\.[a-zA-Z]{2,}`: for some positions `i < j`
the string is a non-empty local part of length `i`, an `@`, a non-empty
domain up to position `j`, a dot, and at least two letters. -/
def isValidEmail (email : Str) : Bool :=
  (List.range (email.length + 1)).any fun i =>
    (List.range (email.length + 1)).any fun j =>
      decide (0 < i) && (email.take i).all isEmailLocalChar &&
      decide ((email.drop i).head? = some '@') &&
      decide (i + 1 < j) && ((email.drop (i + 1)).take (j - (i + 1))).all isEmailDomainChar &&
      decide ((email.drop j).head? = some '.') &&
      decide (2 ≤ (email.drop (j + 1)).length) && (email.drop (j + 1)).all Char.isAlpha

/-- The method `isValidPhone`: exactly ten digits. -/
def isValidPhone (phone : Str) : Bool :=
  decide (phone.length = 10) && phone.all Char.isDigit

/-- The method `isValidAdhaar`: exactly twelve digits. -/
def isValidAdhaar (adhaar : Str) : Bool :=
  decide (adhaar.length = 12) && adhaar.all Char.isDigit

end Validator

/-- The call `getline(cin, s)` on a fresh string, for the lines still to come
on the console: at the end of the input the string stays empty. -/
def readLine : List Str → Str × List Str
  | [] => ([], [])
  | line :: rest => (line, rest)

/-- The loop `while (true) { getline(cin, s); if (valid(s)) break; }`: the
first valid line and the lines after it, or `none` when the input ends before
a valid line comes and the loop does not end. -/
def readValid (valid : Str → Bool) : List Str → Option (Str × List Str)
  | [] => none
  | line :: rest => if valid line then some (line, rest) else readValid valid rest

/-- The last line `registerCustomer` prints. -/
inductive RegistrationMessage where
  | usernameExists
  | registrationSuccessful
  deriving DecidableEq

/-- The method `registerCustomer`, for the lines typed on the console: the
message, the new state and the lines left unread, or `none` when a prompt
loop does not end. -/
def Hotel.registerCustomer (h : Hotel) (input : List Str) :
    Option (RegistrationMessage × Hotel × List Str) :=
  let username := (readLine input).1
  let in1 := (readLine input).2
  if (h.customers.find? username).isSome then some (.usernameExists, h, in1)
  else
    let password := (readLine in1).1
    let in2 := (readLine in1).2
    let name := (readLine in2).1
    let in3 := (readLine in2).2
    match readValid Validator.isValidEmail in3 with
    | none => none
    | some (email, in4) =>
      match readValid Validator.isValidPhone in4 with
      | none => none
      | some (phone, in5) =>
        match readValid Validator.isValidAdhaar in5 with
        | none => none
        | some (adhaar, in6) =>
          let customer := Customer.new name email phone adhaar password
          some (.registrationSuccessful,
            { h with customers := h.customers.insert username customer }, in6)

/-! ## Listings and reports -/

/-- The expression `number / 100` on `int`: division truncated toward zero. -/
def floorOfRoom (number : CInt) : CInt := CInt.wrap (number.toInt.tdiv 100)

/-- The statement `floors[floor].push_back(room)` on the `std::map` of
floors, whose entries are kept in ascending order of the floor. -/
def floorsPush (floor : CInt) (room : Room) : List (CInt × List Room) → List (CInt × List Room)
  | [] => [(floor, [room])]
  | e :: rest =>
    if floor.toInt < e.1.toInt then (floor, [room]) :: e :: rest
    else if floor = e.1 then (e.1, e.2 ++ [room]) :: rest
    else e :: floorsPush floor room rest

/-- The rooms of the catalog in the order in which `for (const auto& pair :
rooms)` visits them. -/
def Hotel.roomsIteration (h : Hotel) : List (CInt × Room) := iterationOrder h.rooms.entries

/-- The method `viewAvailableRooms`: the floors it prints, in the order of
printing, each with the rooms listed under it, in the order of printing. -/
def Hotel.viewAvailableRooms (h : Hotel) : List (CInt × List Room) :=
  h.roomsIteration.foldl
    (fun floors e => if !e.2.isBooked then floorsPush (floorOfRoom e.1) e.2 floors else floors) []

/-- The integer nearest to `n` that has at most 53 significant binary digits,
a tie going to the even significand: the rounding of a binary64 result. -/
def round53 (n : Nat) : Nat :=
  let bits := bitLength n n
  if bits ≤ 53 then n
  else
    let s := bits - 53
    let q := n / 2 ^ s
    let r := n % 2 ^ s
    let half := 2 ^ (s - 1)
    (if half < r ∨ (r = half ∧ q % 2 = 1) then q + 1 else q) * 2 ^ s

/-- A finite `double` that is not negative: the number `num / 2 ^ scale`. -/
structure Dyadic where
  num : Nat
  scale : Nat
  deriving DecidableEq

/-- The binary64 quotient `(double)n / d` of two natural numbers, `d > 0`: the
quotient is computed to 55 or 56 binary digits, a sticky digit records a
remainder, and the result is rounded to 53 digits. -/
def divDouble (n d : Nat) : Dyadic :=
  if n = 0 then ⟨0, 0⟩
  else
    let s := 55 + bitLength d d - bitLength n n
    let q := n * 2 ^ s / d
    let sticky := if n * 2 ^ s % d = 0 then 0 else 1
    ⟨round53 (2 * q + sticky), s + 1⟩

/-- The binary64 product `x * 100.0`. -/
def mulDouble100 (x : Dyadic) : Dyadic := ⟨round53 (x.num * 100), x.scale⟩

/-- What `fixed << setprecision(2)` prints for `x`, in hundredths: the exact
value of the `double` rounded to two decimals, a tie going to the even
digit. -/
def printedHundredths (x : Dyadic) : Nat :=
  let n := x.num * 100
  let q := n / 2 ^ x.scale
  let r := n % 2 ^ x.scale
  if 2 ^ x.scale < 2 * r ∨ (2 * r = 2 ^ x.scale ∧ q % 2 = 1) then q + 1 else q

/-- The figure printed for the occupancy rate. -/
inductive RatePrinted where
  | number (negative : Bool) (hundredths : Nat)
  | inf (negative : Bool)
  | nan
  deriving DecidableEq

/-- The text of a number of hundredths with two decimals. -/
def showHundredths (p : Nat) : Str :=
  showNat (p / 100) ++ '.' :: [digitChar (p / 10 % 10), digitChar (p % 10)]

/-- The expression `(static_cast<double>(bookedRooms) / totalRooms) * 100.0`
as it is printed. -/
def occupancyRate (bookedRooms totalRooms : CInt) : RatePrinted :=
  if totalRooms.toInt = 0 then
    if bookedRooms.toInt = 0 then .nan else .inf (decide (bookedRooms.toInt < 0))
  else
    .number (decide (bookedRooms.toInt < 0) != decide (totalRooms.toInt < 0))
      (printedHundredths
        (mulDouble100 (divDouble bookedRooms.toInt.natAbs totalRooms.toInt.natAbs)))

/-- Subtraction of two `int`s, `a - b`. -/
def CInt.sub (a b : CInt) : CInt := CInt.wrap (a.toInt - b.toInt)

/-- The four figures `generateOccupancyReport` prints. -/
structure OccupancyReport where
  totalRooms : CInt
  bookedRooms : CInt
  availableRooms : CInt
  occupancyRate : RatePrinted
  deriving DecidableEq

/-- The body of `generateOccupancyReport` for the two container sizes. -/
def occupancyReport (roomsSize bookingsSize : Nat) : OccupancyReport :=
  let totalRooms := CInt.lit roomsSize
  let bookedRooms := CInt.lit bookingsSize
  ⟨totalRooms, bookedRooms, totalRooms.sub bookedRooms, occupancyRate bookedRooms totalRooms⟩

/-- The method `generateOccupancyReport`. -/
def Hotel.generateOccupancyReport (h : Hotel) : OccupancyReport :=
  occupancyReport h.rooms.size h.bookings.size

/-! ## Predicates of the specification -/

/-- The booking invariant: a room of the catalog has its flag set exactly
when the ledger has an entry for its number. -/
def BookingInvariant (h : Hotel) : Prop :=
  ∀ n r, h.rooms.find? n = some r → (r.isBooked = true ↔ (h.bookings.find? n).isSome = true)

/-- Every ledger entry is for a room of the catalog. -/
def LedgerInCatalog (h : Hotel) : Prop :=
  ∀ n u, h.bookings.find? n = some u → (h.rooms.find? n).isSome = true

/-- Executable form of `BookingInvariant`: a scan of the catalog. -/
def bookingInvariantB (h : Hotel) : Bool :=
  h.rooms.entries.all (fun e => e.2.isBooked == (h.bookings.find? e.1).isSome)

/-- Executable form of `LedgerInCatalog`: a scan of the ledger. -/
def ledgerInCatalogB (h : Hotel) : Bool :=
  h.bookings.entries.all (fun e => (h.rooms.find? e.1).isSome)

/-- The tier table of the specification. -/
def tierOf (p : Int) : LoyaltyTier :=
  if p ≥ 1000 then .PLATINUM
  else if p ≥ 500 then .GOLD
  else if p ≥ 200 then .SILVER
  else .REGULAR

/-- A customer after the constructor and the `addLoyaltyPoints` calls with
the arguments `deltas`, in order. -/
def customerAfter (name email phone adhaar pwd : Str) (deltas : List CInt) : Customer :=
  deltas.foldl (fun c d => c.addLoyaltyPoints d) (Customer.new name email phone adhaar pwd)

/-- All rooms of the container are unbooked. -/
def AllUnbooked (m : Map CInt Room) : Prop :=
  ∀ n r, m.find? n = some r → r.isBooked = false

/-- The relation between the state after `loadRoomsFromFile` (`h2`) and a
later state of `loadBookingsFromFile`: the rooms are those of `h2`, flagged
when they were flagged in `h2` or have a ledger entry. -/
def FlagsFromLedger (h2 h : Hotel) : Prop :=
  ∀ n, h.rooms.find? n
    = (h2.rooms.find? n).map
        (fun r2 => { r2 with isBooked := r2.isBooked || (h.bookings.find? n).isSome })

/-- Every balance of the directory is between 0 and `bound`. -/
def PointsWithin (bound : Int) (h : Hotel) : Prop :=
  ∀ u c, h.customers.find? u = some c → 0 ≤ c.loyaltyPoints.toInt ∧ c.loyaltyPoints.toInt ≤ bound

/-- Executable form of `PointsWithin`: a scan of the directory. -/
def pointsWithinB (bound : Int) (h : Hotel) : Bool :=
  h.customers.entries.all
    (fun e => decide (0 ≤ e.2.loyaltyPoints.toInt) && decide (e.2.loyaltyPoints.toInt ≤ bound))

/-- A string without a field or record separator. -/
def NoSeparator (s : Str) : Prop := ',' ∉ s ∧ '\n' ∉ s

/-- Executable form of `NoSeparator`. -/
def noSeparatorB (s : Str) : Bool := decide (',' ∉ s ∧ '\n' ∉ s)

/-- The customer that `loadCustomersFromFile` builds from the fields of `c`. -/
def Customer.reloaded (c : Customer) : Customer :=
  (Customer.new c.name c.email c.phone c.adhaar c.password).addLoyaltyPoints c.loyaltyPoints

/-- The conditions under which a directory entry survives in its record. -/
def CustomerSaveable (e : Str × Customer) : Prop :=
  NoSeparator e.1 ∧ NoSeparator e.2.name ∧ NoSeparator e.2.email ∧ NoSeparator e.2.phone ∧
  NoSeparator e.2.adhaar ∧ NoSeparator e.2.password ∧ 0 ≤ e.2.loyaltyPoints.toInt

/-- What the customers file stores of a customer. -/
def Customer.fields (c : Customer) : Str × Str × Str × Str × Str × CInt :=
  (c.name, c.email, c.phone, c.adhaar, c.password, c.loyaltyPoints)

/-- The effect of loading the record of a directory entry. -/
def addCustomer (h : Hotel) (e : Str × Customer) : Hotel :=
  ⟨h.customers.insert e.1 e.2.reloaded, h.rooms, h.bookings⟩

/-- The effect of loading the record of a catalog entry. -/
def addRoom (h : Hotel) (e : CInt × Room) : Hotel :=
  ⟨h.customers, h.rooms.insert e.1 ⟨e.1, e.2.kind, e.2.isBooked⟩, h.bookings⟩

/-- The effect of loading the record of a ledger entry for a catalog room. -/
def addBooking (h : Hotel) (e : CInt × Str) : Hotel :=
  ⟨h.customers, h.rooms.modify e.1 (Room.setBooked true), h.bookings.insert e.1 e.2⟩

/-- The conditions under which the state survives saving and reloading: no
separator in the customer fields, no negative balance, ledger identifiers
that are non-empty and free of newlines, and ledger entries only for catalog
rooms that are flagged booked. -/
def Saveable (h : Hotel) : Prop :=
  (∀ e ∈ h.customers.entries, CustomerSaveable e) ∧
  (∀ e ∈ h.bookings.entries, e.2 ≠ [] ∧ '\n' ∉ e.2 ∧
    ∃ r, h.rooms.find? e.1 = some r ∧ r.isBooked = true)

/-- Executable form of `Saveable`. -/
def saveableB (h : Hotel) : Bool :=
  h.customers.entries.all (fun e =>
    noSeparatorB e.1 && noSeparatorB e.2.name && noSeparatorB e.2.email &&
    noSeparatorB e.2.phone && noSeparatorB e.2.adhaar && noSeparatorB e.2.password &&
    decide (0 ≤ e.2.loyaltyPoints.toInt)) &&
  h.bookings.entries.all (fun e =>
    decide (e.2 ≠ []) && decide ('\n' ∉ e.2) &&
    (match h.rooms.find? e.1 with
      | some r => r.isBooked
      | none => false))

/-- Every ledger entry is for a room of the catalog that is flagged booked. -/
def LedgerBooked (h : Hotel) : Prop :=
  ∀ n u, h.bookings.find? n = some u → ∃ r, h.rooms.find? n = some r ∧ r.isBooked = true

/-- The floors of a listing are in strictly ascending order. -/
def FloorsAscending (floors : List (CInt × List Room)) : Prop :=
  floors.Pairwise (fun a b => a.1.toInt < b.1.toInt)

/-- The unbooked rooms of floor `f`, in the iteration order of the catalog. -/
def availableOnFloor (h : Hotel) (f : CInt) : List Room :=
  (h.roomsIteration.filter (fun e => !e.2.isBooked && decide (floorOfRoom e.1 = f))).map Prod.snd

/-- What holds of the floors built from the catalog entries `done`. -/
def ListingOf (done : List (CInt × Room)) (fl : List (CInt × List Room)) : Prop :=
  FloorsAscending fl ∧
  (∀ g, (assocFind g fl).getD []
    = (done.filter (fun e => !e.2.isBooked && decide (floorOfRoom e.1 = g))).map Prod.snd) ∧
  (∀ x ∈ fl, x.2 ≠ []) ∧
  (fl.map Prod.snd).flatten.Perm ((done.filter (fun e => !e.2.isBooked)).map Prod.snd)

/-- The exact rational `booked / total * 100` rounded to two decimals, in
hundredths, a tie going to the even digit. -/
def exactHundredths (booked total : Nat) : Nat :=
  let q := 10000 * booked / total
  let r := 10000 * booked % total
  if total < 2 * r ∨ (2 * r = total ∧ q % 2 = 1) then q + 1 else q

/-- The exact rational `booked / total * 100` rounded to two decimals, in
hundredths, a tie going up. -/
def exactHundredthsHalfUp (booked total : Nat) : Nat :=
  (2 * 10000 * booked + total) / (2 * total)

/-- The states of a run of the program: the state the constructor builds
from the files, and every state in which `registerCustomer`, `bookRoom`,
`cancelBooking` or `checkoutRoom` ends when called in such a state. -/
inductive Reachable : Hotel → Prop where
  | construct (fs : Files) (h : Hotel) : Hotel.construct fs = .ok h → Reachable h
  | register (h : Hotel) (input : List Str) (out : RegistrationMessage × Hotel × List Str) :
      Reachable h → h.registerCustomer input = some out → Reachable out.2.1
  | book (h : Hotel) (customer : Str) (roomNumber : CInt) :
      Reachable h → Reachable (h.bookRoom customer roomNumber).2
  | cancel (h : Hotel) (customer : Str) (roomNumber : CInt) (out : Message × Hotel) :
      Reachable h → h.cancelBooking customer roomNumber = .ok out → Reachable out.2
  | checkout (h : Hotel) (roomNumber : CInt) :
      Reachable h → Reachable (h.checkoutRoom roomNumber).2

/-! ## Concrete states used to exercise the theorems -/

/-- A customer record with the given name and balance. -/
def sampleCustomer (name : Str) (points : CInt) : Customer :=
  ⟨name, "a@b.in".toList, "9876543210".toList, "123456789012".toList, "pw".toList, points,
    tierOf points.toInt⟩

/-- Rooms 101 (Standard, free) and 102 (Deluxe, booked by alice), customers
alice (0 points) and bob (500 points). -/
def sampleHotel : Hotel :=
  ⟨⟨[("alice".toList, sampleCustomer "Alice".toList (CInt.lit 0)),
      ("bob".toList, sampleCustomer "Bob".toList (CInt.lit 500))], by decide⟩,
   ⟨[(CInt.lit 101, ⟨CInt.lit 101, .Standard, false⟩),
      (CInt.lit 102, ⟨CInt.lit 102, .Deluxe, true⟩)], by decide⟩,
   ⟨[(CInt.lit 102, "alice".toList)], by decide⟩⟩

/-- Files with two customers, two room records, the first flagged booked,
and a bookings record for the second room only. -/
def orphanFiles : Files :=
  ⟨some "alice,Alice,a@b.in,9876543210,123456789012,pw,500\nbob,Bob,a@b.in,9876543210,123456789012,pw,0\n".toList,
   some "101,1,Standard\n102,0,Deluxe\n".toList, some "102,alice\n".toList⟩

/-- The state the constructor builds from `orphanFiles`. -/
def orphanLoaded : Hotel :=
  ⟨⟨[("alice".toList, sampleCustomer "Alice".toList (CInt.lit 500)),
      ("bob".toList, sampleCustomer "Bob".toList (CInt.lit 0))], by decide⟩,
   ⟨[(CInt.lit 101, ⟨CInt.lit 101, .Standard, true⟩),
      (CInt.lit 102, ⟨CInt.lit 102, .Deluxe, true⟩)], by decide⟩,
   ⟨[(CInt.lit 102, "alice".toList)], by decide⟩⟩

/-- A catalog with the free Standard room 101 and a customer whose balance
is the largest `int`. -/
def fullBalanceHotel : Hotel :=
  ⟨⟨[("carol".toList, sampleCustomer "Carol".toList (CInt.lit 2147483647))], by decide⟩,
   ⟨[(CInt.lit 101, ⟨CInt.lit 101, .Standard, false⟩)], by decide⟩,
   ⟨[], by decide⟩⟩

/-- Alice holds room 101 of the catalog and a ledger entry for a room 999
that the catalog does not have. -/
def strayLedgerHotel : Hotel :=
  ⟨⟨[("alice".toList, sampleCustomer "Alice".toList (CInt.lit 300))], by decide⟩,
   ⟨[(CInt.lit 101, ⟨CInt.lit 101, .Standard, true⟩)], by decide⟩,
   ⟨[(CInt.lit 101, "alice".toList), (CInt.lit 999, "alice".toList)], by decide⟩⟩

/-- Dave holds room 101 and has the smallest `int` as balance. -/
def negativeBalanceHotel : Hotel :=
  ⟨⟨[("dave".toList, sampleCustomer "Dave".toList (CInt.wrap (-2147483648)))], by decide⟩,
   ⟨[(CInt.lit 101, ⟨CInt.lit 101, .Standard, true⟩)], by decide⟩,
   ⟨[(CInt.lit 101, "dave".toList)], by decide⟩⟩

/-- Files with one customer holding 2147483647 points and one free room. -/
def fullBalanceFiles : Files :=
  ⟨some "carol,Carol,a@b.in,9876543210,123456789012,pw,2147483647\n".toList,
   some "101,0,Standard\n".toList, none⟩

/-- A short session in `sampleHotel`. -/
def sampleSession : List Action :=
  [.book "bob".toList (CInt.lit 101), .cancel "bob".toList (CInt.lit 101),
   .checkout (CInt.lit 102)]

/-- The state after `sampleSession`. -/
def sampleAfterSession : Hotel :=
  ⟨sampleHotel.customers,
   ⟨[(CInt.lit 101, ⟨CInt.lit 101, .Standard, false⟩),
      (CInt.lit 102, ⟨CInt.lit 102, .Deluxe, false⟩)], by decide⟩,
   ⟨[], by decide⟩⟩

/-- A customer whose name contains a comma. -/
def commaNameHotel : Hotel :=
  ⟨⟨[("eve".toList, sampleCustomer "Adams, Eve".toList (CInt.lit 0))], by decide⟩,
   ⟨[(CInt.lit 101, ⟨CInt.lit 101, .Standard, false⟩)], by decide⟩,
   ⟨[], by decide⟩⟩

/-- A customer registered under the empty identifier who holds room 101. -/
def emptyIdentifierHotel : Hotel :=
  ⟨⟨[([], sampleCustomer "Frank".toList (CInt.lit 300))], by decide⟩,
   ⟨[(CInt.lit 101, ⟨CInt.lit 101, .Standard, true⟩)], by decide⟩,
   ⟨[(CInt.lit 101, [])], by decide⟩⟩

/-- A ledger entry for room 101 whose flag is not set. -/
def unflaggedLedgerHotel : Hotel :=
  ⟨⟨[("alice".toList, sampleCustomer "Alice".toList (CInt.lit 300))], by decide⟩,
   ⟨[(CInt.lit 101, ⟨CInt.lit 101, .Standard, false⟩)], by decide⟩,
   ⟨[(CInt.lit 101, "alice".toList)], by decide⟩⟩

/-- The state after carol, loaded with 2147483647 points, has booked room
101: her balance has wrapped to -2147483349. -/
def wrappedBalanceHotel : Hotel :=
  (fullBalanceHotel.bookRoom "carol".toList (CInt.lit 101)).2

/-- A session in `orphanLoaded`: bob is turned away from the booked room 101,
alice cancels room 102, bob books it, the administrator checks room 101 out
and alice tries to cancel a room she does not hold. -/
def orphanSession : List Action :=
  [.book "bob".toList (CInt.lit 101), .cancel "alice".toList (CInt.lit 102),
   .book "bob".toList (CInt.lit 102), .checkout (CInt.lit 101),
   .cancel "alice".toList (CInt.lit 101)]

/-- A customers file whose first record has a non-numeric points field. -/
def badPointsFile : Str :=
  "u,User,u@b.in,9876543210,123456789012,pw,abc\nv,Vera,v@b.in,9876543210,123456789012,pw,5\n".toList

/-- A customers file whose record has a points field beyond the `int` range. -/
def hugePointsFile : Str :=
  "u,User,u@b.in,9876543210,123456789012,pw,99999999999\n".toList

/-- A rooms file whose first record has a room number beyond the `int` range. -/
def hugeRoomNumberFile : Str := "99999999999,0,Standard\n101,0,Standard\n".toList

/-- A rooms file whose first record has a non-numeric room number. -/
def badRoomNumberFile : Str := "abc,0,Standard\n101,0,Standard\n".toList

/-- The state of the first run: no file exists, `initializeRooms` fills the
catalog. -/
def firstRunHotel : Hotel := Hotel.empty.initializeRooms

/-- The lines alice types to register. -/
def aliceInput : List Str :=
  ["alice".toList, "p1".toList, "Alice".toList, "alice@b.in".toList, "9876543210".toList,
   "123456789012".toList]

/-- The lines bob types to register. -/
def bobInput : List Str :=
  ["bob".toList, "p2".toList, "Bob".toList, "bob@b.in".toList, "9123456780".toList,
   "210987654321".toList]

/-- The state in which `registerCustomer` ends when run in `h` on `input`
(`h` itself when it does not end). -/
def afterRegistration (h : Hotel) (input : List Str) : Hotel :=
  match h.registerCustomer input with
  | some out => out.2.1
  | none => h

/-- The state in which `cancelBooking` ends (`h` itself when it faults). -/
def afterCancel (h : Hotel) (customer : Str) (roomNumber : CInt) : Hotel :=
  match h.cancelBooking customer roomNumber with
  | .ok out => out.2
  | .error _ => h

/-- The balance and tier of a customer of the directory. -/
def pointsAndTier (h : Hotel) (customer : Str) : Option (Int × LoyaltyTier) :=
  (h.customers.find? customer).map (fun c => (c.loyaltyPoints.toInt, c.tier))

/-- The type, price and flag of a room of the catalog. -/
def roomFacts (h : Hotel) (roomNumber : CInt) : Option (RoomType × Nat × Bool) :=
  (h.rooms.find? roomNumber).map (fun r => (r.kind, r.getPrice, r.isBooked))

/-- A rooms file with the records of rooms 101 and 102, both free, and of the
booked room 201, in ascending order of the room number. -/
def ascendingRoomsFile : Str := "101,0,Standard\n102,0,Deluxe\n201,1,Standard\n".toList

/-- The state the constructor builds from `ascendingRoomsFile`. -/
def ascendingHotel : Hotel :=
  ⟨⟨[], by decide⟩,
   ⟨[(CInt.lit 101, ⟨CInt.lit 101, .Standard, false⟩),
      (CInt.lit 102, ⟨CInt.lit 102, .Deluxe, false⟩),
      (CInt.lit 201, ⟨CInt.lit 201, .Standard, true⟩)], by decide⟩,
   ⟨[], by decide⟩⟩

/-- A catalog of `k` Standard rooms numbered from 101, the first `booked` of
them flagged booked. -/
def numberedRooms (k booked : Nat) : List (CInt × Room) :=
  (List.range k).map
    (fun i => (CInt.lit (101 + i), ⟨CInt.lit (101 + i), .Standard, decide (i < booked)⟩))

/-- A ledger with an entry for each of the first `booked` rooms of
`numberedRooms`. -/
def numberedBookings (booked : Nat) : List (CInt × Str) :=
  (List.range booked).map (fun i => (CInt.lit (101 + i), "guest".toList))

theorem numbered_keys_nodup (k : Nat) (hk : k ≤ 100000) :
    ((List.range k).map (fun i => CInt.lit (101 + i))).Nodup := by
  apply List.Nodup.map_on _ (List.nodup_range k)
  intro a ha b hb hab
  rw [List.mem_range] at ha hb
  have h1 : (CInt.lit (101 + a)).toInt = ((101 + a : Nat) : Int) := by
    show ((((101 + a : Nat) : Int) + 2147483648) % 4294967296 - 2147483648) = _
    omega
  have h2 : (CInt.lit (101 + b)).toInt = ((101 + b : Nat) : Int) := by
    show ((((101 + b : Nat) : Int) + 2147483648) % 4294967296 - 2147483648) = _
    omega
  rw [hab] at h1
  rw [h1] at h2
  omega

theorem numberedRooms_nodup (k booked : Nat) (hk : k ≤ 100000) :
    ((numberedRooms k booked).map Prod.fst).Nodup := by
  unfold numberedRooms
  rw [List.map_map]
  exact numbered_keys_nodup k hk

theorem numberedBookings_nodup (booked : Nat) (hk : booked ≤ 100000) :
    ((numberedBookings booked).map Prod.fst).Nodup := by
  unfold numberedBookings
  rw [List.map_map]
  exact numbered_keys_nodup booked hk

/-- A hotel of 160 rooms of which 23 are booked. -/
def busyHotel : Hotel :=
  ⟨Map.empty, ⟨numberedRooms 160 23, numberedRooms_nodup 160 23 (by decide)⟩,
   ⟨numberedBookings 23, numberedBookings_nodup 23 (by decide)⟩⟩

/-- A hotel of 3 rooms of which 2 are booked. -/
def twoOfThreeHotel : Hotel :=
  ⟨Map.empty, ⟨numberedRooms 3 2, numberedRooms_nodup 3 2 (by decide)⟩,
   ⟨numberedBookings 2, numberedBookings_nodup 2 (by decide)⟩⟩

/-- The first-run hotel after alice has registered and booked the three rooms
of floor 1. -/
def threeBookedHotel : Hotel :=
  match (afterRegistration firstRunHotel aliceInput).run
      [.book "alice".toList (CInt.lit 101), .book "alice".toList (CInt.lit 102),
       .book "alice".toList (CInt.lit 103)] with
  | .ok h => h
  | .error _ => firstRunHotel

/-! ## Facts about the containers -/

theorem CInt.toInt_wrap (z : Int) (h1 : -2147483648 ≤ z) (h2 : z ≤ 2147483647) :
    (CInt.wrap z).toInt = z := by
  show (z + 2147483648) % 4294967296 - 2147483648 = z
  omega

theorem CInt.toInt_lit (n : Nat) (h : n ≤ 2147483647) : (CInt.lit n).toInt = n := by
  unfold CInt.lit
  rw [CInt.toInt_wrap] <;> omega

theorem CInt.toInt_range (a : CInt) : -2147483648 ≤ a.toInt ∧ a.toInt ≤ 2147483647 := a.property

theorem CInt.ext (a b : CInt) (h : a.toInt = b.toInt) : a = b := Subtype.ext h

theorem assocFind_assocSet {K V : Type} [DecidableEq K] (k k' : K) (v : V) (l : List (K × V)) :
    assocFind k' (assocSet k v l) = if k = k' then some v else assocFind k' l := by
  induction l with
  | nil => simp [assocSet, assocFind]
  | cons e t ih =>
    simp only [assocSet, assocFind]
    split_ifs <;> simp_all [assocFind]

theorem assocFind_assocErase {K V : Type} [DecidableEq K] (k k' : K) (l : List (K × V)) :
    assocFind k' (assocErase k l) = if k = k' then none else assocFind k' l := by
  induction l with
  | nil => simp [assocErase, assocFind]
  | cons e t ih =>
    simp only [assocErase, assocFind]
    split_ifs <;> simp_all [assocFind]

theorem assocFind_assocModify {K V : Type} [DecidableEq K] (k k' : K) (f : V → V)
    (l : List (K × V)) :
    assocFind k' (assocModify k f l) = if k = k' then (assocFind k' l).map f else assocFind k' l := by
  induction l with
  | nil => simp [assocModify, assocFind]
  | cons e t ih =>
    simp only [assocModify, assocFind]
    split_ifs <;> simp_all [assocFind]

theorem assocFind_mem {K V : Type} [DecidableEq K] (k : K) (v : V) (l : List (K × V))
    (h : assocFind k l = some v) : (k, v) ∈ l := by
  induction l with
  | nil => simp [assocFind] at h
  | cons e t ih =>
    by_cases he : e.1 = k
    · simp only [assocFind, he, if_true, Option.some.injEq] at h
      have : e = (k, v) := Prod.ext he h
      simp [this]
    · simp only [assocFind, he, if_false] at h
      exact List.mem_cons_of_mem _ (ih h)

theorem assocFind_of_mem {K V : Type} [DecidableEq K] (k : K) (v : V) (l : List (K × V))
    (hnd : (l.map Prod.fst).Nodup) (h : (k, v) ∈ l) : assocFind k l = some v := by
  induction l with
  | nil => simp at h
  | cons e t ih =>
    rw [List.map_cons, List.nodup_cons] at hnd
    rcases List.mem_cons.mp h with h1 | h1
    · simp [assocFind, ← h1]
    · have hk : k ∈ t.map Prod.fst := List.mem_map.mpr ⟨(k, v), h1, rfl⟩
      have he : ¬ e.1 = k := fun x => hnd.1 (x ▸ hk)
      simp only [assocFind, he, if_false]
      exact ih hnd.2 h1

theorem assocFind_isSome {K V : Type} [DecidableEq K] (k : K) (l : List (K × V)) :
    (assocFind k l).isSome = true ↔ k ∈ l.map Prod.fst := by
  induction l with
  | nil => simp [assocFind]
  | cons e t ih =>
    by_cases he : e.1 = k
    · simp [assocFind, he]
    · have he' : ¬ k = e.1 := fun x => he x.symm
      simp only [assocFind, he, if_false, ih, List.map_cons, List.mem_cons, he', false_or]

namespace Map

variable {K V : Type} [DecidableEq K]

theorem find?_insert (m : Map K V) (k k' : K) (v : V) :
    (m.insert k v).find? k' = if k = k' then some v else m.find? k' :=
  assocFind_assocSet k k' v m.val

theorem find?_erase (m : Map K V) (k k' : K) :
    (m.erase k).find? k' = if k = k' then none else m.find? k' :=
  assocFind_assocErase k k' m.val

theorem find?_modify (m : Map K V) (k k' : K) (f : V → V) :
    (m.modify k f).find? k' = if k = k' then (m.find? k').map f else m.find? k' :=
  assocFind_assocModify k k' f m.val

theorem find?_iff_mem (m : Map K V) (k : K) (v : V) :
    m.find? k = some v ↔ (k, v) ∈ m.entries :=
  ⟨assocFind_mem k v m.val, assocFind_of_mem k v m.val m.property⟩

theorem find?_empty (k : K) : (Map.empty : Map K V).find? k = none := rfl

theorem subscript_of_find? (m : Map K V) (k : K) (d v : V) (h : m.find? k = some v) :
    m.subscript k d = (v, m) := by
  simp [subscript, h]

end Map

theorem bookingInvariantB_iff (h : Hotel) : bookingInvariantB h = true ↔ BookingInvariant h := by
  unfold bookingInvariantB BookingInvariant
  rw [List.all_eq_true]
  constructor
  · intro hall n r hr
    have := hall (n, r) ((Map.find?_iff_mem _ _ _).mp hr)
    simp only [beq_iff_eq] at this
    rw [this]
  · intro hinv e he
    have := hinv e.1 e.2 ((Map.find?_iff_mem _ _ _).mpr he)
    simp only [beq_iff_eq]
    cases hb : e.2.isBooked <;> cases hs : (h.bookings.find? e.1).isSome <;> simp_all

theorem ledgerInCatalogB_iff (h : Hotel) : ledgerInCatalogB h = true ↔ LedgerInCatalog h := by
  unfold ledgerInCatalogB LedgerInCatalog
  rw [List.all_eq_true]
  constructor
  · intro hall n u hu
    exact hall (n, u) ((Map.find?_iff_mem _ _ _).mp hu)
  · intro hinv e he
    exact hinv e.1 e.2 ((Map.find?_iff_mem _ _ _).mpr he)

theorem tenthOfPrice_standard : tenthOfPrice 3000 = 300 := by decide

theorem tenthOfPrice_deluxe : tenthOfPrice 5000 = 500 := by decide

theorem tenthOfPrice_suite : tenthOfPrice 8000 = 800 := by decide

theorem tenthOfPrice_getPrice (r : Room) :
    tenthOfPrice r.getPrice = match r.kind with
      | .Standard => 300
      | .Deluxe => 500
      | .Suite => 800 := by
  unfold Room.getPrice
  cases r.kind
  · exact tenthOfPrice_standard
  · exact tenthOfPrice_deluxe
  · exact tenthOfPrice_suite

theorem tenthOfPrice_getPrice_le (r : Room) : tenthOfPrice r.getPrice ≤ 800 := by
  rw [tenthOfPrice_getPrice]
  cases r.kind <;> simp

theorem tenthOfPrice_getPrice_pos (r : Room) : 0 < tenthOfPrice r.getPrice := by
  rw [tenthOfPrice_getPrice]
  cases r.kind <;> simp

namespace Hotel

theorem find?_key (c : Str) (l : List (Str × Customer)) :
    (l.find? (fun e => decide (e.1 = c))).map Prod.fst = (assocFind c l).map (fun _ => c) := by
  induction l with
  | nil => simp [assocFind]
  | cons e t ih =>
    by_cases he : e.1 = c
    · simp [List.find?, assocFind, he]
    · simp [List.find?, assocFind, he, ih]

theorem getUsernameByCustomer_registered (h : Hotel) (c : Str) (cust : Customer)
    (hc : h.customers.find? c = some cust) : h.getUsernameByCustomer c = c := by
  have := find?_key c h.customers.entries
  unfold getUsernameByCustomer
  unfold Map.find? at hc
  unfold Map.entries at this ⊢
  rw [hc] at this
  cases hf : List.find? (fun e => decide (e.1 = c)) h.customers.val with
  | none => rw [hf] at this; simp at this
  | some e => rw [hf] at this; simpa using this

theorem getUsernameByCustomer_unregistered (h : Hotel) (c : Str)
    (hc : h.customers.find? c = none) : h.getUsernameByCustomer c = [] := by
  have := find?_key c h.customers.entries
  unfold getUsernameByCustomer
  unfold Map.find? at hc
  unfold Map.entries at this ⊢
  rw [hc] at this
  cases hf : List.find? (fun e => decide (e.1 = c)) h.customers.val with
  | none => rfl
  | some e => rw [hf] at this; simp at this

end Hotel

/-! ## C1: the operations preserve the booking invariant -/

theorem bookRoom_invariant (h : Hotel) (customer : Str) (roomNumber : CInt)
    (hinv : BookingInvariant h) : BookingInvariant (h.bookRoom customer roomNumber).2 := by
  unfold Hotel.bookRoom
  cases hfind : h.rooms.find? roomNumber with
  | none => exact hinv
  | some room =>
    cases hb : room.isBooked with
    | true =>
      have hsome := (hinv roomNumber room hfind).mp hb
      obtain ⟨u, hu⟩ := Option.isSome_iff_exists.mp hsome
      simp only [hb, Bool.not_true, Bool.false_eq_true, if_false,
        Map.subscript_of_find? _ _ _ _ hu]
      exact hinv
    | false =>
      simp only [hb, Bool.not_false, if_true]
      intro n r hr
      simp only [Map.find?_modify, Map.find?_insert] at hr ⊢
      by_cases hn : roomNumber = n
      · subst hn
        simp only [if_true, hfind, Option.map_some'] at hr
        have : r = Room.setBooked true room := by simpa using hr.symm
        simp [this, Room.setBooked]
      · simp only [hn, if_false] at hr ⊢
        exact hinv n r hr

theorem checkoutRoom_invariant (h : Hotel) (roomNumber : CInt)
    (hinv : BookingInvariant h) : BookingInvariant (h.checkoutRoom roomNumber).2 := by
  unfold Hotel.checkoutRoom
  cases hfind : h.rooms.find? roomNumber with
  | none => exact hinv
  | some room =>
    cases hb : room.isBooked with
    | false => simpa [hb] using hinv
    | true =>
      simp only [hb, if_true]
      intro n r hr
      simp only [Map.find?_modify] at hr
      cases hl : h.bookings.find? roomNumber with
      | none =>
        have := (hinv roomNumber room hfind).mp hb
        simp [hl] at this
      | some u =>
        simp only [Map.find?_erase]
        by_cases hn : roomNumber = n
        · subst hn
          simp only [if_true, hfind, Option.map_some'] at hr
          have : r = Room.setBooked false room := by simpa using hr.symm
          simp [this, Room.setBooked]
        · simp only [hn, if_false] at hr ⊢
          exact hinv n r hr

theorem cancelBooking_invariant (h : Hotel) (customer : Str) (roomNumber : CInt)
    (hinv : BookingInvariant h) (out : Message × Hotel)
    (hout : h.cancelBooking customer roomNumber = .ok out) : BookingInvariant out.2 := by
  unfold Hotel.cancelBooking at hout
  split at hout
  · cases hout; exact hinv
  · split at hout
    · split at hout
      · split at hout
        · split at hout
          · rename_i username hl heq room hfind
            cases hout
            intro n r hr
            simp only [Map.find?_modify] at hr
            simp only [Map.find?_erase]
            by_cases hn : roomNumber = n
            · subst hn
              simp only [if_true, hfind, Option.map_some'] at hr
              have : r = Room.setBooked false room := by simpa using hr.symm
              simp [this, Room.setBooked]
            · simp only [hn, if_false] at hr ⊢
              exact hinv n r hr
          · cases hout
        · cases hout; exact hinv
      · cases hout; exact hinv
    · cases hout

theorem userRooms_mem (h : Hotel) (customer : Str) (n : CInt) :
    n ∈ h.userRooms customer ↔ h.bookings.find? n = some (h.getUsernameByCustomer customer) := by
  unfold Hotel.userRooms
  rw [Map.find?_iff_mem]
  simp only [List.mem_map, List.mem_filter, decide_eq_true_eq]
  constructor
  · rintro ⟨e, ⟨he, hu⟩, rfl⟩
    rw [← hu]
    exact he
  · intro hm
    exact ⟨_, ⟨hm, rfl⟩, rfl⟩

theorem cancelBooking_returns (h : Hotel) (customer : Str) (roomNumber : CInt)
    (hcat : ∀ n, h.bookings.find? n = some (h.getUsernameByCustomer customer) →
      (h.rooms.find? n).isSome = true) :
    ∃ out, h.cancelBooking customer roomNumber = .ok out := by
  have hall : (h.userRooms customer).all (fun n => (h.rooms.find? n).isSome) = true := by
    rw [List.all_eq_true]
    intro n hn
    exact hcat n ((userRooms_mem h customer n).mp hn)
  unfold Hotel.cancelBooking
  split
  · exact ⟨_, rfl⟩
  · cases hl : h.bookings.find? roomNumber with
    | none => exact ⟨_, rfl⟩
    | some u =>
      by_cases hu : u = h.getUsernameByCustomer customer
      · have := hcat roomNumber (hu ▸ hl)
        obtain ⟨room, hroom⟩ := Option.isSome_iff_exists.mp this
        simp only [hu, if_true, hroom]
        exact ⟨_, rfl⟩
      · simp only [hu, if_false]
        exact ⟨_, rfl⟩

/-- C1: in a state where every catalog room is flagged booked exactly when the
ledger has an entry for it, the states after `bookRoom`, after `checkoutRoom`
and after `cancelBooking` (accepted or rejected) satisfy the same invariant;
`cancelBooking` does produce a state whenever the ledger rooms of the acting
customer are catalog rooms. -/
theorem C1_booking_invariant_preserved (h : Hotel) (customer : Str) (roomNumber : CInt)
    (hinv : BookingInvariant h) :
    BookingInvariant (h.bookRoom customer roomNumber).2 ∧
    BookingInvariant (h.checkoutRoom roomNumber).2 ∧
    (∀ out, h.cancelBooking customer roomNumber = .ok out → BookingInvariant out.2) ∧
    ((∀ n, h.bookings.find? n = some (h.getUsernameByCustomer customer) →
        (h.rooms.find? n).isSome = true) →
      ∃ out, h.cancelBooking customer roomNumber = .ok out) :=
  ⟨bookRoom_invariant h customer roomNumber hinv,
   checkoutRoom_invariant h roomNumber hinv,
   fun out hout => cancelBooking_invariant h customer roomNumber hinv out hout,
   cancelBooking_returns h customer roomNumber⟩

theorem sampleHotel_invariant : BookingInvariant sampleHotel :=
  (bookingInvariantB_iff sampleHotel).mp (by decide)

/-- C1 at `sampleHotel`, alice acting on room 102. -/
theorem C1_booking_invariant_preserved_witness :
    BookingInvariant sampleHotel ∧
    BookingInvariant (sampleHotel.bookRoom "alice".toList (CInt.lit 102)).2 ∧
    BookingInvariant (sampleHotel.checkoutRoom (CInt.lit 102)).2 ∧
    (∀ out, sampleHotel.cancelBooking "alice".toList (CInt.lit 102) = .ok out →
      BookingInvariant out.2) ∧
    ((∀ n, sampleHotel.bookings.find? n
          = some (sampleHotel.getUsernameByCustomer "alice".toList) →
        (sampleHotel.rooms.find? n).isSome = true) →
      ∃ out, sampleHotel.cancelBooking "alice".toList (CInt.lit 102) = .ok out) :=
  ⟨sampleHotel_invariant,
   C1_booking_invariant_preserved sampleHotel "alice".toList (CInt.lit 102) sampleHotel_invariant⟩

/-! ## C2: the state built by the constructor -/

theorem forEachLine_preserves (P : Hotel → Prop) (body : Hotel → Str → Except Fault Hotel)
    (hstep : ∀ h l h1, P h → body h l = .ok h1 → P h1) :
    ∀ (ls : List Str) (h h1 : Hotel), P h → forEachLine body ls h = .ok h1 → P h1 := by
  intro ls
  induction ls with
  | nil =>
    intro h h1 hP hrun
    simp only [forEachLine, Except.ok.injEq] at hrun
    exact hrun ▸ hP
  | cons l rest ih =>
    intro h h1 hP hrun
    simp only [forEachLine] at hrun
    cases hb : body h l with
    | error e => rw [hb] at hrun; cases hrun
    | ok h2 =>
      rw [hb] at hrun
      exact ih h2 h1 (hstep h l h2 hP hb) hrun

theorem loadCustomerLine_frame (h h1 : Hotel) (l : Str)
    (hl : Hotel.loadCustomerLine h l = .ok h1) :
    h1.rooms = h.rooms ∧ h1.bookings = h.bookings := by
  unfold Hotel.loadCustomerLine at hl
  repeat' split at hl
  all_goals first
    | (cases hl; exact ⟨rfl, rfl⟩)
    | cases hl

theorem loadRoomLine_frame (h h1 : Hotel) (l : Str)
    (hl : Hotel.loadRoomLine h l = .ok h1) :
    h1.customers = h.customers ∧ h1.bookings = h.bookings := by
  unfold Hotel.loadRoomLine at hl
  repeat' split at hl
  all_goals first
    | (cases hl; exact ⟨rfl, rfl⟩)
    | cases hl

theorem loadBookingLine_cases (h h1 : Hotel) (l : Str)
    (hl : Hotel.loadBookingLine h l = .ok h1) :
    h1 = h ∨ ∃ n u, (h.rooms.find? n).isSome = true ∧
      h1 = { h with bookings := h.bookings.insert n u,
                    rooms := h.rooms.modify n (Room.setBooked true) } := by
  unfold Hotel.loadBookingLine at hl
  repeat' split at hl
  all_goals first
    | (cases hl; exact Or.inl rfl)
    | (rename_i n _ hn; cases hl; exact Or.inr ⟨_, _, by rw [hn]; rfl, rfl⟩)

theorem Map.find?_of_size_zero {K V : Type} [DecidableEq K] (m : Map K V) (hs : m.size = 0)
    (k : K) : m.find? k = none := by
  have : m.val = [] := List.length_eq_zero.mp hs
  unfold Map.find?
  rw [this]
  rfl

theorem allUnbooked_insert (m : Map CInt Room) (kind : RoomType) (n : CInt)
    (hm : AllUnbooked m) : AllUnbooked (m.insert n (Room.mk0 kind n)) := by
  intro k r hr
  rw [Map.find?_insert] at hr
  split at hr
  · cases hr; rfl
  · exact hm k r hr

theorem initializeRooms_unbooked (h : Hotel) (hs : h.rooms.size = 0) :
    AllUnbooked h.initializeRooms.rooms ∧ h.initializeRooms.bookings = h.bookings := by
  have h0 : AllUnbooked h.rooms := by
    intro n r hr
    rw [Map.find?_of_size_zero _ hs] at hr
    cases hr
  constructor
  · simp only [Hotel.initializeRooms, List.foldl]
    repeat apply allUnbooked_insert
    exact h0
  · rfl

theorem flagsFromLedger_step (h2 h h1 : Hotel) (l : Str) (hJ : FlagsFromLedger h2 h)
    (hl : Hotel.loadBookingLine h l = .ok h1) : FlagsFromLedger h2 h1 := by
  rcases loadBookingLine_cases h h1 l hl with rfl | ⟨n0, u, _, rfl⟩
  · exact hJ
  · intro n
    simp only [Map.find?_modify, Map.find?_insert]
    by_cases hn : n0 = n
    · simp only [hn, if_true, hJ n, Option.map_map]
      congr 1
      funext r2
      simp [Room.setBooked]
    · simp only [hn, if_false]
      exact hJ n

theorem flagsFromLedger_refl (h2 : Hotel) (hb : ∀ n, h2.bookings.find? n = none) :
    FlagsFromLedger h2 h2 := by
  intro n
  simp only [hb n, Option.isSome_none, Bool.or_false]
  cases h2.rooms.find? n <;> rfl

theorem loadBookings_flags (file : Option Str) (h2 h3 : Hotel)
    (hb : ∀ n, h2.bookings.find? n = none)
    (hl : Hotel.loadBookingsFromFile file h2 = .ok h3) : FlagsFromLedger h2 h3 := by
  unfold Hotel.loadBookingsFromFile at hl
  cases file with
  | none => cases hl; exact flagsFromLedger_refl h2 hb
  | some content =>
    exact forEachLine_preserves (FlagsFromLedger h2) Hotel.loadBookingLine
      (fun h l h1 hJ hstep => flagsFromLedger_step h2 h h1 l hJ hstep)
      _ h2 h3 (flagsFromLedger_refl h2 hb) hl

theorem loadCustomers_frame (file : Option Str) (h h1 : Hotel)
    (hl : Hotel.loadCustomersFromFile file h = .ok h1) :
    h1.rooms = h.rooms ∧ h1.bookings = h.bookings := by
  unfold Hotel.loadCustomersFromFile at hl
  cases file with
  | none => cases hl; exact ⟨rfl, rfl⟩
  | some content =>
    exact forEachLine_preserves (fun x => x.rooms = h.rooms ∧ x.bookings = h.bookings)
      Hotel.loadCustomerLine
      (fun a l b hP hstep =>
        ⟨(loadCustomerLine_frame a b l hstep).1.trans hP.1,
         (loadCustomerLine_frame a b l hstep).2.trans hP.2⟩)
      _ h h1 ⟨rfl, rfl⟩ hl

theorem loadRooms_frame (file : Option Str) (h h1 : Hotel)
    (hl : Hotel.loadRoomsFromFile file h = .ok h1) :
    h1.customers = h.customers ∧ h1.bookings = h.bookings := by
  unfold Hotel.loadRoomsFromFile at hl
  cases file with
  | none => cases hl; exact ⟨rfl, rfl⟩
  | some content =>
    exact forEachLine_preserves (fun x => x.customers = h.customers ∧ x.bookings = h.bookings)
      Hotel.loadRoomLine
      (fun a l b hP hstep =>
        ⟨(loadRoomLine_frame a b l hstep).1.trans hP.1,
         (loadRoomLine_frame a b l hstep).2.trans hP.2⟩)
      _ h h1 ⟨rfl, rfl⟩ hl

theorem ledgerInCatalog_step (h h1 : Hotel) (l : Str) (hP : LedgerInCatalog h)
    (hl : Hotel.loadBookingLine h l = .ok h1) : LedgerInCatalog h1 := by
  rcases loadBookingLine_cases h h1 l hl with rfl | ⟨n0, u, hn0, rfl⟩
  · exact hP
  · intro n v hv
    simp only [Map.find?_insert] at hv
    simp only [Map.find?_modify]
    by_cases hn : n0 = n
    · subst hn
      simpa using hn0
    · simp only [hn, if_false] at hv ⊢
      exact hP n v hv

theorem loadBookings_ledger_in_catalog (file : Option Str) (h2 h3 : Hotel)
    (hb : ∀ n, h2.bookings.find? n = none)
    (hl : Hotel.loadBookingsFromFile file h2 = .ok h3) : LedgerInCatalog h3 := by
  have h0 : LedgerInCatalog h2 := by
    intro n u hu
    rw [hb n] at hu
    cases hu
  unfold Hotel.loadBookingsFromFile at hl
  cases file with
  | none => cases hl; exact h0
  | some content =>
    exact forEachLine_preserves LedgerInCatalog Hotel.loadBookingLine
      (fun h l h1 hJ hstep => ledgerInCatalog_step h h1 l hJ hstep)
      _ h2 h3 h0 hl

/-- C2 (as amended): when the constructor completes on the given files, every
room of the state it builds is flagged booked exactly when the ledger has an
entry for it or the room came out of `loadRoomsFromFile` flagged booked; so a
ledger entry always implies the flag, and the booking invariant holds whenever
no room comes out of `loadRoomsFromFile` flagged booked. -/
theorem C2_invariant_after_load (fs : Files) (h : Hotel)
    (hc : Hotel.construct fs = .ok h) :
    ∃ h1 h2, Hotel.loadCustomersFromFile fs.customers Hotel.empty = .ok h1 ∧
      Hotel.loadRoomsFromFile fs.rooms h1 = .ok h2 ∧
      (∀ n r, h.rooms.find? n = some r →
        (r.isBooked = true ↔
          ((h.bookings.find? n).isSome = true ∨
            ∃ r2, h2.rooms.find? n = some r2 ∧ r2.isBooked = true))) ∧
      (∀ n r, h.rooms.find? n = some r → (h.bookings.find? n).isSome = true →
        r.isBooked = true) ∧
      (AllUnbooked h2.rooms → BookingInvariant h) := by
  unfold Hotel.construct Hotel.loadAll at hc
  cases hl1 : Hotel.loadCustomersFromFile fs.customers Hotel.empty with
  | error e => rw [hl1] at hc; cases hc
  | ok h1 =>
    cases hl2 : Hotel.loadRoomsFromFile fs.rooms h1 with
    | error e => rw [hl1] at hc; simp only [hl2] at hc; cases hc
    | ok h2 =>
      rw [hl1] at hc
      simp only [hl2] at hc
      cases hl3 : Hotel.loadBookingsFromFile fs.bookings h2 with
      | error e => rw [hl3] at hc; cases hc
      | ok h3 =>
        rw [hl3] at hc
        have hb2 : ∀ n, h2.bookings.find? n = none := by
          intro n
          rw [(loadRooms_frame _ _ _ hl2).2, (loadCustomers_frame _ _ _ hl1).2]
          rfl
        have hJ := loadBookings_flags _ h2 h3 hb2 hl3
        have key : ∀ n r, h.rooms.find? n = some r →
            (r.isBooked = true ↔
              ((h.bookings.find? n).isSome = true ∨
                ∃ r2, h2.rooms.find? n = some r2 ∧ r2.isBooked = true)) := by
          intro n r hr
          by_cases hs : h3.rooms.size = 0
          · simp only [hs, if_true, Except.ok.injEq] at hc
            subst hc
            have hu := initializeRooms_unbooked h3 hs
            have h3none : h3.rooms.find? n = none := Map.find?_of_size_zero _ hs n
            have hJn := hJ n
            rw [h3none] at hJn
            have h2none : h2.rooms.find? n = none := by
              cases hx : h2.rooms.find? n with
              | none => rfl
              | some r2 => rw [hx] at hJn; cases hJn
            have hbnone : h3.bookings.find? n = none := by
              cases hx : h3.bookings.find? n with
              | none => rfl
              | some u =>
                exfalso
                have hfl := loadBookings_ledger_in_catalog fs.bookings h2 h3 hb2 hl3 n u hx
                rw [h3none] at hfl
                cases hfl
            rw [hu.1 n r hr, hu.2, hbnone, h2none]
            simp
          · simp only [hs, if_false, Except.ok.injEq] at hc
            subst hc
            have hJn := hJ n
            rw [hr] at hJn
            cases hx : h2.rooms.find? n with
            | none => rw [hx] at hJn; cases hJn
            | some r2 =>
              rw [hx] at hJn
              simp only [Option.map_some', Option.some.injEq] at hJn
              subst hJn
              simp [Bool.or_eq_true, or_comm]
        refine ⟨h1, h2, rfl, hl2, key, ?_, ?_⟩
        · intro n r hr hs
          exact (key n r hr).mpr (Or.inl hs)
        · intro hun n r hr
          rw [key n r hr]
          constructor
          · rintro (hs | ⟨r2, hr2, hb⟩)
            · exact hs
            · rw [hun n r2 hr2] at hb
              cases hb
          · exact Or.inl

theorem construct_orphanFiles : Hotel.construct orphanFiles = .ok orphanLoaded := by decide

/-- C2 at `orphanFiles`. -/
theorem C2_invariant_after_load_witness :
    ∃ h1 h2, Hotel.loadCustomersFromFile orphanFiles.customers Hotel.empty = .ok h1 ∧
      Hotel.loadRoomsFromFile orphanFiles.rooms h1 = .ok h2 ∧
      (∀ n r, orphanLoaded.rooms.find? n = some r →
        (r.isBooked = true ↔
          ((orphanLoaded.bookings.find? n).isSome = true ∨
            ∃ r2, h2.rooms.find? n = some r2 ∧ r2.isBooked = true))) ∧
      (∀ n r, orphanLoaded.rooms.find? n = some r →
        (orphanLoaded.bookings.find? n).isSome = true → r.isBooked = true) ∧
      (AllUnbooked h2.rooms → BookingInvariant orphanLoaded) :=
  C2_invariant_after_load orphanFiles orphanLoaded construct_orphanFiles

/-- C2 fails as stated: from a rooms file with the record `101,1,Standard`
and a bookings file without a record for room 101 the constructor builds a
state in which room 101 is flagged booked and the ledger has no entry for
it. -/
theorem C2_invariant_after_load_counterexample :
    Hotel.construct orphanFiles = .ok orphanLoaded ∧
    orphanLoaded.rooms.find? (CInt.lit 101) = some ⟨CInt.lit 101, .Standard, true⟩ ∧
    orphanLoaded.bookings.find? (CInt.lit 101) = none ∧
    ¬ BookingInvariant orphanLoaded := by
  refine ⟨by decide, by decide, by decide, ?_⟩
  rw [← bookingInvariantB_iff]
  decide

/-! ## C3: booking an available room -/

/-- C3 (as amended): booking a free catalog room for a registered customer
reports success, sets the room's flag and records room number -> customer
identifier in the ledger, whatever the balance; when the new balance fits in
an `int`, it raises the customer's points by exactly `floor(price * 0.10)`,
which is 300 for Standard, 500 for Deluxe, 800 for Suite. -/
theorem C3_bookRoom_available (h : Hotel) (customer : Str) (roomNumber : CInt)
    (room : Room) (cust : Customer)
    (hroom : h.rooms.find? roomNumber = some room) (hfree : room.isBooked = false)
    (hcust : h.customers.find? customer = some cust) :
    (h.bookRoom customer roomNumber).1
      = .bookedSuccessfully (CInt.lit (tenthOfPrice room.getPrice)) ∧
    (h.bookRoom customer roomNumber).2.rooms.find? roomNumber
      = some { room with isBooked := true } ∧
    (h.bookRoom customer roomNumber).2.bookings.find? roomNumber = some customer ∧
    (cust.loyaltyPoints.toInt + tenthOfPrice room.getPrice ≤ 2147483647 →
      ∃ cust1, (h.bookRoom customer roomNumber).2.customers.find? customer = some cust1 ∧
        cust1.loyaltyPoints.toInt = cust.loyaltyPoints.toInt + tenthOfPrice room.getPrice) ∧
    tenthOfPrice room.getPrice = (match room.kind with
      | .Standard => 300
      | .Deluxe => 500
      | .Suite => 800) := by
  have hname := Hotel.getUsernameByCustomer_registered h customer cust hcust
  have hpos := tenthOfPrice_getPrice_pos room
  have hle := tenthOfPrice_getPrice_le room
  have hlit : (CInt.lit (tenthOfPrice room.getPrice)).toInt = tenthOfPrice room.getPrice :=
    CInt.toInt_lit _ (by omega)
  have hrange := CInt.toInt_range cust.loyaltyPoints
  unfold Hotel.bookRoom
  simp only [hroom, hfree, Bool.not_false, if_true, Map.find?_modify, Map.find?_insert,
    hcust, Option.map_some', hname]
  refine ⟨trivial, rfl, trivial, fun hfit => ⟨_, rfl, ?_⟩, tenthOfPrice_getPrice room⟩
  have h0 : (0 : Int) < (CInt.lit (tenthOfPrice room.getPrice)).toInt := by rw [hlit]; omega
  simp only [Customer.addLoyaltyPoints, h0, if_true, Customer.updateTier]
  have hsum : (cust.loyaltyPoints.add (CInt.lit (tenthOfPrice room.getPrice))).toInt
      = cust.loyaltyPoints.toInt + tenthOfPrice room.getPrice := by
    unfold CInt.add
    rw [hlit, CInt.toInt_wrap] <;> omega
  split_ifs <;> exact hsum

/-- C3 at `sampleHotel`: bob (500 points) books the free Standard room 101. -/
theorem C3_bookRoom_available_witness :
    (sampleHotel.bookRoom "bob".toList (CInt.lit 101)).1
      = .bookedSuccessfully (CInt.lit (tenthOfPrice 3000)) ∧
    (sampleHotel.bookRoom "bob".toList (CInt.lit 101)).2.rooms.find? (CInt.lit 101)
      = some ⟨CInt.lit 101, .Standard, true⟩ ∧
    (sampleHotel.bookRoom "bob".toList (CInt.lit 101)).2.bookings.find? (CInt.lit 101)
      = some "bob".toList ∧
    ((CInt.lit 500).toInt + tenthOfPrice 3000 ≤ 2147483647 →
      ∃ cust1, (sampleHotel.bookRoom "bob".toList (CInt.lit 101)).2.customers.find? "bob".toList
          = some cust1 ∧
        cust1.loyaltyPoints.toInt = (CInt.lit 500).toInt + tenthOfPrice 3000) ∧
    tenthOfPrice 3000 = 300 :=
  C3_bookRoom_available sampleHotel "bob".toList (CInt.lit 101)
    ⟨CInt.lit 101, .Standard, false⟩ (sampleCustomer "Bob".toList (CInt.lit 500))
    (by decide) (by decide) (by decide)

/-- C3 fails as stated: carol is registered with 2147483647 points and room
101 is a free Standard room, yet after `bookRoom` her balance is -2147483349,
not 2147483647 + 300. -/
theorem C3_bookRoom_available_counterexample :
    fullBalanceHotel.rooms.find? (CInt.lit 101) = some ⟨CInt.lit 101, .Standard, false⟩ ∧
    fullBalanceHotel.customers.find? "carol".toList
      = some (sampleCustomer "Carol".toList (CInt.lit 2147483647)) ∧
    (CInt.lit 2147483647).toInt = 2147483647 ∧
    ((fullBalanceHotel.bookRoom "carol".toList (CInt.lit 101)).2.customers.find?
        "carol".toList).map (fun c => c.loyaltyPoints.toInt) = some (-2147483349) ∧
    ¬ ∃ cust1, (fullBalanceHotel.bookRoom "carol".toList (CInt.lit 101)).2.customers.find?
        "carol".toList = some cust1 ∧
      cust1.loyaltyPoints.toInt = 2147483647 + 300 := by
  refine ⟨by decide, by decide, by decide, by decide, ?_⟩
  rintro ⟨cust1, h1, h2⟩
  have := CInt.toInt_range cust1.loyaltyPoints
  omega

/-! ## C4: booking a room that is already booked -/

theorem bookRoom_rejected_unchanged (h : Hotel) (customer : Str) (roomNumber : CInt)
    (room : Room) (username : Str)
    (hroom : h.rooms.find? roomNumber = some room) (hbooked : room.isBooked = true)
    (hledger : h.bookings.find? roomNumber = some username) :
    h.bookRoom customer roomNumber = (.alreadyBookedBy username, h) := by
  unfold Hotel.bookRoom
  simp only [hroom, hbooked, Bool.not_true, Bool.false_eq_true, if_false,
    Map.subscript_of_find? _ _ _ _ hledger]

/-- C4 fails on the code: the constructor builds `orphanLoaded` from
`orphanFiles`; there room 101 exists and is flagged booked and the ledger has
no entry for it, and the rejected `bookRoom` call of bob leaves a new ledger
entry 101 -> "" behind, so the ledger and its set of keys have changed. -/
theorem C4_bookRoom_rejected_inserts_ledger_key :
    Hotel.construct orphanFiles = .ok orphanLoaded ∧
    orphanLoaded.rooms.find? (CInt.lit 101) = some ⟨CInt.lit 101, .Standard, true⟩ ∧
    (orphanLoaded.customers.find? "bob".toList).isSome = true ∧
    orphanLoaded.bookings.find? (CInt.lit 101) = none ∧
    orphanLoaded.bookings.size = 1 ∧
    (orphanLoaded.bookRoom "bob".toList (CInt.lit 101)).1 = .alreadyBookedBy [] ∧
    (orphanLoaded.bookRoom "bob".toList (CInt.lit 101)).2.bookings.find? (CInt.lit 101)
      = some [] ∧
    (orphanLoaded.bookRoom "bob".toList (CInt.lit 101)).2.bookings.size = 2 ∧
    (orphanLoaded.bookRoom "bob".toList (CInt.lit 101)).2 ≠ orphanLoaded := by
  decide

/-! ## C5: cancellation by the occupant -/

theorem updateTier_points (c : Customer) : c.updateTier.loyaltyPoints = c.loyaltyPoints := by
  unfold Customer.updateTier
  split_ifs <;> rfl

theorem updateTier_tier (c : Customer) : c.updateTier.tier = tierOf c.loyaltyPoints.toInt := by
  unfold Customer.updateTier tierOf
  split_ifs <;> rfl

theorem addLoyaltyPoints_neg (c : Customer) (d : CInt) (hd : d.toInt < 0)
    (hfit : -2147483648 ≤ c.loyaltyPoints.toInt + d.toInt) :
    (c.addLoyaltyPoints d).loyaltyPoints.toInt = max 0 (c.loyaltyPoints.toInt + d.toInt) ∧
    (c.addLoyaltyPoints d).tier = tierOf (c.addLoyaltyPoints d).loyaltyPoints.toInt := by
  have hr := CInt.toInt_range c.loyaltyPoints
  have hsum : (c.loyaltyPoints.add d).toInt = c.loyaltyPoints.toInt + d.toInt := by
    unfold CInt.add
    rw [CInt.toInt_wrap] <;> omega
  have h0 : ¬ (0 < d.toInt) := by omega
  unfold Customer.addLoyaltyPoints
  simp only [h0, if_false, hd, if_true, updateTier_points, updateTier_tier, and_true]
  by_cases hneg : (c.loyaltyPoints.add d).toInt < 0
  · simp only [hneg, if_true]
    rw [hsum] at hneg
    have : (CInt.lit 0).toInt = 0 := CInt.toInt_lit 0 (by omega)
    rw [this]
    omega
  · simp only [hneg, if_false]
    rw [hsum] at hneg ⊢
    omega

/-- C5 (as amended): in a state with the booking invariant where the ledger
rooms of the acting customer are all catalog rooms, for a catalog room whose
ledger entry names the acting registered customer, and a balance of at least
-2147483648 + floor(price * 0.10) (any non-negative balance), `cancelBooking`
succeeds, removes the ledger entry, clears the room's flag and sets the points
to max(0, points - floor(price * 0.10)), the tier being the one of the new
points. -/
theorem C5_cancelBooking_success (h : Hotel) (customer : Str) (roomNumber : CInt)
    (room : Room) (cust : Customer)
    (_hinv : BookingInvariant h)
    (hroom : h.rooms.find? roomNumber = some room)
    (hledger : h.bookings.find? roomNumber = some (h.getUsernameByCustomer customer))
    (hcust : h.customers.find? customer = some cust)
    (hlist : ∀ n, h.bookings.find? n = some (h.getUsernameByCustomer customer) →
      (h.rooms.find? n).isSome = true)
    (hfit : -2147483648 ≤ cust.loyaltyPoints.toInt - tenthOfPrice room.getPrice) :
    ∃ out, h.cancelBooking customer roomNumber
        = .ok (.bookingCanceled (CInt.lit (tenthOfPrice room.getPrice)), out) ∧
      out.bookings.find? roomNumber = none ∧
      out.rooms.find? roomNumber = some { room with isBooked := false } ∧
      ∃ cust1, out.customers.find? customer = some cust1 ∧
        cust1.loyaltyPoints.toInt
          = max 0 (cust.loyaltyPoints.toInt - tenthOfPrice room.getPrice) ∧
        cust1.tier = tierOf cust1.loyaltyPoints.toInt := by
  have hpos := tenthOfPrice_getPrice_pos room
  have hle := tenthOfPrice_getPrice_le room
  have hlit : (CInt.lit (tenthOfPrice room.getPrice)).toInt = tenthOfPrice room.getPrice :=
    CInt.toInt_lit _ (by omega)
  have hneg : (CInt.lit (tenthOfPrice room.getPrice)).neg.toInt
      = - (tenthOfPrice room.getPrice : Int) := by
    unfold CInt.neg
    rw [hlit, CInt.toInt_wrap] <;> omega
  have hmem : roomNumber ∈ h.userRooms customer := (userRooms_mem h customer roomNumber).mpr hledger
  have hne : ¬ h.userRooms customer = [] := fun x => by rw [x] at hmem; simp at hmem
  have hall : (h.userRooms customer).all (fun n => (h.rooms.find? n).isSome) = true := by
    rw [List.all_eq_true]
    intro n hn
    exact hlist n ((userRooms_mem h customer n).mp hn)
  have hadd := addLoyaltyPoints_neg cust (CInt.lit (tenthOfPrice room.getPrice)).neg
    (by rw [hneg]; omega) (by rw [hneg]; omega)
  rw [hneg] at hadd
  unfold Hotel.cancelBooking
  simp only [hne, if_false, hall, if_true, hledger, hroom]
  refine ⟨_, rfl, ?_, ?_, ?_⟩
  · simp [Map.find?_erase]
  · simp [Map.find?_modify, hroom, Room.setBooked]
  · refine ⟨cust.addLoyaltyPoints (CInt.lit (tenthOfPrice room.getPrice)).neg, ?_, ?_, hadd.2⟩
    · simp [Map.find?_modify, hcust]
    · rw [hadd.1]
      rfl

theorem sampleHotel_cancel_hyps :
    BookingInvariant sampleHotel ∧
    sampleHotel.rooms.find? (CInt.lit 102) = some ⟨CInt.lit 102, .Deluxe, true⟩ ∧
    sampleHotel.bookings.find? (CInt.lit 102)
      = some (sampleHotel.getUsernameByCustomer "alice".toList) ∧
    sampleHotel.customers.find? "alice".toList
      = some (sampleCustomer "Alice".toList (CInt.lit 0)) ∧
    ledgerInCatalogB sampleHotel = true :=
  ⟨sampleHotel_invariant, by decide, by decide, by decide, by decide⟩

/-- C5 at `sampleHotel`: alice (0 points) cancels the Deluxe room 102. -/
theorem C5_cancelBooking_success_witness :
    ∃ out, sampleHotel.cancelBooking "alice".toList (CInt.lit 102)
        = .ok (.bookingCanceled (CInt.lit (tenthOfPrice 5000)), out) ∧
      out.bookings.find? (CInt.lit 102) = none ∧
      out.rooms.find? (CInt.lit 102) = some ⟨CInt.lit 102, .Deluxe, false⟩ ∧
      ∃ cust1, out.customers.find? "alice".toList = some cust1 ∧
        cust1.loyaltyPoints.toInt = max 0 ((CInt.lit 0).toInt - tenthOfPrice 5000) ∧
        cust1.tier = tierOf cust1.loyaltyPoints.toInt :=
  C5_cancelBooking_success sampleHotel "alice".toList (CInt.lit 102)
    ⟨CInt.lit 102, .Deluxe, true⟩ (sampleCustomer "Alice".toList (CInt.lit 0))
    sampleHotel_cancel_hyps.1 sampleHotel_cancel_hyps.2.1 sampleHotel_cancel_hyps.2.2.1
    sampleHotel_cancel_hyps.2.2.2.1
    (fun n hn => (ledgerInCatalogB_iff sampleHotel).mp sampleHotel_cancel_hyps.2.2.2.2 n _ hn)
    (by decide)

/-- C5 fails as stated in two states that satisfy the booking invariant.  In
`strayLedgerHotel` alice cancels her catalog room 101 and the call ends in a
null dereference while her rooms are listed.  In `wrappedBalanceHotel` carol
cancels room 101 with a balance of -2147483349 and ends with 2147483647
points instead of max(0, -2147483349 - 300) = 0. -/
theorem C5_cancelBooking_success_counterexample :
    (bookingInvariantB strayLedgerHotel = true ∧
      strayLedgerHotel.bookings.find? (CInt.lit 101)
        = some (strayLedgerHotel.getUsernameByCustomer "alice".toList) ∧
      strayLedgerHotel.cancelBooking "alice".toList (CInt.lit 101)
        = .error .nullDereference) ∧
    (bookingInvariantB wrappedBalanceHotel = true ∧
      ledgerInCatalogB wrappedBalanceHotel = true ∧
      wrappedBalanceHotel.bookings.find? (CInt.lit 101)
        = some (wrappedBalanceHotel.getUsernameByCustomer "carol".toList) ∧
      (wrappedBalanceHotel.customers.find? "carol".toList).map
        (fun c => c.loyaltyPoints.toInt) = some (-2147483349) ∧
      (wrappedBalanceHotel.cancelBooking "carol".toList (CInt.lit 101)).toOption.bind
        (fun out => (out.2.customers.find? "carol".toList).map
          (fun c => c.loyaltyPoints.toInt)) = some 2147483647 ∧
      max (0 : Int) (-2147483349 - 300) = 0) := by
  decide

/-! ## C7: administrative checkout -/

/-- C7: `checkoutRoom` on a catalog room flagged booked clears the flag,
leaves no ledger entry for the room, and touches nothing else: the
customers (points and tiers) are the same and so are all other rooms and
ledger entries.  On a catalog room that is not booked, and on an unknown room
number, it is rejected and returns the state as it was. -/
theorem C7_checkoutRoom (h : Hotel) (roomNumber : CInt) :
    (∀ room, h.rooms.find? roomNumber = some room → room.isBooked = true →
      ((h.checkoutRoom roomNumber).1 = .bookedButNoRecord ∨
        ∃ u, (h.checkoutRoom roomNumber).1 = .checkedOutBy u) ∧
      (h.checkoutRoom roomNumber).2.rooms.find? roomNumber
        = some { room with isBooked := false } ∧
      (h.checkoutRoom roomNumber).2.bookings.find? roomNumber = none ∧
      (h.checkoutRoom roomNumber).2.customers = h.customers ∧
      ∀ m, m ≠ roomNumber →
        (h.checkoutRoom roomNumber).2.rooms.find? m = h.rooms.find? m ∧
        (h.checkoutRoom roomNumber).2.bookings.find? m = h.bookings.find? m) ∧
    (∀ room, h.rooms.find? roomNumber = some room → room.isBooked = false →
      h.checkoutRoom roomNumber = (.alreadyAvailable, h)) ∧
    (h.rooms.find? roomNumber = none → h.checkoutRoom roomNumber = (.invalidRoomNumber, h)) := by
  refine ⟨?_, ?_, ?_⟩
  · intro room hroom hb
    have hout : h.checkoutRoom roomNumber =
        ((match h.bookings.find? roomNumber with
          | some username => (Message.checkedOutBy username, h.bookings.erase roomNumber)
          | none => (Message.bookedButNoRecord, h.bookings)).1,
         { h with
           bookings := (match h.bookings.find? roomNumber with
             | some username => (Message.checkedOutBy username, h.bookings.erase roomNumber)
             | none => (Message.bookedButNoRecord, h.bookings)).2,
           rooms := h.rooms.modify roomNumber (Room.setBooked false) }) := by
      unfold Hotel.checkoutRoom
      simp only [hroom, hb, if_true]
    rw [hout]
    cases hl : h.bookings.find? roomNumber with
    | none =>
      refine ⟨Or.inl rfl, ?_, hl, rfl, ?_⟩
      · simp [Map.find?_modify, hroom, Room.setBooked]
      · intro m hm
        have : ¬ roomNumber = m := fun x => hm x.symm
        simp [Map.find?_modify, this]
    | some u =>
      refine ⟨Or.inr ⟨u, rfl⟩, ?_, ?_, rfl, ?_⟩
      · simp [Map.find?_modify, hroom, Room.setBooked]
      · simp [Map.find?_erase]
      · intro m hm
        have : ¬ roomNumber = m := fun x => hm x.symm
        simp [Map.find?_modify, Map.find?_erase, this]
  · intro room hroom hb
    unfold Hotel.checkoutRoom
    simp [hroom, hb]
  · intro hroom
    unfold Hotel.checkoutRoom
    simp [hroom]

/-- C7 at `sampleHotel`: room 102 is booked, room 101 is free, room 999 is
unknown. -/
theorem C7_checkoutRoom_witness :
    (((sampleHotel.checkoutRoom (CInt.lit 102)).1 = .bookedButNoRecord ∨
        ∃ u, (sampleHotel.checkoutRoom (CInt.lit 102)).1 = .checkedOutBy u) ∧
      (sampleHotel.checkoutRoom (CInt.lit 102)).2.rooms.find? (CInt.lit 102)
        = some ⟨CInt.lit 102, .Deluxe, false⟩ ∧
      (sampleHotel.checkoutRoom (CInt.lit 102)).2.bookings.find? (CInt.lit 102) = none ∧
      (sampleHotel.checkoutRoom (CInt.lit 102)).2.customers = sampleHotel.customers ∧
      ∀ m, m ≠ CInt.lit 102 →
        (sampleHotel.checkoutRoom (CInt.lit 102)).2.rooms.find? m = sampleHotel.rooms.find? m ∧
        (sampleHotel.checkoutRoom (CInt.lit 102)).2.bookings.find? m
          = sampleHotel.bookings.find? m) ∧
    sampleHotel.checkoutRoom (CInt.lit 101) = (.alreadyAvailable, sampleHotel) ∧
    sampleHotel.checkoutRoom (CInt.lit 999) = (.invalidRoomNumber, sampleHotel) :=
  ⟨(C7_checkoutRoom sampleHotel (CInt.lit 102)).1 ⟨CInt.lit 102, .Deluxe, true⟩
      (by decide) (by decide),
   (C7_checkoutRoom sampleHotel (CInt.lit 101)).2.1 ⟨CInt.lit 101, .Standard, false⟩
      (by decide) (by decide),
   (C7_checkoutRoom sampleHotel (CInt.lit 999)).2.2 (by decide)⟩

/-! ## C8: the points balance and the range of `int` -/

theorem pointsWithinB_iff (bound : Int) (h : Hotel) :
    pointsWithinB bound h = true ↔ PointsWithin bound h := by
  unfold pointsWithinB PointsWithin
  rw [List.all_eq_true]
  constructor
  · intro hall u c hc
    have := hall (u, c) ((Map.find?_iff_mem _ _ _).mp hc)
    simpa using this
  · intro hP e he
    have := hP e.1 e.2 ((Map.find?_iff_mem _ _ _).mpr he)
    simpa using this

theorem addLoyaltyPoints_nonneg (c : Customer) (d : CInt)
    (hc : 0 ≤ c.loyaltyPoints.toInt)
    (hfit : c.loyaltyPoints.toInt + d.toInt ≤ 2147483647) :
    (c.addLoyaltyPoints d).loyaltyPoints.toInt = max 0 (c.loyaltyPoints.toInt + d.toInt) := by
  have hr := CInt.toInt_range d
  rcases lt_trichotomy d.toInt 0 with hneg | hzero | hpos
  · exact (addLoyaltyPoints_neg c d hneg (by omega)).1
  · unfold Customer.addLoyaltyPoints
    have h1 : ¬ (0 < d.toInt) := by omega
    have h2 : ¬ (d.toInt < 0) := by omega
    simp only [h1, h2, if_false]
    omega
  · unfold Customer.addLoyaltyPoints
    simp only [hpos, if_true, updateTier_points]
    unfold CInt.add
    rw [CInt.toInt_wrap] <;> omega

theorem modify_pointsWithin (h : Hotel) (customer : Str) (d : CInt) (b b1 : Int)
    (hP : PointsWithin b h) (hb : b ≤ b1)
    (hd : ∀ p : Int, 0 ≤ p → p ≤ b → p + d.toInt ≤ b1 ∧ p + d.toInt ≤ 2147483647) :
    ∀ u c, (h.customers.modify customer (Customer.addLoyaltyPoints d)).find? u = some c →
      0 ≤ c.loyaltyPoints.toInt ∧ c.loyaltyPoints.toInt ≤ b1 := by
  intro u c hc
  rw [Map.find?_modify] at hc
  split at hc
  · cases hx : h.customers.find? u with
    | none => rw [hx] at hc; cases hc
    | some c0 =>
      rw [hx] at hc
      simp only [Option.map_some', Option.some.injEq] at hc
      subst hc
      have h0 := hP u c0 hx
      have h1 := hd c0.loyaltyPoints.toInt h0.1 h0.2
      rw [addLoyaltyPoints_nonneg c0 d h0.1 h1.2]
      omega
  · have := hP u c hc
    omega

theorem bookRoom_pointsWithin (h : Hotel) (customer : Str) (roomNumber : CInt) (b : Int)
    (hP : PointsWithin b h) (hb : b + 800 ≤ 2147483647) :
    PointsWithin (b + 800) (h.bookRoom customer roomNumber).2 := by
  have hweak : PointsWithin (b + 800) h := fun u c hc => ⟨(hP u c hc).1, by have := (hP u c hc).2; omega⟩
  unfold Hotel.bookRoom
  cases hroom : h.rooms.find? roomNumber with
  | none => exact hweak
  | some room =>
    cases hbk : room.isBooked with
    | true =>
      simp only [hbk, Bool.not_true, Bool.false_eq_true, if_false]
      exact hweak
    | false =>
      simp only [hbk, Bool.not_false, if_true]
      have hle := tenthOfPrice_getPrice_le room
      have hlit : (CInt.lit (tenthOfPrice room.getPrice)).toInt = tenthOfPrice room.getPrice :=
        CInt.toInt_lit _ (by omega)
      exact modify_pointsWithin h customer _ b (b + 800) hP (by omega)
        (fun p _ hp => by rw [hlit]; omega)

theorem cancelBooking_pointsWithin (h : Hotel) (customer : Str) (roomNumber : CInt) (b : Int)
    (hP : PointsWithin b h) (out : Message × Hotel)
    (hout : h.cancelBooking customer roomNumber = .ok out) : PointsWithin b out.2 := by
  unfold Hotel.cancelBooking at hout
  split at hout
  · cases hout; exact hP
  · split at hout
    · split at hout
      · split at hout
        · split at hout
          · rename_i username hl heq room hfind
            cases hout
            have hle := tenthOfPrice_getPrice_le room
            have hlit : (CInt.lit (tenthOfPrice room.getPrice)).toInt
                = tenthOfPrice room.getPrice := CInt.toInt_lit _ (by omega)
            have hneg : (CInt.lit (tenthOfPrice room.getPrice)).neg.toInt
                = - (tenthOfPrice room.getPrice : Int) := by
              unfold CInt.neg
              rw [hlit, CInt.toInt_wrap] <;> omega
            intro u c hc
            simp only [Map.find?_modify] at hc
            split at hc
            · cases hx : h.customers.find? u with
              | none => rw [hx] at hc; cases hc
              | some c0 =>
                rw [hx] at hc
                simp only [Option.map_some', Option.some.injEq] at hc
                subst hc
                have h0 := hP u c0 hx
                have hr := CInt.toInt_range c0.loyaltyPoints
                rw [addLoyaltyPoints_nonneg c0 _ h0.1 (by rw [hneg]; omega), hneg]
                omega
            · exact hP u c hc
          · cases hout
        · cases hout; exact hP
      · cases hout; exact hP
    · cases hout

theorem checkoutRoom_customers (h : Hotel) (roomNumber : CInt) :
    (h.checkoutRoom roomNumber).2.customers = h.customers := by
  unfold Hotel.checkoutRoom
  split
  · split <;> rfl
  · rfl

theorem step_pointsWithin (h h1 : Hotel) (a : Action) (b : Int)
    (hP : PointsWithin b h) (hb : b + 800 ≤ 2147483647)
    (hstep : h.step a = .ok h1) : PointsWithin (b + 800) h1 := by
  cases a with
  | book customer roomNumber =>
    simp only [Hotel.step, Except.ok.injEq] at hstep
    subst hstep
    exact bookRoom_pointsWithin h customer roomNumber b hP hb
  | cancel customer roomNumber =>
    simp only [Hotel.step] at hstep
    cases hc : h.cancelBooking customer roomNumber with
    | error e => rw [hc] at hstep; cases hstep
    | ok out =>
      rw [hc] at hstep
      simp only [Except.ok.injEq] at hstep
      subst hstep
      intro u c hu
      have := cancelBooking_pointsWithin h customer roomNumber b hP out hc u c hu
      omega
  | checkout roomNumber =>
    simp only [Hotel.step, Except.ok.injEq] at hstep
    subst hstep
    intro u c hu
    rw [checkoutRoom_customers] at hu
    have := hP u c hu
    omega

theorem run_pointsWithin (acts : List Action) :
    ∀ (h h1 : Hotel) (b : Int), PointsWithin b h → b + 800 * acts.length ≤ 2147483647 →
      h.run acts = .ok h1 → PointsWithin (b + 800 * acts.length) h1 := by
  induction acts with
  | nil =>
    intro h h1 b hP _ hrun
    simp only [Hotel.run, Except.ok.injEq] at hrun
    subst hrun
    simpa using hP
  | cons a rest ih =>
    intro h h1 b hP hb hrun
    simp only [List.length_cons, Nat.cast_add, Nat.cast_one] at hb ⊢
    simp only [Hotel.run] at hrun
    cases hs : h.step a with
    | error e => rw [hs] at hrun; cases hrun
    | ok h2 =>
      rw [hs] at hrun
      have h2P := step_pointsWithin h h2 a b hP (by omega) hs
      have := ih h2 h1 (b + 800) h2P (by omega) hrun
      have heq : b + 800 + 800 * (rest.length : Int) = b + 800 * ((rest.length : Int) + 1) := by
        ring
      rw [← heq]
      exact this

theorem new_addLoyaltyPoints_points (name email phone adhaar pwd : Str) (points : CInt) :
    ((Customer.new name email phone adhaar pwd).addLoyaltyPoints points).loyaltyPoints.toInt
      = max 0 points.toInt := by
  have hr := CInt.toInt_range points
  have h0 : (Customer.new name email phone adhaar pwd).loyaltyPoints.toInt = 0 :=
    CInt.toInt_lit 0 (by omega)
  rw [addLoyaltyPoints_nonneg _ points (by omega) (by omega), h0, zero_add]

theorem loadCustomerLine_cases (h h1 : Hotel) (l : Str)
    (hl : Hotel.loadCustomerLine h l = .ok h1) :
    h1 = h ∨ ∃ username name email phone adhaar password points,
      h1 = ⟨h.customers.insert username
        ((Customer.new name email phone adhaar password).addLoyaltyPoints points),
        h.rooms, h.bookings⟩ := by
  unfold Hotel.loadCustomerLine at hl
  repeat' split at hl
  all_goals first
    | (cases hl; exact Or.inl rfl)
    | (cases hl; exact Or.inr ⟨_, _, _, _, _, _, _, rfl⟩)
    | cases hl

theorem loadCustomerLine_nonneg (h h1 : Hotel) (l : Str)
    (hP : PointsWithin 2147483647 h)
    (hl : Hotel.loadCustomerLine h l = .ok h1) : PointsWithin 2147483647 h1 := by
  rcases loadCustomerLine_cases h h1 l hl with rfl | ⟨username, name, email, phone, adhaar,
    password, points, rfl⟩
  · exact hP
  · intro u c hc
    simp only [Map.find?_insert] at hc
    split at hc
    · simp only [Option.some.injEq] at hc
      subst hc
      rw [new_addLoyaltyPoints_points]
      have hr := CInt.toInt_range points
      omega
    · exact hP u c hc

theorem loadCustomers_nonneg (file : Option Str) (h h1 : Hotel)
    (hP : PointsWithin 2147483647 h)
    (hl : Hotel.loadCustomersFromFile file h = .ok h1) : PointsWithin 2147483647 h1 := by
  unfold Hotel.loadCustomersFromFile at hl
  cases file with
  | none => cases hl; exact hP
  | some content =>
    exact forEachLine_preserves (PointsWithin 2147483647) Hotel.loadCustomerLine
      (fun a l b hJ hstep => loadCustomerLine_nonneg a b l hJ hstep) _ h h1 hP hl

theorem foldl_deductions_zero (ds : List CInt) :
    ∀ c : Customer, c.loyaltyPoints.toInt = 0 → (∀ d ∈ ds, d.toInt ≤ 0) →
      (ds.foldl (fun c d => c.addLoyaltyPoints d) c).loyaltyPoints.toInt = 0 := by
  induction ds with
  | nil => intro c hc _; exact hc
  | cons d rest ih =>
    intro c hc hds
    have hd := hds d (List.mem_cons_self d rest)
    have hstep := addLoyaltyPoints_nonneg c d (by omega) (by omega)
    exact ih (c.addLoyaltyPoints d) (by rw [hstep]; omega)
      (fun x hx => hds x (List.mem_cons_of_mem d hx))

/-- C8 (as amended): for a customer with points >= 0 and an `int` delta with
points + delta <= 2147483647, `addLoyaltyPoints(delta)` leaves the balance
max(0, points + delta), which is >= 0; deductions that each exceed the
balance leave it at 0; the only ceiling is the largest `int`.  Customers
loaded by `loadCustomersFromFile` have points >= 0, and a sequence of
book/cancel/checkout requests keeps all balances >= 0 as long as the largest
balance plus 800 per request stays within 2147483647. -/
theorem C8_points_nonnegative_within_int (c : Customer) (delta : CInt) (ds : List CInt)
    (file : Option Str) (h h1 : Hotel) (acts : List Action) (g g1 : Hotel) (b : Int) :
    (Customer.new c.name c.email c.phone c.adhaar c.password).loyaltyPoints.toInt = 0 ∧
    (0 ≤ c.loyaltyPoints.toInt → c.loyaltyPoints.toInt + delta.toInt ≤ 2147483647 →
      (c.addLoyaltyPoints delta).loyaltyPoints.toInt
          = max 0 (c.loyaltyPoints.toInt + delta.toInt) ∧
        0 ≤ (c.addLoyaltyPoints delta).loyaltyPoints.toInt) ∧
    (0 ≤ c.loyaltyPoints.toInt → ds ≠ [] →
      (∀ d ∈ ds, c.loyaltyPoints.toInt + d.toInt ≤ 0) →
      (ds.foldl (fun c d => c.addLoyaltyPoints d) c).loyaltyPoints.toInt = 0) ∧
    (PointsWithin 2147483647 h → Hotel.loadCustomersFromFile file h = .ok h1 →
      PointsWithin 2147483647 h1) ∧
    (PointsWithin b g → b + 800 * acts.length ≤ 2147483647 → g.run acts = .ok g1 →
      PointsWithin (b + 800 * acts.length) g1) := by
  refine ⟨CInt.toInt_lit 0 (by omega), ?_, ?_, ?_, ?_⟩
  · intro h0 hfit
    have := addLoyaltyPoints_nonneg c delta h0 hfit
    exact ⟨this, by rw [this]; omega⟩
  · intro h0 hne hds
    cases ds with
    | nil => exact absurd rfl hne
    | cons d rest =>
      have hd := hds d (List.mem_cons_self d rest)
      have hstep := addLoyaltyPoints_nonneg c d h0 (by omega)
      simp only [List.foldl]
      exact foldl_deductions_zero rest (c.addLoyaltyPoints d) (by rw [hstep]; omega)
        (fun x hx => by have := hds x (List.mem_cons_of_mem d hx); omega)
  · exact loadCustomers_nonneg file h h1
  · exact run_pointsWithin acts g g1 b

/-- C8 for bob's 500 points with the deltas 300 and twice -800, for the load
of `fullBalanceFiles`, and for `sampleSession` run in `sampleHotel`. -/
theorem C8_points_nonnegative_within_int_witness :
    (Customer.new "Bob".toList "a@b.in".toList "9876543210".toList "123456789012".toList
        "pw".toList).loyaltyPoints.toInt = 0 ∧
    ((sampleCustomer "Bob".toList (CInt.lit 500)).addLoyaltyPoints (CInt.lit 300)).loyaltyPoints.toInt
        = max 0 ((CInt.lit 500).toInt + (CInt.lit 300).toInt) ∧
    ([(CInt.lit 800).neg, (CInt.lit 800).neg].foldl (fun c d => c.addLoyaltyPoints d)
        (sampleCustomer "Bob".toList (CInt.lit 500))).loyaltyPoints.toInt = 0 ∧
    PointsWithin 2147483647 ⟨fullBalanceHotel.customers, Map.empty, Map.empty⟩ ∧
    PointsWithin (500 + 800 * sampleSession.length) sampleAfterSession :=
  ⟨(C8_points_nonnegative_within_int (sampleCustomer "Bob".toList (CInt.lit 500))
        (CInt.lit 300) [] none Hotel.empty Hotel.empty [] Hotel.empty Hotel.empty 0).1,
   ((C8_points_nonnegative_within_int (sampleCustomer "Bob".toList (CInt.lit 500))
        (CInt.lit 300) [] none Hotel.empty Hotel.empty [] Hotel.empty Hotel.empty 0).2.1
      (by decide) (by decide)).1,
   (C8_points_nonnegative_within_int (sampleCustomer "Bob".toList (CInt.lit 500))
        (CInt.lit 300) [(CInt.lit 800).neg, (CInt.lit 800).neg] none Hotel.empty Hotel.empty []
        Hotel.empty Hotel.empty 0).2.2.1
      (by decide) (by decide) (by decide),
   (C8_points_nonnegative_within_int (sampleCustomer "Bob".toList (CInt.lit 500))
        (CInt.lit 300) [] fullBalanceFiles.customers Hotel.empty
        ⟨fullBalanceHotel.customers, Map.empty, Map.empty⟩ [] Hotel.empty Hotel.empty 0).2.2.2.1
      ((pointsWithinB_iff _ _).mp (by decide)) (by decide),
   (C8_points_nonnegative_within_int (sampleCustomer "Bob".toList (CInt.lit 500))
        (CInt.lit 300) [] none Hotel.empty Hotel.empty sampleSession sampleHotel
        sampleAfterSession 500).2.2.2.2
      ((pointsWithinB_iff _ _).mp (by decide)) (by decide) (by decide)⟩

/-- C8 fails as stated: adding 1 to a balance of 2147483647 gives
-2147483648, which is negative and is not max(0, 2147483647 + 1).  The
balance is reached by a load: the constructor builds `fullBalanceHotel` from
`fullBalanceFiles`, and carol's booking of room 101 then leaves her with
-2147483349 points. -/
theorem C8_points_nonnegative_counterexample :
    (sampleCustomer "Carol".toList (CInt.lit 2147483647)).loyaltyPoints.toInt = 2147483647 ∧
    ((sampleCustomer "Carol".toList (CInt.lit 2147483647)).addLoyaltyPoints
        (CInt.lit 1)).loyaltyPoints.toInt = -2147483648 ∧
    max (0 : Int) (2147483647 + 1) = 2147483648 ∧
    Hotel.construct fullBalanceFiles = .ok fullBalanceHotel ∧
    ((fullBalanceHotel.run [.book "carol".toList (CInt.lit 101)]).toOption.bind
        (fun h => (h.customers.find? "carol".toList).map (fun c => c.loyaltyPoints.toInt)))
      = some (-2147483349) := by
  decide

/-! ## C9: the tier is a function of the points -/

theorem addLoyaltyPoints_tier (c : Customer) (d : CInt)
    (hc : c.tier = tierOf c.loyaltyPoints.toInt) :
    (c.addLoyaltyPoints d).tier = tierOf (c.addLoyaltyPoints d).loyaltyPoints.toInt := by
  unfold Customer.addLoyaltyPoints
  split_ifs <;> simp only [updateTier_tier, updateTier_points, hc]

theorem foldl_addLoyaltyPoints_tier (deltas : List CInt) (c : Customer)
    (hc : c.tier = tierOf c.loyaltyPoints.toInt) :
    (deltas.foldl (fun c d => c.addLoyaltyPoints d) c).tier
      = tierOf (deltas.foldl (fun c d => c.addLoyaltyPoints d) c).loyaltyPoints.toInt := by
  induction deltas generalizing c with
  | nil => exact hc
  | cons d ds ih => exact ih _ (addLoyaltyPoints_tier c d hc)

/-- C9: for a customer built by the constructor and any sequence of
`addLoyaltyPoints` calls (zero arguments included), the stored tier is
`tierOf` of the stored points; `tierOf` gives Silver at 200, Regular at 199,
Gold at 500 and Platinum at 1000. -/
theorem C9_tier_function_of_points (name email phone adhaar pwd : Str) (deltas : List CInt) :
    (customerAfter name email phone adhaar pwd deltas).tier
      = tierOf (customerAfter name email phone adhaar pwd deltas).loyaltyPoints.toInt ∧
    tierOf 200 = .SILVER ∧ tierOf 199 = .REGULAR ∧ tierOf 500 = .GOLD ∧
    tierOf 1000 = .PLATINUM :=
  ⟨foldl_addLoyaltyPoints_tier deltas _ rfl, by decide, by decide, by decide, by decide⟩

/-! ## C10: saving and reloading -/

theorem digitChar_facts : ∀ d, d < 10 →
    (digitChar d).isDigit = true ∧ (digitChar d).toNat - 48 = d ∧
    digitChar d ≠ ',' ∧ digitChar d ≠ '\n' := by
  decide

theorem isDigit_facts (c : Char) (hc : c.isDigit = true) :
    isSpaceC c = false ∧ c ≠ '-' ∧ c ≠ '+' ∧ c ≠ ',' ∧ c ≠ '\n' := by
  refine ⟨?_, ?_, ?_, ?_, ?_⟩
  · unfold isSpaceC
    simp only [Bool.or_eq_false_iff, decide_eq_false_iff_not]
    refine ⟨⟨⟨⟨⟨?_, ?_⟩, ?_⟩, ?_⟩, ?_⟩, ?_⟩ <;> (intro hx; rw [hx] at hc; revert hc; decide)
  all_goals (intro hx; rw [hx] at hc; revert hc; decide)

theorem digitsValue_append (l : List Char) (c : Char) :
    digitsValue (l ++ [c]) = 10 * digitsValue l + (c.toNat - 48) := by
  unfold digitsValue
  rw [List.foldl_append]
  rfl

theorem natDigits_spec (fuel : Nat) : ∀ n, n < fuel →
    digitsValue (natDigits fuel n) = n ∧ natDigits fuel n ≠ [] ∧
    ∀ c ∈ natDigits fuel n, c.isDigit = true := by
  induction fuel with
  | zero => intro n hn; omega
  | succ fuel ih =>
    intro n hn
    unfold natDigits
    by_cases h10 : n < 10
    · have hd := digitChar_facts n h10
      simp only [h10, if_true]
      refine ⟨?_, by simp, ?_⟩
      · simp only [digitsValue, List.foldl]
        omega
      · intro c hc
        simp only [List.mem_singleton] at hc
        rw [hc]
        exact hd.1
    · have hd := digitChar_facts (n % 10) (Nat.mod_lt _ (by omega))
      have hrec := ih (n / 10) (by omega)
      simp only [h10, if_false]
      refine ⟨?_, by simp, ?_⟩
      · rw [digitsValue_append, hrec.1, hd.2.1]
        omega
      · intro c hc
        rcases List.mem_append.mp hc with h1 | h1
        · exact hrec.2.2 c h1
        · simp only [List.mem_singleton] at h1
          rw [h1]
          exact hd.1

theorem showNat_spec (n : Nat) :
    digitsValue (showNat n) = n ∧ showNat n ≠ [] ∧ ∀ c ∈ showNat n, c.isDigit = true :=
  natDigits_spec (n + 1) n (by omega)

theorem takeWhile_all {α : Type} (p : α → Bool) (l : List α) (h : ∀ a ∈ l, p a = true) :
    l.takeWhile p = l := by
  induction l with
  | nil => rfl
  | cons a t ih =>
    simp only [List.takeWhile, h a (List.mem_cons_self a t)]
    rw [ih (fun x hx => h x (List.mem_cons_of_mem a hx))]

theorem stoiOfDigits_ok (negative : Bool) (ds : List Char) (hne : ds ≠ []) (z : CInt)
    (hz : z.toInt = if negative then - (digitsValue ds : Int) else (digitsValue ds : Int)) :
    stoiOfDigits negative ds = .ok z := by
  have hrange := CInt.toInt_range z
  unfold stoiOfDigits
  simp only [hne, if_false]
  rw [← hz, dif_pos hrange]
  rfl

theorem stoi_showInt (z : CInt) : stoi (showInt z) = .ok z := by
  unfold showInt
  by_cases hneg : z.toInt < 0
  · have hs := showNat_spec z.toInt.natAbs
    simp only [hneg, if_true]
    unfold stoi
    have hsp : isSpaceC '-' = false := by decide
    simp only [List.dropWhile, hsp, List.head?, true_or, if_true, List.tail_cons,
      decide_True]
    rw [takeWhile_all _ _ hs.2.2]
    exact stoiOfDigits_ok true _ hs.2.1 z (by simp only [if_true]; rw [hs.1]; omega)
  · have hs := showNat_spec z.toInt.toNat
    simp only [hneg, if_false]
    cases hd : showNat z.toInt.toNat with
    | nil => exact absurd hd hs.2.1
    | cons c t =>
      rw [hd] at hs
      have hc := isDigit_facts c (hs.2.2 c (List.mem_cons_self c t))
      unfold stoi
      simp only [List.dropWhile, hc.1, List.head?]
      have h1 : ¬ (some c = some '-') := by simpa using hc.2.1
      have h2 : ¬ (some c = some '+') := by simpa using hc.2.2.1
      simp only [h1, h2, or_self, if_false, decide_False]
      rw [takeWhile_all _ _ hs.2.2]
      exact stoiOfDigits_ok false _ hs.2.1 z
        (by simp only [Bool.false_eq_true, if_false]; rw [hs.1]; omega)

theorem showInt_chars (z : CInt) :
    showInt z ≠ [] ∧ ',' ∉ showInt z ∧ '\n' ∉ showInt z := by
  have key : ∀ n, showNat n ≠ [] ∧ ',' ∉ showNat n ∧ '\n' ∉ showNat n := by
    intro n
    have hs := showNat_spec n
    refine ⟨hs.2.1, ?_, ?_⟩
    · intro hm
      exact (isDigit_facts _ (hs.2.2 _ hm)).2.2.2.1 rfl
    · intro hm
      exact (isDigit_facts _ (hs.2.2 _ hm)).2.2.2.2 rfl
  unfold showInt
  split
  · have := key z.toInt.natAbs
    refine ⟨by simp, ?_, ?_⟩
    · simp only [List.mem_cons, not_or]
      exact ⟨by decide, this.2.1⟩
    · simp only [List.mem_cons, not_or]
      exact ⟨by decide, this.2.2⟩
  · exact key _

theorem fileLines_record (l rest : Str) (hl : '\n' ∉ l) :
    fileLines (l ++ '\n' :: rest) = l :: fileLines rest := by
  induction l with
  | nil => simp [fileLines]
  | cons c cs ih =>
    have hc : ¬ c = '\n' := fun x => hl (x ▸ List.mem_cons_self c cs)
    have hcs : '\n' ∉ cs := fun x => hl (List.mem_cons_of_mem c x)
    rw [List.cons_append, fileLines, if_neg hc, ih hcs]

theorem fileLines_writeRecords (records : List Str) (h : ∀ r ∈ records, '\n' ∉ r) :
    fileLines (Hotel.writeRecords records) = records := by
  induction records with
  | nil => rfl
  | cons r rest ih =>
    have hr := h r (List.mem_cons_self r rest)
    have := ih (fun x hx => h x (List.mem_cons_of_mem r hx))
    unfold Hotel.writeRecords at this ⊢
    simp only [List.foldr]
    rw [fileLines_record _ _ hr, this]

theorem takeField_field (d : Char) (f rest : Str) (hf : d ∉ f) :
    takeField d (f ++ d :: rest) = (f, rest) := by
  induction f with
  | nil => simp [takeField]
  | cons c cs ih =>
    have hc : ¬ c = d := fun x => hf (x ▸ List.mem_cons_self c cs)
    have hcs : d ∉ cs := fun x => hf (List.mem_cons_of_mem c x)
    rw [List.cons_append, takeField, if_neg hc, ih hcs]

theorem takeField_all (d : Char) (f : Str) (hf : d ∉ f) : takeField d f = (f, []) := by
  induction f with
  | nil => rfl
  | cons c cs ih =>
    have hc : ¬ c = d := fun x => hf (x ▸ List.mem_cons_self c cs)
    have hcs : d ∉ cs := fun x => hf (List.mem_cons_of_mem c x)
    simp only [takeField, hc, if_false, ih hcs]

theorem getline_field (d : Char) (f rest : Str) (hf : d ∉ f) :
    getline d (f ++ d :: rest) = some (f, rest) := by
  unfold getline
  have : ¬ f ++ d :: rest = [] := by simp
  simp only [this, if_false, takeField_field d f rest hf]

theorem getline_last (d : Char) (f : Str) (hne : f ≠ []) (hf : d ∉ f) :
    getline d f = some (f, []) := by
  unfold getline
  simp only [hne, if_false, takeField_all d f hf]

theorem noSeparatorB_iff (s : Str) : noSeparatorB s = true ↔ NoSeparator s := by
  unfold noSeparatorB NoSeparator
  exact decide_eq_true_iff

theorem mem_append_sep (c : Char) (f rest : Str) (d : Char) (hf : c ∉ f) (hd : c ≠ d)
    (hrest : c ∉ rest) : c ∉ f ++ d :: rest := by
  simp only [List.mem_append, List.mem_cons, not_or]
  exact ⟨hf, hd, hrest⟩

theorem customerRecord_newline (e : Str × Customer) (he : CustomerSaveable e) :
    '\n' ∉ Hotel.customerRecord e := by
  obtain ⟨h1, h2, h3, h4, h5, h6, _⟩ := he
  have hp := showInt_chars e.2.loyaltyPoints
  have hd : ('\n' : Char) ≠ ',' := by decide
  unfold Hotel.customerRecord
  exact mem_append_sep _ _ _ _ h1.2 hd (mem_append_sep _ _ _ _ h2.2 hd
    (mem_append_sep _ _ _ _ h3.2 hd (mem_append_sep _ _ _ _ h4.2 hd
      (mem_append_sep _ _ _ _ h5.2 hd (mem_append_sep _ _ _ _ h6.2 hd hp.2.2)))))

theorem loadCustomerLine_record (h : Hotel) (e : Str × Customer) (he : CustomerSaveable e) :
    Hotel.loadCustomerLine h (Hotel.customerRecord e)
      = .ok ⟨h.customers.insert e.1 e.2.reloaded, h.rooms, h.bookings⟩ := by
  obtain ⟨h1, h2, h3, h4, h5, h6, _⟩ := he
  have hp := showInt_chars e.2.loyaltyPoints
  unfold Hotel.loadCustomerLine Hotel.customerRecord
  simp only [getline_field _ _ _ h1.1, getline_field _ _ _ h2.1, getline_field _ _ _ h3.1,
    getline_field _ _ _ h4.1, getline_field _ _ _ h5.1, getline_field _ _ _ h6.1,
    getline_last _ _ hp.1 hp.2.2, stoi_showInt]
  rfl

theorem updateTier_fields (c : Customer) :
    c.updateTier.name = c.name ∧ c.updateTier.email = c.email ∧ c.updateTier.phone = c.phone ∧
    c.updateTier.adhaar = c.adhaar ∧ c.updateTier.password = c.password := by
  unfold Customer.updateTier
  split_ifs <;> exact ⟨rfl, rfl, rfl, rfl, rfl⟩

theorem addLoyaltyPoints_fields (c : Customer) (d : CInt) :
    (c.addLoyaltyPoints d).name = c.name ∧ (c.addLoyaltyPoints d).email = c.email ∧
    (c.addLoyaltyPoints d).phone = c.phone ∧ (c.addLoyaltyPoints d).adhaar = c.adhaar ∧
    (c.addLoyaltyPoints d).password = c.password := by
  have hu := updateTier_fields
  unfold Customer.addLoyaltyPoints
  split_ifs
  · exact hu _
  · simp only [hu]
    split_ifs <;> exact ⟨rfl, rfl, rfl, rfl, rfl⟩
  · exact ⟨rfl, rfl, rfl, rfl, rfl⟩

theorem reloaded_fields (c : Customer) (hc : 0 ≤ c.loyaltyPoints.toInt) :
    c.reloaded.fields = c.fields := by
  have hp : c.reloaded.loyaltyPoints = c.loyaltyPoints := by
    apply CInt.ext
    unfold Customer.reloaded
    rw [new_addLoyaltyPoints_points]
    omega
  have hf := addLoyaltyPoints_fields (Customer.new c.name c.email c.phone c.adhaar c.password)
    c.loyaltyPoints
  unfold Customer.fields
  rw [hp]
  unfold Customer.reloaded
  rw [hf.1, hf.2.1, hf.2.2.1, hf.2.2.2.1, hf.2.2.2.2]
  rfl

theorem getRoomType_chars (r : Room) :
    r.getRoomType ≠ [] ∧ '\n' ∉ r.getRoomType := by
  unfold Room.getRoomType
  cases r.kind <;> decide

theorem roomRecord_newline (e : CInt × Room) : '\n' ∉ Hotel.roomRecord e := by
  have hn := showInt_chars e.1
  have ht := getRoomType_chars e.2
  have hd : ('\n' : Char) ≠ ',' := by decide
  have hflag : '\n' ∉ (if e.2.isBooked then ['1'] else ['0']) := by
    cases e.2.isBooked <;> decide
  unfold Hotel.roomRecord
  exact mem_append_sep _ _ _ _ hn.2.2 hd (mem_append_sep _ _ _ _ hflag hd ht.2)

theorem loadRoomLine_record (h : Hotel) (e : CInt × Room) :
    Hotel.loadRoomLine h (Hotel.roomRecord e)
      = .ok ⟨h.customers, h.rooms.insert e.1 ⟨e.1, e.2.kind, e.2.isBooked⟩, h.bookings⟩ := by
  have hn := showInt_chars e.1
  have ht := getRoomType_chars e.2
  have hflag : ',' ∉ (if e.2.isBooked then ['1'] else ['0']) := by
    cases e.2.isBooked <;> decide
  unfold Hotel.loadRoomLine Hotel.roomRecord
  simp only [getline_field _ _ _ hn.2.1, getline_field _ _ _ hflag,
    getline_last _ _ ht.1 ht.2, stoi_showInt]
  obtain ⟨n, ⟨num, kind, booked⟩⟩ := e
  cases kind <;> cases booked <;> rfl

theorem bookingRecord_newline (e : CInt × Str) (he : '\n' ∉ e.2) :
    '\n' ∉ Hotel.bookingRecord e := by
  have hn := showInt_chars e.1
  have hd : ('\n' : Char) ≠ ',' := by decide
  unfold Hotel.bookingRecord
  exact mem_append_sep _ _ _ _ hn.2.2 hd he

theorem loadBookingLine_record (h : Hotel) (e : CInt × Str) (r : Room)
    (hne : e.2 ≠ []) (hnl : '\n' ∉ e.2) (hroom : h.rooms.find? e.1 = some r) :
    Hotel.loadBookingLine h (Hotel.bookingRecord e)
      = .ok ⟨h.customers, h.rooms.modify e.1 (Room.setBooked true),
          h.bookings.insert e.1 e.2⟩ := by
  have hn := showInt_chars e.1
  have hline : ¬ Hotel.bookingRecord e = [] := by
    unfold Hotel.bookingRecord
    simp
  unfold Hotel.loadBookingLine
  simp only [hline, if_false]
  unfold Hotel.bookingRecord
  simp only [getline_field _ _ _ hn.2.1, getline_last _ _ hne hnl, stoi_showInt, hroom]

theorem forEachLine_records {E : Type} (body : Hotel → Str → Except Fault Hotel)
    (record : E → Str) (f : Hotel → E → Hotel) (I : Hotel → Prop) (es : List E) :
    (∀ h e, e ∈ es → I h → body h (record e) = .ok (f h e) ∧ I (f h e)) →
    ∀ h, I h → forEachLine body (es.map record) h = .ok (es.foldl f h) ∧ I (es.foldl f h) := by
  induction es with
  | nil => intro _ h hI; exact ⟨rfl, hI⟩
  | cons e rest ih =>
    intro hstep h hI
    have h1 := hstep h e (List.mem_cons_self e rest) hI
    simp only [List.map_cons, forEachLine, h1.1, List.foldl_cons]
    exact ih (fun h' e' he' hI' => hstep h' e' (List.mem_cons_of_mem e he') hI') (f h e) h1.2

theorem assocFind_none_of_not_mem {K V : Type} [DecidableEq K] (k : K) (l : List (K × V))
    (h : k ∉ l.map Prod.fst) : assocFind k l = none := by
  cases hf : assocFind k l with
  | none => rfl
  | some v =>
    exfalso
    apply h
    exact (assocFind_isSome k l).mp (by rw [hf]; rfl)

theorem find?_foldl_insert {K A V : Type} [DecidableEq K] (g : K → A → V) (es : List (K × A)) :
    (es.map Prod.fst).Nodup → ∀ (m : Map K V) (k : K),
      (es.foldl (fun m e => m.insert e.1 (g e.1 e.2)) m).find? k
        = match assocFind k es with
          | some a => some (g k a)
          | none => m.find? k := by
  induction es with
  | nil => intro _ m k; rfl
  | cons e rest ih =>
    intro hnd m k
    rw [List.map_cons, List.nodup_cons] at hnd
    simp only [List.foldl_cons]
    rw [ih hnd.2 (m.insert e.1 (g e.1 e.2)) k]
    by_cases hk : e.1 = k
    · subst hk
      simp only [assocFind, if_true, assocFind_none_of_not_mem _ _ hnd.1, Map.find?_insert]
    · simp only [assocFind, hk, if_false, Map.find?_insert]

theorem foldl_addCustomer (es : List (Str × Customer)) : ∀ h : Hotel,
    (es.foldl addCustomer h).customers
        = es.foldl (fun m e => m.insert e.1 ((fun _ c => Customer.reloaded c) e.1 e.2)) h.customers ∧
    (es.foldl addCustomer h).rooms = h.rooms ∧ (es.foldl addCustomer h).bookings = h.bookings := by
  induction es with
  | nil => intro h; exact ⟨rfl, rfl, rfl⟩
  | cons e rest ih => intro h; exact ih (addCustomer h e)

theorem foldl_addRoom (es : List (CInt × Room)) : ∀ h : Hotel,
    (es.foldl addRoom h).rooms
        = es.foldl (fun m e => m.insert e.1
            ((fun n (r : Room) => (⟨n, r.kind, r.isBooked⟩ : Room)) e.1 e.2)) h.rooms ∧
    (es.foldl addRoom h).customers = h.customers ∧ (es.foldl addRoom h).bookings = h.bookings := by
  induction es with
  | nil => intro h; exact ⟨rfl, rfl, rfl⟩
  | cons e rest ih => intro h; exact ih (addRoom h e)

theorem foldl_addBooking (es : List (CInt × Str)) : ∀ h : Hotel,
    (es.foldl addBooking h).bookings
        = es.foldl (fun m e => m.insert e.1 ((fun _ (u : Str) => u) e.1 e.2)) h.bookings ∧
    (es.foldl addBooking h).customers = h.customers := by
  induction es with
  | nil => intro h; exact ⟨rfl, rfl⟩
  | cons e rest ih => intro h; exact ih (addBooking h e)

theorem setBooked_true_of_booked (r : Room) (hr : r.isBooked = true) :
    Room.setBooked true r = r := by
  cases r
  simp only [Room.setBooked] at hr ⊢
  simp [hr]

theorem saveable_of_saveableB (h : Hotel) (hb : saveableB h = true) : Saveable h := by
  unfold saveableB at hb
  simp only [Bool.and_eq_true, List.all_eq_true, decide_eq_true_eq, noSeparatorB_iff] at hb
  refine ⟨fun e he => ?_, fun e he => ?_⟩
  · obtain ⟨⟨⟨⟨⟨⟨h1, h2⟩, h3⟩, h4⟩, h5⟩, h6⟩, h7⟩ := hb.1 e he
    exact ⟨h1, h2, h3, h4, h5, h6, h7⟩
  · obtain ⟨⟨h1, h2⟩, h3⟩ := hb.2 e he
    refine ⟨h1, h2, ?_⟩
    cases hr : h.rooms.find? e.1 with
    | none => rw [hr] at h3; cases h3
    | some r => rw [hr] at h3; exact ⟨r, rfl, h3⟩

theorem loadCustomers_saved (h h0 : Hotel) (hs : ∀ e ∈ h.customers.entries, CustomerSaveable e) :
    Hotel.loadCustomersFromFile (some h.saveCustomersToFile) h0
      = .ok (h.customers.entries.foldl addCustomer h0) := by
  unfold Hotel.loadCustomersFromFile Hotel.saveCustomersToFile
  simp only
  rw [fileLines_writeRecords]
  · exact (forEachLine_records Hotel.loadCustomerLine Hotel.customerRecord addCustomer
      (fun _ => True) h.customers.entries
      (fun h' e he _ => ⟨loadCustomerLine_record h' e (hs e he), trivial⟩) h0 trivial).1
  · intro r hr
    obtain ⟨e, he, rfl⟩ := List.mem_map.mp hr
    exact customerRecord_newline e (hs e he)

theorem loadRooms_saved (h h0 : Hotel) :
    Hotel.loadRoomsFromFile (some h.saveRoomsToFile) h0
      = .ok (h.rooms.entries.foldl addRoom h0) := by
  unfold Hotel.loadRoomsFromFile Hotel.saveRoomsToFile
  simp only
  rw [fileLines_writeRecords]
  · exact (forEachLine_records Hotel.loadRoomLine Hotel.roomRecord addRoom
      (fun _ => True) h.rooms.entries
      (fun h' e _ _ => ⟨loadRoomLine_record h' e, trivial⟩) h0 trivial).1
  · intro r hr
    obtain ⟨e, _, rfl⟩ := List.mem_map.mp hr
    exact roomRecord_newline e

theorem loadBookings_saved (h h0 : Hotel)
    (hs : ∀ e ∈ h.bookings.entries, e.2 ≠ [] ∧ '\n' ∉ e.2 ∧
      ∃ r, h0.rooms.find? e.1 = some r ∧ r.isBooked = true) :
    Hotel.loadBookingsFromFile (some h.saveBookingsToFile) h0
        = .ok (h.bookings.entries.foldl addBooking h0) ∧
    ∀ n, (h.bookings.entries.foldl addBooking h0).rooms.find? n = h0.rooms.find? n := by
  unfold Hotel.loadBookingsFromFile Hotel.saveBookingsToFile
  simp only
  rw [fileLines_writeRecords]
  · refine forEachLine_records Hotel.loadBookingLine Hotel.bookingRecord addBooking
      (fun x => ∀ n, x.rooms.find? n = h0.rooms.find? n) h.bookings.entries ?_ h0 (fun _ => rfl)
    intro h' e he hI
    obtain ⟨hne, hnl, r, hr, hb⟩ := hs e he
    have hr' : h'.rooms.find? e.1 = some r := (hI e.1).trans hr
    refine ⟨loadBookingLine_record h' e r hne hnl hr', ?_⟩
    intro n
    simp only [addBooking, Map.find?_modify]
    by_cases hn : e.1 = n
    · subst hn
      simp only [if_true, hr', Option.map_some', setBooked_true_of_booked r hb]
      exact hr.symm
    · simp only [hn, if_false]
      exact hI n
  · intro r hr
    obtain ⟨e, he, rfl⟩ := List.mem_map.mp hr
    exact bookingRecord_newline e (hs e he).2.1

/-- C10 (as amended): for a state whose customer identifiers, names, e-mail
addresses, phone numbers, national IDs and passwords contain no comma and no
newline, whose balances are not negative, whose ledger identifiers are
non-empty without newline and whose ledger entries are all for catalog rooms
flagged booked, the three save methods followed by the three load methods on
an empty hotel complete and give a state with the same customers (same
identifier, name, e-mail, phone, national ID, password and points), the same
rooms (same type and flag) and the same ledger, whatever the record order. -/
theorem C10_save_load_round_trip (h : Hotel) (hs : Saveable h) :
    ∃ h1, Hotel.loadAll h.saveAll Hotel.empty = .ok h1 ∧
      (∀ u, (h1.customers.find? u).map Customer.fields
        = (h.customers.find? u).map Customer.fields) ∧
      (∀ n, (h1.rooms.find? n).map (fun r => (r.kind, r.isBooked))
        = (h.rooms.find? n).map (fun r => (r.kind, r.isBooked))) ∧
      (∀ n, h1.bookings.find? n = h.bookings.find? n) := by
  have hc := loadCustomers_saved h Hotel.empty hs.1
  have hr := loadRooms_saved h (h.customers.entries.foldl addCustomer Hotel.empty)
  have hfc := foldl_addCustomer h.customers.entries Hotel.empty
  have hfr := foldl_addRoom h.rooms.entries (h.customers.entries.foldl addCustomer Hotel.empty)
  have hrooms : ∀ n, (h.rooms.entries.foldl addRoom
      (h.customers.entries.foldl addCustomer Hotel.empty)).rooms.find? n
        = (h.rooms.find? n).map (fun r => (⟨n, r.kind, r.isBooked⟩ : Room)) := by
    intro n
    rw [hfr.1, find?_foldl_insert (fun n (r : Room) => (⟨n, r.kind, r.isBooked⟩ : Room))
      h.rooms.entries h.rooms.property, hfc.2.1]
    unfold Map.find? Map.entries
    cases assocFind n h.rooms.val <;> rfl
  have hb := loadBookings_saved h
    (h.rooms.entries.foldl addRoom (h.customers.entries.foldl addCustomer Hotel.empty))
    (fun e he => by
      obtain ⟨hne, hnl, r, hroom, hbk⟩ := hs.2 e he
      exact ⟨hne, hnl, ⟨e.1, r.kind, r.isBooked⟩, by rw [hrooms, hroom]; rfl, hbk⟩)
  have hfb := foldl_addBooking h.bookings.entries
    (h.rooms.entries.foldl addRoom (h.customers.entries.foldl addCustomer Hotel.empty))
  refine ⟨h.bookings.entries.foldl addBooking
    (h.rooms.entries.foldl addRoom (h.customers.entries.foldl addCustomer Hotel.empty)),
    ?_, ?_, ?_, ?_⟩
  · unfold Hotel.loadAll Hotel.saveAll
    simp only [hc, hr, hb.1]
  · intro u
    rw [hfb.2, hfr.2.1, hfc.1, find?_foldl_insert (fun _ c => Customer.reloaded c)
      h.customers.entries h.customers.property]
    unfold Map.find? Map.entries
    cases hf : assocFind u h.customers.val with
    | none => rfl
    | some c =>
      have hmem := assocFind_mem u c _ hf
      simp only [Option.map_some']
      rw [reloaded_fields c (hs.1 (u, c) hmem).2.2.2.2.2.2]
  · intro n
    rw [hb.2 n, hrooms n]
    cases h.rooms.find? n <;> rfl
  · intro n
    rw [hfb.1, find?_foldl_insert (fun _ (u : Str) => u) h.bookings.entries
      h.bookings.property, hfr.2.2, hfc.2.2]
    unfold Map.find? Map.entries
    cases assocFind n h.bookings.val <;> rfl

/-- C10 at `sampleHotel`. -/
theorem C10_save_load_round_trip_witness :
    ∃ h1, Hotel.loadAll sampleHotel.saveAll Hotel.empty = .ok h1 ∧
      (∀ u, (h1.customers.find? u).map Customer.fields
        = (sampleHotel.customers.find? u).map Customer.fields) ∧
      (∀ n, (h1.rooms.find? n).map (fun r => (r.kind, r.isBooked))
        = (sampleHotel.rooms.find? n).map (fun r => (r.kind, r.isBooked))) ∧
      (∀ n, h1.bookings.find? n = sampleHotel.bookings.find? n) :=
  C10_save_load_round_trip sampleHotel (saveable_of_saveableB sampleHotel (by decide))

/-- C10 fails as stated in four states.  With a comma in a customer's name
the reload ends in `invalid_argument`.  A negative balance is reloaded as 0.
A ledger entry of the empty identifier is written as `101,` and dropped by
the reload.  A ledger entry for a room whose flag is not set comes back with
the flag set. -/
theorem C10_save_load_round_trip_counterexample :
    Hotel.loadAll commaNameHotel.saveAll Hotel.empty = .error .invalid_argument ∧
    ((negativeBalanceHotel.customers.find? "dave".toList).map
        (fun c => c.loyaltyPoints.toInt) = some (-2147483648) ∧
      (Hotel.loadAll negativeBalanceHotel.saveAll Hotel.empty).toOption.bind
        (fun h1 => (h1.customers.find? "dave".toList).map (fun c => c.loyaltyPoints.toInt))
        = some 0) ∧
    (emptyIdentifierHotel.bookings.find? (CInt.lit 101) = some [] ∧
      (Hotel.loadAll emptyIdentifierHotel.saveAll Hotel.empty).toOption.map
        (fun h1 => h1.bookings.find? (CInt.lit 101)) = some none) ∧
    ((unflaggedLedgerHotel.rooms.find? (CInt.lit 101)).map (fun r => r.isBooked) = some false ∧
      (Hotel.loadAll unflaggedLedgerHotel.saveAll Hotel.empty).toOption.bind
        (fun h1 => (h1.rooms.find? (CInt.lit 101)).map (fun r => r.isBooked)) = some true) := by
  decide

/-! ## C11: ledger entries are for booked catalog rooms -/

theorem ledgerBooked_of_empty (h : Hotel) (hb : ∀ n, h.bookings.find? n = none) :
    LedgerBooked h := by
  intro n u hu
  rw [hb n] at hu
  cases hu

theorem ledgerBooked_loadBookingLine (h h1 : Hotel) (l : Str) (hP : LedgerBooked h)
    (hl : Hotel.loadBookingLine h l = .ok h1) : LedgerBooked h1 := by
  rcases loadBookingLine_cases h h1 l hl with rfl | ⟨n0, u, hn0, rfl⟩
  · exact hP
  · intro n v hv
    simp only [Map.find?_insert] at hv
    simp only [Map.find?_modify]
    by_cases hn : n0 = n
    · subst hn
      obtain ⟨r, hr⟩ := Option.isSome_iff_exists.mp hn0
      exact ⟨Room.setBooked true r, by simp [hr], rfl⟩
    · simp only [hn, if_false] at hv ⊢
      exact hP n v hv

theorem ledgerBooked_construct (fs : Files) (h : Hotel)
    (hc : Hotel.construct fs = .ok h) : LedgerBooked h := by
  unfold Hotel.construct Hotel.loadAll at hc
  cases hl1 : Hotel.loadCustomersFromFile fs.customers Hotel.empty with
  | error e => rw [hl1] at hc; cases hc
  | ok h1 =>
    cases hl2 : Hotel.loadRoomsFromFile fs.rooms h1 with
    | error e => rw [hl1] at hc; simp only [hl2] at hc; cases hc
    | ok h2 =>
      rw [hl1] at hc
      simp only [hl2] at hc
      cases hl3 : Hotel.loadBookingsFromFile fs.bookings h2 with
      | error e => rw [hl3] at hc; cases hc
      | ok h3 =>
        rw [hl3] at hc
        have hb2 : ∀ n, h2.bookings.find? n = none := by
          intro n
          rw [(loadRooms_frame _ _ _ hl2).2, (loadCustomers_frame _ _ _ hl1).2]
          rfl
        have h3P : LedgerBooked h3 := by
          unfold Hotel.loadBookingsFromFile at hl3
          cases hf : fs.bookings with
          | none => rw [hf] at hl3; cases hl3; exact ledgerBooked_of_empty h2 hb2
          | some content =>
            rw [hf] at hl3
            exact forEachLine_preserves LedgerBooked Hotel.loadBookingLine
              (fun a l b hJ hstep => ledgerBooked_loadBookingLine a b l hJ hstep)
              _ h2 h3 (ledgerBooked_of_empty h2 hb2) hl3
        by_cases hs : h3.rooms.size = 0
        · simp only [hs, if_true, Except.ok.injEq] at hc
          subst hc
          apply ledgerBooked_of_empty
          intro n
          rw [(initializeRooms_unbooked h3 hs).2]
          cases hx : h3.bookings.find? n with
          | none => rfl
          | some u =>
            obtain ⟨r, hr, _⟩ := h3P n u hx
            rw [Map.find?_of_size_zero _ hs] at hr
            cases hr
        · simp only [hs, if_false, Except.ok.injEq] at hc
          subst hc
          exact h3P

theorem ledgerBooked_bookRoom (h : Hotel) (customer : Str) (roomNumber : CInt)
    (hP : LedgerBooked h) : LedgerBooked (h.bookRoom customer roomNumber).2 := by
  unfold Hotel.bookRoom
  cases hfind : h.rooms.find? roomNumber with
  | none => exact hP
  | some room =>
    cases hb : room.isBooked with
    | true =>
      simp only [hb, Bool.not_true, Bool.false_eq_true, if_false]
      intro n u hu
      unfold Map.subscript at hu
      cases hl : h.bookings.find? roomNumber with
      | some v =>
        simp only [hl] at hu
        exact hP n u hu
      | none =>
        simp only [hl, Map.find?_insert] at hu
        by_cases hn : roomNumber = n
        · subst hn
          exact ⟨room, hfind, hb⟩
        · simp only [hn, if_false] at hu
          exact hP n u hu
    | false =>
      simp only [hb, Bool.not_false, if_true]
      intro n u hu
      simp only [Map.find?_insert] at hu
      simp only [Map.find?_modify]
      by_cases hn : roomNumber = n
      · subst hn
        exact ⟨Room.setBooked true room, by simp [hfind], rfl⟩
      · simp only [hn, if_false] at hu ⊢
        exact hP n u hu

theorem ledgerBooked_checkoutRoom (h : Hotel) (roomNumber : CInt)
    (hP : LedgerBooked h) : LedgerBooked (h.checkoutRoom roomNumber).2 := by
  unfold Hotel.checkoutRoom
  cases hfind : h.rooms.find? roomNumber with
  | none => exact hP
  | some room =>
    cases hb : room.isBooked with
    | false => simpa [hb] using hP
    | true =>
      simp only [hb, if_true]
      intro n u hu
      simp only [Map.find?_modify]
      cases hl : h.bookings.find? roomNumber with
      | none =>
        simp only [hl] at hu
        by_cases hn : roomNumber = n
        · subst hn
          rw [hl] at hu
          cases hu
        · simp only [hn, if_false]
          exact hP n u hu
      | some v =>
        simp only [hl, Map.find?_erase] at hu
        by_cases hn : roomNumber = n
        · simp [hn] at hu
        · simp only [hn, if_false] at hu ⊢
          exact hP n u hu

theorem ledgerBooked_cancelBooking (h : Hotel) (customer : Str) (roomNumber : CInt)
    (hP : LedgerBooked h) (out : Message × Hotel)
    (hout : h.cancelBooking customer roomNumber = .ok out) : LedgerBooked out.2 := by
  unfold Hotel.cancelBooking at hout
  split at hout
  · cases hout; exact hP
  · split at hout
    · split at hout
      · split at hout
        · split at hout
          · cases hout
            intro n u hu
            simp only [Map.find?_erase] at hu
            simp only [Map.find?_modify]
            by_cases hn : roomNumber = n
            · simp [hn] at hu
            · simp only [hn, if_false] at hu ⊢
              exact hP n u hu
          · cases hout
        · cases hout; exact hP
      · cases hout; exact hP
    · cases hout

theorem ledgerBooked_step (h : Hotel) (a : Action) (hP : LedgerBooked h) :
    ∃ h1, h.step a = .ok h1 ∧ LedgerBooked h1 := by
  cases a with
  | book customer roomNumber =>
    exact ⟨_, rfl, ledgerBooked_bookRoom h customer roomNumber hP⟩
  | cancel customer roomNumber =>
    obtain ⟨out, hout⟩ := cancelBooking_returns h customer roomNumber
      (fun n hn => by
        obtain ⟨r, hr, _⟩ := hP n _ hn
        rw [hr]
        rfl)
    refine ⟨out.2, ?_, ledgerBooked_cancelBooking h customer roomNumber hP out hout⟩
    simp only [Hotel.step, hout]
  | checkout roomNumber =>
    exact ⟨_, rfl, ledgerBooked_checkoutRoom h roomNumber hP⟩

theorem ledgerBooked_run (acts : List Action) :
    ∀ h : Hotel, LedgerBooked h → ∃ h1, h.run acts = .ok h1 ∧ LedgerBooked h1 := by
  induction acts with
  | nil => intro h hP; exact ⟨h, rfl, hP⟩
  | cons a rest ih =>
    intro h hP
    obtain ⟨h1, hs, hP1⟩ := ledgerBooked_step h a hP
    obtain ⟨h2, hr, hP2⟩ := ih h1 hP1
    exact ⟨h2, by simp only [Hotel.run, hs, hr], hP2⟩

theorem loadBookingLine_parsed (g : Hotel) (line roomStr r1 username r2 : Str) (n : CInt)
    (h1 : getline ',' line = some (roomStr, r1))
    (h2 : getline '\n' r1 = some (username, r2))
    (h3 : stoi roomStr = .ok n) :
    (g.rooms.find? n = none → Hotel.loadBookingLine g line = .ok g) ∧
    (∀ r, g.rooms.find? n = some r →
      Hotel.loadBookingLine g line
        = .ok ⟨g.customers, g.rooms.modify n (Room.setBooked true),
            g.bookings.insert n username⟩) := by
  have hne : ¬ line = [] := by
    intro hx
    rw [hx] at h1
    simp [getline] at h1
  constructor
  · intro hr
    unfold Hotel.loadBookingLine
    simp only [hne, if_false, h1, h2, h3, hr]
  · intro r hr
    unfold Hotel.loadBookingLine
    simp only [hne, if_false, h1, h2, h3, hr]

/-- C11: in every state reached from the constructor (whatever the files, when
it completes) by a sequence of `bookRoom`, `cancelBooking` and `checkoutRoom`
calls, which always exists, each ledger key is the number of a catalog room
whose flag is set.  On load, a bookings record whose room number is not in
the catalog leaves the state as it is, and a record for a catalog room adds
the ledger entry and sets the room's flag, whatever the flag was. -/
theorem C11_ledger_entries_booked_rooms (fs : Files) (h0 : Hotel) (acts : List Action)
    (g : Hotel) (line roomStr r1 username r2 : Str) (n : CInt)
    (hc : Hotel.construct fs = .ok h0) :
    (∃ h, h0.run acts = .ok h ∧
      ∀ k u, h.bookings.find? k = some u →
        ∃ r, h.rooms.find? k = some r ∧ r.isBooked = true) ∧
    (getline ',' line = some (roomStr, r1) → getline '\n' r1 = some (username, r2) →
      stoi roomStr = .ok n →
      (g.rooms.find? n = none → Hotel.loadBookingLine g line = .ok g) ∧
      (∀ r, g.rooms.find? n = some r →
        ∃ g1, Hotel.loadBookingLine g line = .ok g1 ∧
          g1.bookings.find? n = some username ∧
          g1.rooms.find? n = some { r with isBooked := true })) := by
  refine ⟨ledgerBooked_run acts h0 (ledgerBooked_construct fs h0 hc), ?_⟩
  intro h1 h2 h3
  have hp := loadBookingLine_parsed g line roomStr r1 username r2 n h1 h2 h3
  refine ⟨hp.1, fun r hr => ⟨_, hp.2 r hr, ?_, ?_⟩⟩
  · simp [Map.find?_insert]
  · simp [Map.find?_modify, hr, Room.setBooked]

/-- C11 for `orphanSession` run in the state built from `orphanFiles`, and
for the bookings records `999,alice` and `102,alice` read in the state made
of the rooms of `sampleAfterSession`, where room 102 is not flagged. -/
theorem C11_ledger_entries_booked_rooms_witness :
    (∃ h, orphanLoaded.run orphanSession = .ok h ∧
      ∀ k u, h.bookings.find? k = some u →
        ∃ r, h.rooms.find? k = some r ∧ r.isBooked = true) ∧
    Hotel.loadBookingLine sampleAfterSession "999,alice".toList = .ok sampleAfterSession ∧
    (∃ g1, Hotel.loadBookingLine sampleAfterSession "102,alice".toList = .ok g1 ∧
      g1.bookings.find? (CInt.lit 102) = some "alice".toList ∧
      g1.rooms.find? (CInt.lit 102) = some ⟨CInt.lit 102, .Deluxe, true⟩) :=
  ⟨(C11_ledger_entries_booked_rooms orphanFiles orphanLoaded orphanSession Hotel.empty
      [] [] [] [] [] (CInt.lit 0) (by decide)).1,
   ((C11_ledger_entries_booked_rooms orphanFiles orphanLoaded [] sampleAfterSession
      "999,alice".toList "999".toList "alice".toList "alice".toList [] (CInt.lit 999)
      (by decide)).2 (by decide) (by decide) (by decide)).1 (by decide),
   ((C11_ledger_entries_booked_rooms orphanFiles orphanLoaded [] sampleAfterSession
      "102,alice".toList "102".toList "alice".toList "alice".toList [] (CInt.lit 102)
      (by decide)).2 (by decide) (by decide) (by decide)).2
        ⟨CInt.lit 102, .Deluxe, false⟩ (by decide)⟩

/-! ## C12: malformed records during a load -/

theorem loadBookingLine_total (h : Hotel) (l : Str) :
    ∃ h1, Hotel.loadBookingLine h l = .ok h1 := by
  unfold Hotel.loadBookingLine
  repeat' split
  all_goals exact ⟨_, rfl⟩

theorem forEachLine_total (body : Hotel → Str → Except Fault Hotel)
    (hbody : ∀ h l, ∃ h1, body h l = .ok h1) :
    ∀ (ls : List Str) (h : Hotel), ∃ h1, forEachLine body ls h = .ok h1 := by
  intro ls
  induction ls with
  | nil => intro h; exact ⟨h, rfl⟩
  | cons l rest ih =>
    intro h
    obtain ⟨h1, hb⟩ := hbody h l
    obtain ⟨h2, hr⟩ := ih h1
    exact ⟨h2, by simp only [forEachLine, hb, hr]⟩

theorem loadBookingsFromFile_total (file : Option Str) (h : Hotel) :
    ∃ h1, Hotel.loadBookingsFromFile file h = .ok h1 := by
  unfold Hotel.loadBookingsFromFile
  cases file with
  | none => exact ⟨h, rfl⟩
  | some content => exact forEachLine_total _ loadBookingLine_total _ h

/-- C12 fails on the code.  `loadCustomersFromFile` lets `invalid_argument`
escape on a non-numeric points field and `out_of_range` on a points field
beyond the `int` range; `loadRoomsFromFile` lets `out_of_range` escape on a
room number beyond the `int` range; in each case the load and the constructor
end there and the well-formed record that follows is not loaded.
`loadRoomsFromFile` does skip a non-numeric room number and load the next
record, and `loadBookingsFromFile` returns normally on every file. -/
theorem C12_exception_escapes_load :
    Hotel.loadCustomersFromFile (some badPointsFile) Hotel.empty = .error .invalid_argument ∧
    Hotel.loadCustomersFromFile (some hugePointsFile) Hotel.empty = .error .out_of_range ∧
    Hotel.loadRoomsFromFile (some hugeRoomNumberFile) Hotel.empty = .error .out_of_range ∧
    Hotel.construct ⟨some badPointsFile, none, none⟩ = .error .invalid_argument ∧
    Hotel.construct ⟨none, some hugeRoomNumberFile, none⟩ = .error .out_of_range ∧
    (Hotel.loadRoomsFromFile (some badRoomNumberFile) Hotel.empty).toOption.map
        (fun h => h.rooms.entries)
      = some [(CInt.lit 101, ⟨CInt.lit 101, .Standard, false⟩)] ∧
    (∀ (file : Option Str) (h : Hotel), ∃ h1, Hotel.loadBookingsFromFile file h = .ok h1) :=
  ⟨by decide, by decide, by decide, by decide, by decide, by decide,
   loadBookingsFromFile_total⟩

/-! ## C13: registration -/

theorem readValid_skip (valid : Str → Bool) (bad : List Str) (x : Str) (rest : List Str)
    (hbad : ∀ e ∈ bad, valid e = false) (hx : valid x = true) :
    readValid valid (bad ++ x :: rest) = some (x, rest) := by
  induction bad with
  | nil => simp [readValid, hx]
  | cons b bs ih =>
    have hb := hbad b (List.mem_cons_self b bs)
    simp only [List.cons_append, readValid, hb, Bool.false_eq_true, if_false]
    exact ih (fun e he => hbad e (List.mem_cons_of_mem b he))

theorem Map.size_insert_new {K V : Type} [DecidableEq K] (m : Map K V) (k : K) (v : V)
    (hk : m.find? k = none) : (m.insert k v).size = m.size + 1 := by
  have hnot : k ∉ m.val.map Prod.fst := by
    intro hmem
    have := (assocFind_isSome k m.val).mpr hmem
    unfold Map.find? at hk
    rw [hk] at this
    cases this
  have hkeys := assocSet_keys k v m.val
  rw [if_neg hnot] at hkeys
  have := congrArg List.length hkeys
  simp only [List.length_map, List.length_append, List.length_singleton] at this
  exact this

/-- C13: for an identifier already in the directory `registerCustomer` is
rejected and returns the state as it was.  For an identifier not in the
directory, whatever invalid e-mail addresses, phone numbers and national IDs
are typed before the valid ones, it adds one customer under that identifier
with the given name, e-mail, phone, national ID and password, zero points and
tier `REGULAR`, and leaves the other customers, the rooms and the ledger as
they were. -/
theorem C13_registerCustomer (h : Hotel) (username password name email phone adhaar : Str)
    (badEmails badPhones badAdhaars rest : List Str) :
    ((h.customers.find? username).isSome = true →
      h.registerCustomer (username :: rest) = some (.usernameExists, h, rest)) ∧
    (h.customers.find? username = none →
      (∀ e ∈ badEmails, Validator.isValidEmail e = false) →
      Validator.isValidEmail email = true →
      (∀ e ∈ badPhones, Validator.isValidPhone e = false) →
      Validator.isValidPhone phone = true →
      (∀ e ∈ badAdhaars, Validator.isValidAdhaar e = false) →
      Validator.isValidAdhaar adhaar = true →
      ∃ h1, h.registerCustomer (username :: password :: name ::
          (badEmails ++ email :: (badPhones ++ phone :: (badAdhaars ++ adhaar :: rest))))
          = some (.registrationSuccessful, h1, rest) ∧
        h1.customers.find? username
          = some ⟨name, email, phone, adhaar, password, CInt.lit 0, .REGULAR⟩ ∧
        (CInt.lit 0).toInt = 0 ∧
        h1.customers.size = h.customers.size + 1 ∧
        (∀ u, u ≠ username → h1.customers.find? u = h.customers.find? u) ∧
        h1.rooms = h.rooms ∧ h1.bookings = h.bookings) := by
  constructor
  · intro hpresent
    unfold Hotel.registerCustomer
    simp only [readLine, hpresent, if_true]
  · intro hnew hbe he hbp hp hba ha
    refine ⟨⟨h.customers.insert username (Customer.new name email phone adhaar password),
      h.rooms, h.bookings⟩, ?_, ?_, CInt.toInt_lit 0 (by omega),
      Map.size_insert_new _ _ _ hnew, ?_, rfl, rfl⟩
    · unfold Hotel.registerCustomer
      simp only [readLine, hnew, Option.isSome_none, Bool.false_eq_true, if_false,
        readValid_skip _ badEmails email _ hbe he, readValid_skip _ badPhones phone _ hbp hp,
        readValid_skip _ badAdhaars adhaar _ hba ha]
    · simp only [Map.find?_insert, if_true]
      rfl
    · intro u hu
      have : ¬ username = u := fun x => hu x.symm
      simp only [Map.find?_insert, this, if_false]

/-- C13 in `sampleHotel`: alice is registered already; carol registers after
one rejected e-mail address and one rejected phone number. -/
theorem C13_registerCustomer_witness :
    sampleHotel.registerCustomer ["alice".toList, "x".toList]
      = some (.usernameExists, sampleHotel, ["x".toList]) ∧
    (∃ h1, sampleHotel.registerCustomer
        ("carol".toList :: "p3".toList :: "Carol".toList ::
          (["carol.b.in".toList] ++ "carol@b.in".toList ::
            (["12345".toList] ++ "9876543210".toList ::
              ([] ++ "123456789012".toList :: []))))
        = some (.registrationSuccessful, h1, []) ∧
      h1.customers.find? "carol".toList
        = some ⟨"Carol".toList, "carol@b.in".toList, "9876543210".toList,
            "123456789012".toList, "p3".toList, CInt.lit 0, .REGULAR⟩ ∧
      (CInt.lit 0).toInt = 0 ∧
      h1.customers.size = sampleHotel.customers.size + 1 ∧
      (∀ u, u ≠ "carol".toList → h1.customers.find? u = sampleHotel.customers.find? u) ∧
      h1.rooms = sampleHotel.rooms ∧ h1.bookings = sampleHotel.bookings) :=
  ⟨(C13_registerCustomer sampleHotel "alice".toList [] [] [] [] [] [] [] []
      ["x".toList]).1 (by decide),
   (C13_registerCustomer sampleHotel "carol".toList "p3".toList "Carol".toList
      "carol@b.in".toList "9876543210".toList "123456789012".toList
      ["carol.b.in".toList] ["12345".toList] [] []).2
      (by decide) (by decide) (by decide) (by decide) (by decide) (by decide) (by decide)⟩

/-! ## C16 and C17: the two scenarios of the first run -/

/-- C16 (as amended): in the first-run catalog room 101 is a free Standard room
priced 3000; alice registers and has 0 points; booking room 101 gives her 300
points and tier Silver; cancelling room 101 afterwards returns her to 0
points (tier Regular), clears the flag of room 101 and leaves no ledger entry
for it. -/
theorem C16_scenario_alice :
    Hotel.construct ⟨none, none, none⟩ = .ok firstRunHotel ∧
    firstRunHotel.registerCustomer aliceInput
      = some (.registrationSuccessful, afterRegistration firstRunHotel aliceInput, []) ∧
    pointsAndTier (afterRegistration firstRunHotel aliceInput) "alice".toList
      = some (0, .REGULAR) ∧
    roomFacts (afterRegistration firstRunHotel aliceInput) (CInt.lit 101)
      = some (.Standard, 3000, false) ∧
    ((afterRegistration firstRunHotel aliceInput).bookRoom "alice".toList (CInt.lit 101)).1
      = .bookedSuccessfully (CInt.lit 300) ∧
    pointsAndTier
        ((afterRegistration firstRunHotel aliceInput).bookRoom "alice".toList (CInt.lit 101)).2
        "alice".toList
      = some (300, .SILVER) ∧
    (((afterRegistration firstRunHotel aliceInput).bookRoom "alice".toList
        (CInt.lit 101)).2.cancelBooking "alice".toList (CInt.lit 101)).toOption.map Prod.fst
      = some (.bookingCanceled (CInt.lit 300)) ∧
    pointsAndTier
        (afterCancel
          ((afterRegistration firstRunHotel aliceInput).bookRoom "alice".toList
            (CInt.lit 101)).2 "alice".toList (CInt.lit 101))
        "alice".toList
      = some (0, .REGULAR) ∧
    roomFacts
        (afterCancel
          ((afterRegistration firstRunHotel aliceInput).bookRoom "alice".toList
            (CInt.lit 101)).2 "alice".toList (CInt.lit 101))
        (CInt.lit 101)
      = some (.Standard, 3000, false) ∧
    (afterCancel
        ((afterRegistration firstRunHotel aliceInput).bookRoom "alice".toList
          (CInt.lit 101)).2 "alice".toList (CInt.lit 101)).bookings.find? (CInt.lit 101)
      = none := by
  decide

/-- C16 fails as stated: after booking room 101 alice has 300 points and her
tier is Silver, not Regular. -/
theorem C16_scenario_alice_counterexample :
    pointsAndTier
        ((afterRegistration firstRunHotel aliceInput).bookRoom "alice".toList (CInt.lit 101)).2
        "alice".toList
      = some (300, .SILVER) ∧
    pointsAndTier
        ((afterRegistration firstRunHotel aliceInput).bookRoom "alice".toList (CInt.lit 101)).2
        "alice".toList
      ≠ some (300, .REGULAR) := by
  decide

/-- C17 (as amended): in the first-run catalog room 201 is a Standard room
priced 3000 and room 202 is the Deluxe room priced 5000.  For the newly
registered bob with 0 points, booking room 201 gives 300 points and tier
Silver, booking room 202 gives 500 points and tier Gold; the checkout of the
booked room afterwards clears its flag, removes its ledger entry and leaves
bob's points and tier as they were. -/
theorem C17_scenario_bob :
    Hotel.construct ⟨none, none, none⟩ = .ok firstRunHotel ∧
    firstRunHotel.rooms.size = 15 ∧
    firstRunHotel.registerCustomer bobInput
      = some (.registrationSuccessful, afterRegistration firstRunHotel bobInput, []) ∧
    pointsAndTier (afterRegistration firstRunHotel bobInput) "bob".toList
      = some (0, .REGULAR) ∧
    roomFacts (afterRegistration firstRunHotel bobInput) (CInt.lit 201)
      = some (.Standard, 3000, false) ∧
    roomFacts (afterRegistration firstRunHotel bobInput) (CInt.lit 202)
      = some (.Deluxe, 5000, false) ∧
    pointsAndTier
        ((afterRegistration firstRunHotel bobInput).bookRoom "bob".toList (CInt.lit 201)).2
        "bob".toList
      = some (300, .SILVER) ∧
    pointsAndTier
        (((afterRegistration firstRunHotel bobInput).bookRoom "bob".toList
          (CInt.lit 201)).2.checkoutRoom (CInt.lit 201)).2 "bob".toList
      = some (300, .SILVER) ∧
    roomFacts
        (((afterRegistration firstRunHotel bobInput).bookRoom "bob".toList
          (CInt.lit 201)).2.checkoutRoom (CInt.lit 201)).2 (CInt.lit 201)
      = some (.Standard, 3000, false) ∧
    (((afterRegistration firstRunHotel bobInput).bookRoom "bob".toList
        (CInt.lit 201)).2.checkoutRoom (CInt.lit 201)).2.bookings.find? (CInt.lit 201)
      = none ∧
    pointsAndTier
        ((afterRegistration firstRunHotel bobInput).bookRoom "bob".toList (CInt.lit 202)).2
        "bob".toList
      = some (500, .GOLD) ∧
    (((afterRegistration firstRunHotel bobInput).bookRoom "bob".toList
        (CInt.lit 202)).2.checkoutRoom (CInt.lit 202)).1 = .checkedOutBy "bob".toList ∧
    pointsAndTier
        (((afterRegistration firstRunHotel bobInput).bookRoom "bob".toList
          (CInt.lit 202)).2.checkoutRoom (CInt.lit 202)).2 "bob".toList
      = some (500, .GOLD) ∧
    roomFacts
        (((afterRegistration firstRunHotel bobInput).bookRoom "bob".toList
          (CInt.lit 202)).2.checkoutRoom (CInt.lit 202)).2 (CInt.lit 202)
      = some (.Deluxe, 5000, false) ∧
    (((afterRegistration firstRunHotel bobInput).bookRoom "bob".toList
        (CInt.lit 202)).2.checkoutRoom (CInt.lit 202)).2.bookings.find? (CInt.lit 202)
      = none := by
  refine ⟨by decide, by decide, by decide, by decide, by decide, by decide, by decide,
    by decide, by decide, by decide, by decide, by decide, by decide, by decide, by decide⟩

/-- C17 fails as stated: in the first-run catalog room 201 is a Standard room
priced 3000, not a Deluxe room priced 5000, and booking it gives bob 300
points and tier Silver, not 500 points and tier Gold. -/
theorem C17_scenario_bob_counterexample :
    roomFacts firstRunHotel (CInt.lit 201) = some (.Standard, 3000, false) ∧
    roomFacts firstRunHotel (CInt.lit 201) ≠ some (.Deluxe, 5000, false) ∧
    pointsAndTier
        ((afterRegistration firstRunHotel bobInput).bookRoom "bob".toList (CInt.lit 201)).2
        "bob".toList
      = some (300, .SILVER) ∧
    pointsAndTier
        ((afterRegistration firstRunHotel bobInput).bookRoom "bob".toList (CInt.lit 201)).2
        "bob".toList
      ≠ some (500, .GOLD) := by
  decide

/-! ## C15: the listing of available rooms -/

theorem mem_floorsPush (f : CInt) (r : Room) (fl : List (CInt × List Room))
    (x : CInt × List Room) (hx : x ∈ floorsPush f r fl) :
    (x.1 = f ∧ x.2 ≠ []) ∨ x ∈ fl := by
  induction fl with
  | nil =>
    simp only [floorsPush, List.mem_singleton] at hx
    subst hx
    exact Or.inl ⟨rfl, by simp⟩
  | cons e rest ih =>
    simp only [floorsPush] at hx
    split_ifs at hx with h1 h2
    · rcases List.mem_cons.mp hx with hx | hx
      · subst hx
        exact Or.inl ⟨rfl, by simp⟩
      · exact Or.inr hx
    · rcases List.mem_cons.mp hx with hx | hx
      · subst hx
        exact Or.inl ⟨h2.symm, by simp⟩
      · exact Or.inr (List.mem_cons_of_mem e hx)
    · rcases List.mem_cons.mp hx with hx | hx
      · subst hx
        exact Or.inr (List.mem_cons_self _ rest)
      · rcases ih hx with h | h
        · exact Or.inl h
        · exact Or.inr (List.mem_cons_of_mem e h)

theorem floorsPush_ascending (f : CInt) (r : Room) (fl : List (CInt × List Room))
    (hs : FloorsAscending fl) : FloorsAscending (floorsPush f r fl) := by
  unfold FloorsAscending at hs ⊢
  induction fl with
  | nil => simp [floorsPush]
  | cons e rest ih =>
    rw [List.pairwise_cons] at hs
    simp only [floorsPush]
    split_ifs with h1 h2
    · rw [List.pairwise_cons]
      refine ⟨?_, List.pairwise_cons.mpr hs⟩
      intro a ha
      show f.toInt < a.1.toInt
      rcases List.mem_cons.mp ha with ha | ha
      · subst ha; exact h1
      · have := hs.1 a ha
        omega
    · rw [List.pairwise_cons]
      exact ⟨hs.1, hs.2⟩
    · rw [List.pairwise_cons]
      refine ⟨?_, ih hs.2⟩
      intro a ha
      rcases mem_floorsPush f r rest a ha with ⟨hf, _⟩ | hmem
      · rw [hf]
        have hne : f.toInt ≠ e.1.toInt := fun x => h2 (CInt.ext _ _ x)
        omega
      · exact hs.1 a hmem

theorem assocFind_none_of_lt (g : CInt) (fl : List (CInt × List Room))
    (hlt : ∀ a ∈ fl, g.toInt < a.1.toInt) : assocFind g fl = none := by
  apply assocFind_none_of_not_mem
  intro hmem
  obtain ⟨a, ha, hag⟩ := List.mem_map.mp hmem
  have := hlt a ha
  rw [hag] at this
  omega

theorem assocFind_floorsPush (f g : CInt) (r : Room) (fl : List (CInt × List Room))
    (hs : FloorsAscending fl) :
    assocFind g (floorsPush f r fl)
      = if f = g then some ((assocFind f fl).getD [] ++ [r]) else assocFind g fl := by
  unfold FloorsAscending at hs
  induction fl with
  | nil =>
    simp only [floorsPush, assocFind]
    split_ifs <;> rfl
  | cons e rest ih =>
    rw [List.pairwise_cons] at hs
    by_cases h1 : f.toInt < e.1.toInt
    · have hnone : assocFind f (e :: rest) = none := by
        apply assocFind_none_of_lt
        intro a ha
        rcases List.mem_cons.mp ha with ha | ha
        · subst ha; exact h1
        · have := hs.1 a ha
          omega
      simp only [floorsPush, h1, if_true]
      by_cases hg : f = g
      · subst hg
        rw [hnone]
        simp [assocFind]
      · simp [assocFind, hg]
    · by_cases h2 : f = e.1
      · simp only [floorsPush, h1, if_false, h2, if_true]
        by_cases hg : f = g
        · have heg : e.1 = g := h2.symm.trans hg
          simp [assocFind, heg]
        · have heg : ¬ e.1 = g := fun x => hg (h2.trans x)
          simp [assocFind, heg]
      · have hef : ¬ e.1 = f := fun x => h2 x.symm
        simp only [floorsPush, h1, h2, if_false]
        by_cases hg : f = g
        · subst hg
          have := ih hs.2
          simp only [if_true] at this
          simp only [assocFind, hef, if_false, if_true]
          exact this
        · have := ih hs.2
          simp only [hg, if_false] at this
          by_cases heg : e.1 = g
          · simp [assocFind, heg, hg]
          · simp only [assocFind, heg, hg, if_false]
            exact this

theorem floorsPush_perm (f : CInt) (r : Room) (fl : List (CInt × List Room)) :
    ((floorsPush f r fl).map Prod.snd).flatten.Perm (r :: (fl.map Prod.snd).flatten) := by
  induction fl with
  | nil => simp [floorsPush]
  | cons e rest ih =>
    simp only [floorsPush]
    split_ifs with h1 h2
    · simp
    · simp only [List.map_cons, List.flatten_cons, List.append_assoc, List.singleton_append]
      exact List.perm_middle
    · simp only [List.map_cons, List.flatten_cons]
      exact (List.Perm.append_left e.2 ih).trans List.perm_middle

theorem listingOf_step (done : List (CInt × Room)) (fl : List (CInt × List Room))
    (e : CInt × Room) (hL : ListingOf done fl) :
    ListingOf (done ++ [e])
      (if !e.2.isBooked then floorsPush (floorOfRoom e.1) e.2 fl else fl) := by
  obtain ⟨hs, hf, hne, hp⟩ := hL
  cases hb : e.2.isBooked with
  | true =>
    simp only [Bool.not_true, Bool.false_eq_true, if_false]
    refine ⟨hs, ?_, hne, ?_⟩
    · intro g
      simp [List.filter_append, List.filter, hb, hf g]
    · simpa [List.filter_append, List.filter, hb] using hp
  | false =>
    simp only [Bool.not_false, if_true]
    refine ⟨floorsPush_ascending _ _ _ hs, ?_, ?_, ?_⟩
    · intro g
      rw [assocFind_floorsPush _ _ _ _ hs]
      by_cases hg : floorOfRoom e.1 = g
      · subst hg
        simp [List.filter_append, List.filter, hb, hf]
      · simp [List.filter_append, List.filter, hb, hg, hf g]
    · intro x hx
      rcases mem_floorsPush _ _ _ x hx with ⟨_, h2⟩ | hmem
      · exact h2
      · exact hne x hmem
    · refine (floorsPush_perm _ _ _).trans ?_
      simp only [List.filter_append, List.filter, hb, Bool.not_false, List.map_append,
        List.map_cons, List.map_nil]
      exact (List.Perm.cons e.2 hp).trans (List.perm_append_singleton e.2 _).symm

theorem listingOf_foldl (todo : List (CInt × Room)) :
    ∀ (done : List (CInt × Room)) (fl : List (CInt × List Room)), ListingOf done fl →
      ListingOf (done ++ todo)
        (todo.foldl (fun floors e =>
          if !e.2.isBooked then floorsPush (floorOfRoom e.1) e.2 floors else floors) fl) := by
  induction todo with
  | nil => intro done fl hL; simpa using hL
  | cons e rest ih =>
    intro done fl hL
    have := ih (done ++ [e]) _ (listingOf_step done fl e hL)
    simpa [List.append_assoc] using this

theorem insertInBucket_perm {V : Type} (n : Nat) (e : CInt × V) :
    ∀ l l1 : List (CInt × V), insertInBucket n e l = some l1 → l1.Perm (e :: l) := by
  intro l
  induction l with
  | nil => intro l1 h; simp [insertInBucket] at h
  | cons x rest ih =>
    intro l1 h
    simp only [insertInBucket] at h
    split_ifs at h with hb
    · cases h
      exact List.Perm.refl _
    · cases hr : insertInBucket n e rest with
      | none => rw [hr] at h; cases h
      | some l2 =>
        rw [hr] at h
        cases h
        exact ((ih l2 hr).cons x).trans (List.Perm.swap e x rest)

theorem insertBucketBegin_perm {V : Type} (n : Nat) (e : CInt × V) (l : List (CInt × V)) :
    (insertBucketBegin n e l).Perm (e :: l) := by
  unfold insertBucketBegin
  cases hr : insertInBucket n e l with
  | none => exact List.Perm.refl _
  | some l1 => exact insertInBucket_perm n e l l1 hr

theorem foldl_insertBucketBegin_perm {V : Type} (n : Nat) (l : List (CInt × V)) :
    ∀ acc : List (CInt × V),
      (l.foldl (fun acc x => insertBucketBegin n x acc) acc).Perm (l ++ acc) := by
  induction l with
  | nil => intro acc; exact List.Perm.refl _
  | cons x rest ih =>
    intro acc
    refine (ih (insertBucketBegin n x acc)).trans ?_
    refine ((insertBucketBegin_perm n x acc).append_left rest).trans ?_
    exact List.perm_middle

theorem rehashNodes_perm {V : Type} (n : Nat) (l : List (CInt × V)) :
    (rehashNodes n l).Perm l := by
  have := foldl_insertBucketBegin_perm n l []
  simpa [rehashNodes] using this

theorem insertNew_nodes_perm {V : Type} (t : Hashtable V) (e : CInt × V) :
    (t.insertNew e).nodes.Perm (e :: t.nodes) := by
  unfold Hashtable.insertNew
  by_cases h1 : t.nodes.length + 1 > t.nextResize
  · simp only [h1, if_true]
    by_cases h2 : max (t.nodes.length + 1) (if t.nextResize = 0 then 11 else 0) ≥ t.bucketCount
    · simp only [h2, if_true]
      exact (insertBucketBegin_perm _ e _).trans ((rehashNodes_perm _ t.nodes).cons e)
    · simp only [h2, if_false]
      exact insertBucketBegin_perm _ e _
  · simp only [h1, if_false]
    exact insertBucketBegin_perm _ e _

theorem foldl_insertNew_perm {V : Type} (l : List (CInt × V)) :
    ∀ t : Hashtable V, (l.foldl Hashtable.insertNew t).nodes.Perm (l ++ t.nodes) := by
  induction l with
  | nil => intro t; exact List.Perm.refl _
  | cons x rest ih =>
    intro t
    refine (ih (t.insertNew x)).trans ?_
    refine ((insertNew_nodes_perm t x).append_left rest).trans ?_
    exact List.perm_middle

theorem iterationOrder_perm {V : Type} (l : List (CInt × V)) : (iterationOrder l).Perm l := by
  have := foldl_insertNew_perm l Hashtable.empty
  simpa [iterationOrder, Hashtable.empty] using this

theorem listingOf_viewAvailableRooms (h : Hotel) :
    ListingOf h.roomsIteration h.viewAvailableRooms := by
  have h0 : ListingOf [] [] := by
    refine ⟨List.Pairwise.nil, fun g => rfl, fun x hx => by simp at hx, by simp⟩
  have := listingOf_foldl h.roomsIteration [] [] h0
  simpa [Hotel.viewAvailableRooms] using this

theorem floorsAscending_nodup (fl : List (CInt × List Room)) (hs : FloorsAscending fl) :
    (fl.map Prod.fst).Nodup := by
  unfold FloorsAscending at hs
  unfold List.Nodup
  rw [List.pairwise_map]
  exact hs.imp (fun {a b} hab heq => by rw [heq] at hab; omega)

/-- C15 (as amended): the loop of `viewAvailableRooms` visits every room of
the catalog once, in the iteration order of the room map.  The listing has the
floors in strictly ascending order; under floor `f` it has, in that iteration
order, the unbooked rooms whose number divided by 100 is `f`, and only floors
with such a room are printed; every unbooked room of the catalog is listed
under its floor, and the rooms listed are the unbooked rooms of the catalog,
each once. -/
theorem C15_viewAvailableRooms (h : Hotel) :
    h.roomsIteration.Perm h.rooms.entries ∧
    FloorsAscending h.viewAvailableRooms ∧
    (∀ f rs, (f, rs) ∈ h.viewAvailableRooms → rs ≠ [] ∧ rs = availableOnFloor h f) ∧
    (∀ e ∈ h.rooms.entries, e.2.isBooked = false →
      ∃ rs, (floorOfRoom e.1, rs) ∈ h.viewAvailableRooms ∧ e.2 ∈ rs) ∧
    (h.viewAvailableRooms.map Prod.snd).flatten.Perm
      ((h.rooms.entries.filter (fun e => !e.2.isBooked)).map Prod.snd) := by
  obtain ⟨hs, hf, hne, hp⟩ := listingOf_viewAvailableRooms h
  have hnd := floorsAscending_nodup _ hs
  have hperm : h.roomsIteration.Perm h.rooms.entries := iterationOrder_perm h.rooms.entries
  refine ⟨hperm, hs, ?_, ?_, hp.trans ((hperm.filter _).map _)⟩
  · intro f rs hmem
    have hfind := assocFind_of_mem f rs _ hnd hmem
    have := hf f
    rw [hfind] at this
    exact ⟨hne _ hmem, this⟩
  · intro e he hb
    have hin : e.2 ∈ availableOnFloor h (floorOfRoom e.1) := by
      unfold availableOnFloor
      apply List.mem_map.mpr
      exact ⟨e, List.mem_filter.mpr ⟨hperm.mem_iff.mpr he, by simp [hb]⟩, rfl⟩
    have := hf (floorOfRoom e.1)
    cases hfind : assocFind (floorOfRoom e.1) h.viewAvailableRooms with
    | none =>
      rw [hfind] at this
      unfold availableOnFloor at hin
      rw [← this] at hin
      simp at hin
    | some rs =>
      rw [hfind] at this
      refine ⟨rs, assocFind_mem _ _ _ hfind, ?_⟩
      have hrs : rs = availableOnFloor h (floorOfRoom e.1) := this
      rw [hrs]
      exact hin

/-- The listing for a rooms file with the record of room 102 before that of
room 101: room 101 is printed first. -/
theorem viewAvailableRooms_descending_records :
    (Hotel.construct
        ⟨none, some "102,0,Deluxe\n101,0,Standard\n201,1,Standard\n".toList, none⟩).toOption.map
      (fun h => h.viewAvailableRooms.map
        (fun x => (x.1.toInt, x.2.map (fun r => r.roomNumber.toInt))))
      = some [(1, [101, 102])] := by
  decide

/-- C15 fails as stated.  The constructor builds `ascendingHotel` from a rooms
file with the records of rooms 101 and 102 in this order, and
`viewAvailableRooms` prints room 102 before room 101 under floor 1.  In the
catalog of the first run, which the constructor builds without files, it
prints the rooms of floor 5 as 503, 502, 501. -/
theorem C15_viewAvailableRooms_counterexample :
    (Hotel.construct ⟨none, some ascendingRoomsFile, none⟩ = .ok ascendingHotel ∧
      ascendingHotel.viewAvailableRooms.map
          (fun x => (x.1.toInt, x.2.map (fun r => r.roomNumber.toInt)))
        = [(1, [102, 101])] ∧
      ¬ List.Pairwise (fun a b : Int => a < b) [102, 101]) ∧
    (Hotel.construct ⟨none, none, none⟩ = .ok firstRunHotel ∧
      firstRunHotel.viewAvailableRooms.map
          (fun x => (x.1.toInt, x.2.map (fun r => r.roomNumber.toInt)))
        = [(1, [101, 102, 103]), (2, [201, 202, 203]), (3, [301, 302, 303]),
           (4, [401, 402, 403]), (5, [503, 502, 501])] ∧
      ¬ List.Pairwise (fun a b : Int => a < b) [503, 502, 501]) := by
  refine ⟨⟨by decide, by decide, by decide⟩, ⟨by decide, by decide, by decide⟩⟩

/-! ## C14: the occupancy report -/

set_option maxRecDepth 100000 in
theorem printedHundredths_exact_below_32 : ∀ t, t < 32 → ∀ b, b < t + 1 → 0 < t →
    printedHundredths (mulDouble100 (divDouble b t)) = exactHundredths b t := by
  decide

theorem generateOccupancyReport_sizes (h : Hotel) (t b : Nat) (ht : h.rooms.size = t)
    (hb : h.bookings.size = b) : h.generateOccupancyReport = occupancyReport t b := by
  unfold Hotel.generateOccupancyReport
  rw [ht, hb]

theorem busyHotel_sizes : busyHotel.rooms.size = 160 ∧ busyHotel.bookings.size = 23 := by
  constructor
  · simp [busyHotel, Map.size, numberedRooms]
  · simp [busyHotel, Map.size, numberedBookings]

theorem toInt_lit_eq (n : Nat) (h : (CInt.lit n).toInt = n) : n ≤ 2147483647 := by
  have := CInt.toInt_range (CInt.lit n)
  omega

/-- C14 (as amended): in a state where `totalRooms` is the number of catalog
rooms, which is positive, and `bookedRooms` is the number of ledger entries,
`generateOccupancyReport` reports availableRooms = totalRooms - bookedRooms
and prints as rate the binary64 value of `bookedRooms / totalRooms * 100.0`
rounded to two decimals; with fewer than 32 rooms and no more bookings than
rooms this is the exact rational rate rounded to two decimals; with 15 rooms
and 3 bookings the report shows 12 available rooms and the rate 20.00. -/
theorem C14_generateOccupancyReport (h : Hotel)
    (htotal : h.generateOccupancyReport.totalRooms.toInt = h.rooms.size)
    (hpos : 0 < h.rooms.size)
    (hbooked : h.generateOccupancyReport.bookedRooms.toInt = h.bookings.size) :
    h.generateOccupancyReport.availableRooms.toInt
      = (h.rooms.size : Int) - (h.bookings.size : Int) ∧
    h.generateOccupancyReport.occupancyRate
      = .number false
          (printedHundredths (mulDouble100 (divDouble h.bookings.size h.rooms.size))) ∧
    (h.rooms.size < 32 → h.bookings.size ≤ h.rooms.size →
      h.generateOccupancyReport.occupancyRate
        = .number false (exactHundredths h.bookings.size h.rooms.size)) ∧
    (h.rooms.size = 15 → h.bookings.size = 3 →
      h.generateOccupancyReport = ⟨CInt.lit 15, CInt.lit 3, CInt.lit 12, .number false 2000⟩ ∧
      (CInt.lit 12).toInt = 12 ∧ showHundredths 2000 = "20.00".toList) := by
  have ht : (CInt.lit h.rooms.size).toInt = h.rooms.size := by
    simpa only [Hotel.generateOccupancyReport, occupancyReport] using htotal
  have hb : (CInt.lit h.bookings.size).toInt = h.bookings.size := by
    simpa only [Hotel.generateOccupancyReport, occupancyReport] using hbooked
  have ht' := toInt_lit_eq _ ht
  have hb' := toInt_lit_eq _ hb
  have hrate : h.generateOccupancyReport.occupancyRate
      = .number false
          (printedHundredths (mulDouble100 (divDouble h.bookings.size h.rooms.size))) := by
    simp only [Hotel.generateOccupancyReport, occupancyReport]
    unfold occupancyRate
    have h0 : ¬ (h.rooms.size : Int) = 0 := by omega
    have h1 : ¬ (h.rooms.size : Int) < 0 := by omega
    have h2 : ¬ (h.bookings.size : Int) < 0 := by omega
    simp only [ht, hb, h0, if_false, h1, h2, decide_False, bne_self_eq_false, Int.natAbs_ofNat]
  refine ⟨?_, hrate, ?_, ?_⟩
  · simp only [Hotel.generateOccupancyReport, occupancyReport]
    unfold CInt.sub
    rw [ht, hb, CInt.toInt_wrap] <;> omega
  · intro hlt hle
    rw [hrate, printedHundredths_exact_below_32 h.rooms.size hlt h.bookings.size (by omega) hpos]
  · intro h15 h3
    unfold Hotel.generateOccupancyReport
    rw [h15, h3]
    exact ⟨by decide, by decide, by decide⟩

/-- C14 at `threeBookedHotel`: 15 rooms, 3 bookings. -/
theorem C14_generateOccupancyReport_witness :
    threeBookedHotel.generateOccupancyReport.availableRooms.toInt
      = (threeBookedHotel.rooms.size : Int) - (threeBookedHotel.bookings.size : Int) ∧
    threeBookedHotel.generateOccupancyReport.occupancyRate
      = .number false
          (printedHundredths
            (mulDouble100 (divDouble threeBookedHotel.bookings.size threeBookedHotel.rooms.size))) ∧
    (threeBookedHotel.rooms.size < 32 →
      threeBookedHotel.bookings.size ≤ threeBookedHotel.rooms.size →
      threeBookedHotel.generateOccupancyReport.occupancyRate
        = .number false
            (exactHundredths threeBookedHotel.bookings.size threeBookedHotel.rooms.size)) ∧
    (threeBookedHotel.rooms.size = 15 → threeBookedHotel.bookings.size = 3 →
      threeBookedHotel.generateOccupancyReport
        = ⟨CInt.lit 15, CInt.lit 3, CInt.lit 12, .number false 2000⟩ ∧
      (CInt.lit 12).toInt = 12 ∧ showHundredths 2000 = "20.00".toList) :=
  C14_generateOccupancyReport threeBookedHotel (by decide) (by decide) (by decide)

/-- C14 fails as stated: with 160 rooms and 23 bookings the exact rational
rate is 14.375, which rounds to 14.38 whether a tie goes to the even digit or
up, and the report prints 14.37, the binary64 result being
14.374999999999998; the report does round, as it prints 66.67 for 2
bookings in 3 rooms. -/
theorem C14_generateOccupancyReport_counterexample :
    busyHotel.rooms.size = 160 ∧ busyHotel.bookings.size = 23 ∧
    busyHotel.generateOccupancyReport.totalRooms.toInt = 160 ∧
    busyHotel.generateOccupancyReport.bookedRooms.toInt = 23 ∧
    busyHotel.generateOccupancyReport.occupancyRate = .number false 1437 ∧
    showHundredths 1437 = "14.37".toList ∧
    (23 : ℚ) / 160 * 100 = 14375 / 1000 ∧
    exactHundredths 23 160 = 1438 ∧ exactHundredthsHalfUp 23 160 = 1438 ∧
    twoOfThreeHotel.generateOccupancyReport.occupancyRate = .number false 6667 := by
  have hr := generateOccupancyReport_sizes busyHotel 160 23 busyHotel_sizes.1 busyHotel_sizes.2
  refine ⟨busyHotel_sizes.1, busyHotel_sizes.2, ?_, ?_, ?_, by decide, by norm_num,
    by decide, by decide, by decide⟩
  · rw [hr]; decide
  · rw [hr]; decide
  · rw [hr]; decide

/-! ## C6: only the occupant may cancel -/

theorem registerCustomer_frame (h : Hotel) (input : List Str)
    (out : RegistrationMessage × Hotel × List Str)
    (hout : h.registerCustomer input = some out) :
    out.2.1.rooms = h.rooms ∧ out.2.1.bookings = h.bookings := by
  unfold Hotel.registerCustomer at hout
  simp only at hout
  split_ifs at hout
  · cases hout
    exact ⟨rfl, rfl⟩
  · split at hout
    · cases hout
    · split at hout
      · cases hout
      · split at hout
        · cases hout
        · cases hout
          exact ⟨rfl, rfl⟩

theorem ledgerBooked_of_reachable (h : Hotel) (hr : Reachable h) : LedgerBooked h := by
  induction hr with
  | construct fs h hc => exact ledgerBooked_construct fs h hc
  | register h input out _ hout ih =>
    obtain ⟨h1, h2⟩ := registerCustomer_frame h input out hout
    intro n u hu
    rw [h2] at hu
    rw [h1]
    exact ih n u hu
  | book h customer roomNumber _ ih => exact ledgerBooked_bookRoom h customer roomNumber ih
  | cancel h customer roomNumber out _ hout ih =>
    exact ledgerBooked_cancelBooking h customer roomNumber ih out hout
  | checkout h roomNumber _ ih => exact ledgerBooked_checkoutRoom h roomNumber ih

theorem reachable_run (acts : List Action) :
    ∀ h h1 : Hotel, Reachable h → h.run acts = .ok h1 → Reachable h1 := by
  induction acts with
  | nil =>
    intro h h1 hr hrun
    simp only [Hotel.run] at hrun
    cases hrun
    exact hr
  | cons a rest ih =>
    intro h h1 hr hrun
    simp only [Hotel.run] at hrun
    cases hs : h.step a with
    | error e => rw [hs] at hrun; cases hrun
    | ok h2 =>
      rw [hs] at hrun
      refine ih h2 h1 ?_ hrun
      cases a with
      | book customer roomNumber =>
        simp only [Hotel.step] at hs
        cases hs
        exact Reachable.book h customer roomNumber hr
      | cancel customer roomNumber =>
        simp only [Hotel.step] at hs
        cases hc : h.cancelBooking customer roomNumber with
        | error e => rw [hc] at hs; cases hs
        | ok out =>
          rw [hc] at hs
          cases hs
          exact Reachable.cancel h customer roomNumber out hr hc
      | checkout roomNumber =>
        simp only [Hotel.step] at hs
        cases hs
        exact Reachable.checkout h roomNumber hr

/-- C6: in every state of a run of the program (the state the constructor
builds from any files, followed by any registrations, bookings, cancellations
and checkouts), for every customer and every room number that is not in the
ledger or whose ledger entry names another identifier than the acting
customer's, `cancelBooking` is rejected and returns the state as it was:
the ledger, the rooms with their flags, and the customers with their
points. -/
theorem C6_cancelBooking_rejected (h : Hotel) (customer : Str) (roomNumber : CInt)
    (hreach : Reachable h)
    (hother : h.bookings.find? roomNumber = none ∨
      ∃ u, h.bookings.find? roomNumber = some u ∧ u ≠ h.getUsernameByCustomer customer) :
    ∃ msg, h.cancelBooking customer roomNumber = .ok (msg, h) ∧
      (msg = .noBookingsToCancel ∨ msg = .noBookingForRoom) := by
  have hP := ledgerBooked_of_reachable h hreach
  have hall : (h.userRooms customer).all (fun n => (h.rooms.find? n).isSome) = true := by
    rw [List.all_eq_true]
    intro n hn
    obtain ⟨r, hr, _⟩ := hP n _ ((userRooms_mem h customer n).mp hn)
    simp [hr]
  unfold Hotel.cancelBooking
  by_cases hne : h.userRooms customer = []
  · exact ⟨.noBookingsToCancel, by simp only [hne, if_true], Or.inl rfl⟩
  · simp only [hne, if_false, hall, if_true]
    rcases hother with hnone | ⟨u, hu, hdiff⟩
    · exact ⟨.noBookingForRoom, by simp only [hnone], Or.inr rfl⟩
    · exact ⟨.noBookingForRoom, by simp only [hu, hdiff, if_false], Or.inr rfl⟩

/-- C6 in the state the constructor builds from `orphanFiles`, where alice
holds room 102: bob's request to cancel room 102 is rejected. -/
theorem C6_cancelBooking_rejected_witness :
    ∃ msg, orphanLoaded.cancelBooking "bob".toList (CInt.lit 102) = .ok (msg, orphanLoaded) ∧
      (msg = .noBookingsToCancel ∨ msg = .noBookingForRoom) :=
  C6_cancelBooking_rejected orphanLoaded "bob".toList (CInt.lit 102)
    (Reachable.construct orphanFiles orphanLoaded (by decide))
    (Or.inr ⟨"alice".toList, by decide, by decide⟩)

end HotelBooking
